import Mathlib

/-!
# ti-dding: group records, the local record store and the group service

A shallow embedding of `internal/models/group.go`, `internal/storage/storage.go`
and `internal/services/group_service.go`.

Conventions of the embedding:

* a Go method with a pointer receiver becomes a function returning the new value
  next to its result;
* `time.Now()` is an explicit argument `now`, timestamps are natural numbers;
* the file `groups.json` is a value of `FileStorage`; a JSON round trip is the
  identity on records; a write that fails before the file is opened leaves the file as
  it was, a write that fails after `os.WriteFile` has opened and truncated the file
  leaves a file that cannot be loaded, or, when only closing the file fails, the new
  text; a failing storage call returns its error together with the file it leaves;
* the remote platform is an argument: the outcome of every remote call is supplied
  by the caller of the model, and every call made is appended to a log;
* a string is a sequence of Unicode characters (the Go strings are taken to be valid
  UTF-8), and strings.ToLower is an argument of the functions that call it;
* the clock readings taken while one group or one row is processed are equal;
* reading a CSV file is an argument (the records read, or the error of opening and
  parsing), the export returns the rows it writes, and the formatting of a timestamp is
  an argument of the export.
-/

namespace TiDding

/-! ## internal/models/group.go -/

/-- Group 群组信息. -/
structure Group where
  ID : String
  Name : String
  Description : String
  OwnerID : String
  MemberCount : Int
  CreatedAt : Nat
  UpdatedAt : Nat
  Status : String
  Members : List String
  GroupType : String
  IsExternal : Bool
deriving DecidableEq, Repr

/-- GroupCreateRequest 创建群组请求. -/
structure GroupCreateRequest where
  Name : String
  Description : String
  OwnerID : String
  MemberIDs : List String
  GroupType : String
  IsExternal : Bool
deriving DecidableEq, Repr

/-- GroupCreateResponse 创建群组响应. -/
structure GroupCreateResponse where
  GroupID : String
  Success : Bool
  Message : String
deriving DecidableEq, Repr

/-- GroupListResponse 群组列表响应. -/
structure GroupListResponse where
  Groups : List Group
  Total : Int
deriving DecidableEq, Repr

/-- GroupMemberRequest 群组成员操作请求. -/
structure GroupMemberRequest where
  GroupID : String
  UserIDs : List String
  AllGroups : Bool
deriving DecidableEq, Repr

/-- GroupMemberResponse 群组成员操作响应. -/
structure GroupMemberResponse where
  Success : Bool
  Message : String
  Affected : Int
deriving DecidableEq, Repr

/-- CSVGroupData CSV文件中的群组数据. -/
structure CSVGroupData where
  Name : String
  Description : String
  OwnerID : String
  MemberIDs : String
  GroupType : String
deriving DecidableEq, Repr

/-- NewGroupWithType 创建指定类型的群组实例; `ID` keeps Go's zero value. -/
def NewGroupWithType (now : Nat) (name description ownerID groupType : String)
    (isExternal : Bool) : Group :=
  { ID := ""
    Name := name
    Description := description
    OwnerID := ownerID
    MemberCount := 1
    CreatedAt := now
    UpdatedAt := now
    Status := "active"
    Members := [ownerID]
    GroupType := groupType
    IsExternal := isExternal }

/-- NewGroup 创建新的群组实例. -/
def NewGroup (now : Nat) (name description ownerID : String) : Group :=
  NewGroupWithType now name description ownerID "internal" false

/-- IsMember 检查用户是否是群成员: the search loop over `g.Members`. -/
def Group.IsMember (g : Group) (userID : String) : Bool :=
  match g.Members.find? (fun member => decide (member = userID)) with
  | some _ => true
  | none => false

/-- IsOwner 检查用户是否是群主. -/
def Group.IsOwner (g : Group) (userID : String) : Bool :=
  decide (g.OwnerID = userID)

/-- AddMember 添加成员: the first loop returns `false` on a member equal to `userID`;
otherwise the id is appended, the count recomputed and the timestamp refreshed. -/
def Group.AddMember (g : Group) (now : Nat) (userID : String) : Bool × Group :=
  if userID ∈ g.Members then (false, g)
  else
    (true, { g with
      Members := g.Members ++ [userID]
      MemberCount := ((g.Members ++ [userID]).length : Int)
      UpdatedAt := now })

/-- The loop of `RemoveMember` over the member list: `none` stands for `return false`,
`some ms` for the slice `append(Members[:i], Members[i+1:]...)` at the first index `i`
whose member equals `userID`. -/
def removeMemberLoop (ownerID userID : String) : List String → Option (List String)
  | [] => none
  | member :: rest =>
    if member = userID then
      if member = ownerID then none else some rest
    else
      match removeMemberLoop ownerID userID rest with
      | none => none
      | some ms => some (member :: ms)

/-- RemoveMember 移除成员. -/
def Group.RemoveMember (g : Group) (now : Nat) (userID : String) : Bool × Group :=
  match removeMemberLoop g.OwnerID userID g.Members with
  | none => (false, g)
  | some ms =>
    (true, { g with
      Members := ms
      MemberCount := (ms.length : Int)
      UpdatedAt := now })

/-- One membership call on a group, with the clock reading it would see. -/
inductive MemberOp where
  | add (now : Nat) (userID : String)
  | remove (now : Nat) (userID : String)
deriving DecidableEq, Repr

/-- The group after one membership call (the boolean result is dropped). -/
def MemberOp.run (g : Group) : MemberOp → Group
  | .add now userID => (g.AddMember now userID).2
  | .remove now userID => (g.RemoveMember now userID).2

/-- The group after a finite sequence of membership calls, first call first. -/
def runMemberOps (g : Group) (ops : List MemberOp) : Group :=
  ops.foldl MemberOp.run g

/-- The two facts every membership call keeps. -/
def Group.MembersOK (g : Group) : Prop :=
  g.MemberCount = (g.Members.length : Int) ∧ g.OwnerID ∈ g.Members

/-! ## Go standard library: strings -/

/-- The white space of `unicode.IsSpace`: tab, line feed, vertical tab, form feed,
carriage return, space, U+0085, U+00A0, and the code points of category Z and property
Pattern_White_Space above Latin-1. -/
def isSpace (c : Char) : Bool :=
  c.toNat = 0x09 || c.toNat = 0x0A || c.toNat = 0x0B || c.toNat = 0x0C || c.toNat = 0x0D ||
  c.toNat = 0x20 || c.toNat = 0x85 || c.toNat = 0xA0 || c.toNat = 0x1680 ||
  (0x2000 ≤ c.toNat && c.toNat ≤ 0x200A) || c.toNat = 0x2028 || c.toNat = 0x2029 ||
  c.toNat = 0x202F || c.toNat = 0x205F || c.toNat = 0x3000

/-- The characters of a string without leading and trailing white space. -/
def trimChars (cs : List Char) : List Char :=
  ((cs.dropWhile isSpace).reverse.dropWhile isSpace).reverse

/-- The function strings.TrimSpace. -/
def TrimSpace (s : String) : String :=
  String.mk (trimChars s.data)

/-- The pieces of a character sequence between the occurrences of `sep`: one piece more
than there are separators, empty pieces kept. -/
def splitChars (sep : Char) : List Char → List (List Char)
  | [] => [[]]
  | c :: cs =>
    if c = sep then [] :: splitChars sep cs
    else
      match splitChars sep cs with
      | [] => [[c]]
      | piece :: pieces => (c :: piece) :: pieces

/-- The function strings.Split for a separator of one character, as the service calls it
with ",". -/
def Split (s : String) (sep : Char) : List String :=
  (splitChars sep s.data).map String.mk

/-- The function strings.Join. -/
def Join (elems : List String) (sep : String) : String :=
  sep.intercalate elems

/-! ## internal/storage/storage.go -/

/-- The file `groups.json` behind a `FileStorage`: not there, there but failing to be
read or parsed (with the error `LoadGroups` returns), or holding a record sequence. -/
inductive FileStorage where
  | missing
  | unreadable (err : String)
  | stored (groups : List Group)
deriving DecidableEq, Repr

/-- LoadGroups 从文件加载群组列表. -/
def FileStorage.LoadGroups : FileStorage → Except String (List Group)
  | .missing => .ok []
  | .unreadable err => .error err
  | .stored groups => .ok groups

/-- How a call of `SaveGroups` fails: `refused err` when creating the directory,
serialising or opening the file fails, so that the file is as it was; `truncated err
loadErr` when writing fails after `os.WriteFile` has opened the file with `O_TRUNC`, so
that the file is empty or holds a part of the new text, and `LoadGroups` fails on it with
`loadErr`; `written err` when all of the new text is written and closing the file
fails, so that the file holds the new text. In each `err` is the error `SaveGroups`
returns. -/
inductive SaveFailure where
  | refused (err : String)
  | truncated (err : String) (loadErr : String)
  | written (err : String)
deriving DecidableEq, Repr

/-- The error `SaveGroups` returns for a failure. -/
def SaveFailure.err : SaveFailure → String
  | .refused err => err
  | .truncated err _ => err
  | .written err => err

/-- The write fails after `os.WriteFile` has opened (and truncated) the file. -/
def failsAfterOpen : Option SaveFailure → Bool
  | some (.truncated _ _) => true
  | some (.written _) => true
  | _ => false

/-- SaveGroups 保存群组列表到文件; `saveErr` is how the call fails, `none` when creating
the directory, serialising and writing all succeed. A failure is returned with the file
it leaves behind. -/
def FileStorage.SaveGroups (fs : FileStorage) (saveErr : Option SaveFailure)
    (groups : List Group) : Except (String × FileStorage) FileStorage :=
  match saveErr with
  | some (.refused err) => .error (err, fs)
  | some (.truncated err loadErr) => .error (err, .unreadable loadErr)
  | some (.written err) => .error (err, .stored groups)
  | none => .ok (.stored groups)

/-- AddGroup 添加新群组. -/
def FileStorage.AddGroup (fs : FileStorage) (saveErr : Option SaveFailure) (group : Group) :
    Except (String × FileStorage) FileStorage :=
  match fs.LoadGroups with
  | .error err => .error (err, fs)
  | .ok groups =>
    if groups.any (fun existingGroup =>
        decide (existingGroup.ID = group.ID ∨ existingGroup.Name = group.Name)) then
      .error ("群组已存在: ID=" ++ group.ID ++ ", Name=" ++ group.Name, fs)
    else
      fs.SaveGroups saveErr (groups ++ [group])

/-- The loop of `UpdateGroup`: the first record with the id of `group` is overwritten;
`none` when the loop ends without a match. -/
def updateGroupLoop (group : Group) : List Group → Option (List Group)
  | [] => none
  | existingGroup :: rest =>
    if existingGroup.ID = group.ID then some (group :: rest)
    else
      match updateGroupLoop group rest with
      | none => none
      | some groups => some (existingGroup :: groups)

/-- UpdateGroup 更新群组信息. -/
def FileStorage.UpdateGroup (fs : FileStorage) (saveErr : Option SaveFailure) (group : Group) :
    Except (String × FileStorage) FileStorage :=
  match fs.LoadGroups with
  | .error err => .error (err, fs)
  | .ok groups =>
    match updateGroupLoop group groups with
    | some groups => fs.SaveGroups saveErr groups
    | none => .error ("群组不存在: ID=" ++ group.ID, fs)

/-- The loop of `DeleteGroup`: the first record with the id gets status "deleted" and a
fresh timestamp; `none` when the loop ends without a match. -/
def deleteGroupLoop (now : Nat) (groupID : String) : List Group → Option (List Group)
  | [] => none
  | group :: rest =>
    if group.ID = groupID then
      some ({ group with Status := "deleted", UpdatedAt := now } :: rest)
    else
      match deleteGroupLoop now groupID rest with
      | none => none
      | some groups => some (group :: groups)

/-- DeleteGroup 删除群组. -/
def FileStorage.DeleteGroup (fs : FileStorage) (saveErr : Option SaveFailure) (now : Nat)
    (groupID : String) : Except (String × FileStorage) FileStorage :=
  match fs.LoadGroups with
  | .error err => .error (err, fs)
  | .ok groups =>
    match deleteGroupLoop now groupID groups with
    | some groups => fs.SaveGroups saveErr groups
    | none => .error ("群组不存在: ID=" ++ groupID, fs)

/-- GetGroupByID 根据ID获取群组. -/
def FileStorage.GetGroupByID (fs : FileStorage) (groupID : String) : Except String Group :=
  match fs.LoadGroups with
  | .error err => .error err
  | .ok groups =>
    match groups.find? (fun group => decide (group.ID = groupID ∧ group.Status ≠ "deleted")) with
    | some group => .ok group
    | none => .error ("群组不存在: ID=" ++ groupID)

/-- GetGroupByName 根据名称获取群组. -/
def FileStorage.GetGroupByName (fs : FileStorage) (name : String) : Except String Group :=
  match fs.LoadGroups with
  | .error err => .error err
  | .ok groups =>
    match groups.find? (fun group => decide (group.Name = name ∧ group.Status ≠ "deleted")) with
    | some group => .ok group
    | none => .error ("群组不存在: Name=" ++ name)

/-- GroupExists 检查群组是否存在. -/
def FileStorage.GroupExists (fs : FileStorage) (name : String) : Bool :=
  match fs.LoadGroups with
  | .error _ => false
  | .ok groups =>
    groups.any (fun group => decide (group.Name = name ∧ group.Status ≠ "deleted"))

/-- LoadGroupsFromCSV 从CSV文件加载群组数据: the loop over the data rows, `i` being the
loop index of the first row of `records`; the result of each row is appended. -/
def loadRowsLoop : Nat → List (List String) → Except String (List CSVGroupData)
  | _, [] => .ok []
  | i, record :: rest =>
    if record.length < 4 then
      .error ("第" ++ toString (i + 2) ++ "行数据不完整，需要至少4个字段")
    else
      let groupType := if record.length > 4 then TrimSpace (record.getD 4 "") else ""
      let group : CSVGroupData :=
        { Name := TrimSpace (record.getD 0 "")
          Description := TrimSpace (record.getD 1 "")
          OwnerID := TrimSpace (record.getD 2 "")
          MemberIDs := TrimSpace (record.getD 3 "")
          GroupType := groupType }
      if group.Name = "" then
        .error ("第" ++ toString (i + 2) ++ "行群名称不能为空")
      else if group.OwnerID = "" then
        .error ("第" ++ toString (i + 2) ++ "行群主用户ID不能为空")
      else
        match loadRowsLoop (i + 1) rest with
        | .error err => .error err
        | .ok groups => .ok (group :: groups)

/-- LoadGroupsFromCSV on the outcome of opening the file and `reader.ReadAll`: the error
of either, or the records read. -/
def LoadGroupsFromCSV (csvFile : Except String (List (List String))) :
    Except String (List CSVGroupData) :=
  match csvFile with
  | .error err => .error err
  | .ok records =>
    if records.length < 2 then .error "CSV文件格式错误：至少需要标题行和一行数据"
    else loadRowsLoop 0 (records.drop 1)

/-! ## internal/services/group_service.go -/

/-- The loop `for i, id := range memberIDs` that trims every element in place. -/
def trimLoop (memberIDs : List String) : List String :=
  (List.range memberIDs.length).foldl
    (fun ids i =>
      match ids.get? i with
      | some id => ids.set i (TrimSpace id)
      | none => ids)
    memberIDs

/-- The loop that looks for the owner among the member ids, leaving at the first hit. -/
def ownerInMembersLoop (ownerID : String) : List String → Bool
  | [] => false
  | memberID :: rest => if memberID = ownerID then true else ownerInMembersLoop ownerID rest

/-- 解析成员ID列表 and 确保群主在成员列表中: the member list of a row. -/
def resolveMemberIDs (csvGroup : CSVGroupData) : List String :=
  let memberIDs :=
    if csvGroup.MemberIDs ≠ "" then trimLoop (Split csvGroup.MemberIDs ',') else []
  if !ownerInMembersLoop csvGroup.OwnerID memberIDs then memberIDs ++ [csvGroup.OwnerID]
  else memberIDs

/-- 确定群组类型: group type and external flag of a row's label; `ToLower` stands for
strings.ToLower. -/
def resolveGroupType (ToLower : String → String) (label : String) : String × Bool :=
  if label ≠ "" then
    if ToLower (TrimSpace label) = "external" ∨ ToLower (TrimSpace label) = "外部群" ∨
        ToLower (TrimSpace label) = "外部" then ("external", true)
    else if ToLower (TrimSpace label) = "internal" ∨ ToLower (TrimSpace label) = "内部群" ∨
        ToLower (TrimSpace label) = "内部" then ("internal", false)
    else ("internal", false)
  else ("internal", false)

/-- What one row of the import meets outside the program: the answer of the remote
`CreateGroup` to a request, the clock, and the error of the write of `AddGroup`. -/
structure CreateEnv where
  CreateGroup : GroupCreateRequest → Except String GroupCreateResponse
  now : Nat
  saveErr : Option SaveFailure

/-- The variables of the loop of `CreateGroupsFromCSV`, the file, and the log of the
remote create calls made. -/
structure CreateState where
  storage : FileStorage
  successCount : Nat
  failCount : Nat
  failedGroups : List String
  calls : List GroupCreateRequest

/-- The request the service builds for a row. -/
def createRequest (ToLower : String → String) (csvGroup : CSVGroupData) : GroupCreateRequest :=
  { Name := csvGroup.Name
    Description := csvGroup.Description
    OwnerID := csvGroup.OwnerID
    MemberIDs := resolveMemberIDs csvGroup
    GroupType := (resolveGroupType ToLower csvGroup.GroupType).1
    IsExternal := (resolveGroupType ToLower csvGroup.GroupType).2 }

/-- The record the service stores for a row once the remote call has answered with
`groupID`. -/
def createdGroup (now : Nat) (csvGroup : CSVGroupData) (groupID : String) : Group :=
  { NewGroup now csvGroup.Name csvGroup.Description csvGroup.OwnerID with
    ID := groupID
    Members := resolveMemberIDs csvGroup
    MemberCount := ((resolveMemberIDs csvGroup).length : Int) }

/-- One iteration of the loop of `CreateGroupsFromCSV`. -/
def createRow (ToLower : String → String) (env : CreateEnv) (st : CreateState)
    (csvGroup : CSVGroupData) : CreateState :=
  if st.storage.GroupExists csvGroup.Name then
    { st with
      failedGroups := st.failedGroups ++ [csvGroup.Name ++ " (群名已存在)"]
      failCount := st.failCount + 1 }
  else
    match env.CreateGroup (createRequest ToLower csvGroup) with
    | .error err =>
      { st with
        calls := st.calls ++ [createRequest ToLower csvGroup]
        failedGroups := st.failedGroups ++ [csvGroup.Name ++ " (API调用失败: " ++ err ++ ")"]
        failCount := st.failCount + 1 }
    | .ok resp =>
      if !resp.Success then
        { st with
          calls := st.calls ++ [createRequest ToLower csvGroup]
          failedGroups := st.failedGroups ++ [csvGroup.Name ++ " (" ++ resp.Message ++ ")"]
          failCount := st.failCount + 1 }
      else
        match st.storage.AddGroup env.saveErr (createdGroup env.now csvGroup resp.GroupID) with
        | .error (err, storage) =>
          { st with
            storage := storage
            calls := st.calls ++ [createRequest ToLower csvGroup]
            failedGroups := st.failedGroups ++ [csvGroup.Name ++ " (保存失败: " ++ err ++ ")"]
            failCount := st.failCount + 1 }
        | .ok storage =>
          { st with
            storage := storage
            calls := st.calls ++ [createRequest ToLower csvGroup]
            successCount := st.successCount + 1 }

/-- The loop of `CreateGroupsFromCSV` over the rows; `env i` is what the row of index
`i` meets, `i` the index of the first row of the list. -/
def createRows (ToLower : String → String) (env : Nat → CreateEnv) :
    Nat → List CSVGroupData → CreateState → CreateState
  | _, [], st => st
  | i, csvGroup :: rest, st =>
    createRows ToLower env (i + 1) rest (createRow ToLower (env i) st csvGroup)

/-- 构建响应消息 of `CreateGroupsFromCSV`. -/
def createMessage (st : CreateState) : String :=
  (if st.successCount > 0 then
      "成功创建 " ++ toString st.successCount ++ " 个群组" ++
        (if st.failCount > 0 then "，失败 " ++ toString st.failCount ++ " 个群组" else "")
    else "没有成功创建任何群组") ++
  (if st.failedGroups.length > 0 then "\n失败的群组：" ++ Join st.failedGroups "; " else "")

/-- CreateGroupsFromCSV 从CSV文件批量创建群组: the state left behind and the result. -/
def CreateGroupsFromCSV (ToLower : String → String) (env : Nat → CreateEnv)
    (fs : FileStorage) (csvFile : Except String (List (List String))) :
    CreateState × Except String GroupCreateResponse :=
  match LoadGroupsFromCSV csvFile with
  | .error err =>
    (⟨fs, 0, 0, [], []⟩, .error ("加载CSV文件失败: " ++ err))
  | .ok csvGroups =>
    if csvGroups.length = 0 then
      (⟨fs, 0, 0, [], []⟩,
        .ok { GroupID := "", Success := false, Message := "CSV文件中没有有效的群组数据" })
    else
      (createRows ToLower env 0 csvGroups ⟨fs, 0, 0, [], []⟩,
        .ok { GroupID := ""
              Success := decide ((createRows ToLower env 0 csvGroups ⟨fs, 0, 0, [], []⟩).successCount > 0)
              Message := createMessage (createRows ToLower env 0 csvGroups ⟨fs, 0, 0, [], []⟩) })

/-- ListGroups 获取群组列表. -/
def ListGroups (fs : FileStorage) : Except String GroupListResponse :=
  match fs.LoadGroups with
  | .error err => .error ("加载群组列表失败: " ++ err)
  | .ok groups =>
    .ok { Groups := groups.filter (fun group => decide (group.Status ≠ "deleted"))
          Total := ((groups.filter (fun group => decide (group.Status ≠ "deleted"))).length : Int) }

/-- The two member operations of the service, which differ in the remote call, in the
method applied to the local record and in their messages. -/
inductive MemberAction where
  | add
  | remove
deriving DecidableEq, Repr

/-- 更新本地存储: `AddMember` or `RemoveMember` for every user id in turn. -/
def MemberAction.applyAll (act : MemberAction) (now : Nat) (group : Group)
    (userIDs : List String) : Group :=
  match act with
  | .add => userIDs.foldl (fun g userID => (g.AddMember now userID).2) group
  | .remove => userIDs.foldl (fun g userID => (g.RemoveMember now userID).2) group

/-- The message of a failed remote call in single-group mode. -/
def MemberAction.failText : MemberAction → String
  | .add => "添加成员失败: "
  | .remove => "移除成员失败: "

/-- The message when no error string was collected. -/
def MemberAction.doneText (act : MemberAction) (affectedGroups : Nat) : String :=
  match act with
  | .add => "成功添加成员到 " ++ toString affectedGroups ++ " 个群组"
  | .remove => "成功从 " ++ toString affectedGroups ++ " 个群组移除成员"

/-- What one group of a member operation meets outside the program: the error of the
remote `AddGroupMembers` or `RemoveGroupMembers` for a chat id and user ids (`none` on
success), the clock, and the error of the write of `UpdateGroup`. -/
structure MemberEnv where
  remote : String → List String → Option String
  now : Nat
  saveErr : Option SaveFailure

/-- The variables of a member operation, the file, and the log of the remote calls
made (chat id and user ids). -/
structure MemberState where
  storage : FileStorage
  affectedGroups : Nat
  errors : List String
  calls : List (String × List String)

/-- One iteration of the all-groups loop of `AddMembers` and `RemoveMembers`. -/
def membersStep (act : MemberAction) (userIDs : List String) (env : MemberEnv)
    (st : MemberState) (group : Group) : MemberState :=
  if group.Status = "deleted" then st
  else
    match env.remote group.ID userIDs with
    | some err =>
      { st with
        calls := st.calls ++ [(group.ID, userIDs)]
        errors := st.errors ++ ["群组 " ++ group.Name ++ ": " ++ err] }
    | none =>
      match st.storage.UpdateGroup env.saveErr (act.applyAll env.now group userIDs) with
      | .error (err, storage) =>
        { st with
          storage := storage
          calls := st.calls ++ [(group.ID, userIDs)]
          errors := st.errors ++
            ["群组 " ++ (act.applyAll env.now group userIDs).Name ++ " 更新失败: " ++ err] }
      | .ok storage =>
        { st with
          storage := storage
          calls := st.calls ++ [(group.ID, userIDs)]
          affectedGroups := st.affectedGroups + 1 }

/-- The all-groups loop over the records loaded before it; `env i` is what the record of
index `i` meets, `i` the index of the first record of the list. -/
def membersLoop (act : MemberAction) (userIDs : List String) (env : Nat → MemberEnv) :
    Nat → List Group → MemberState → MemberState
  | _, [], st => st
  | i, group :: rest, st =>
    membersLoop act userIDs env (i + 1) rest (membersStep act userIDs (env i) st group)

/-- 构建响应消息 of a member operation. -/
def membersResponse (act : MemberAction) (st : MemberState) : GroupMemberResponse :=
  { Success := decide (st.affectedGroups > 0)
    Message :=
      if st.errors.length = 0 then act.doneText st.affectedGroups
      else "部分成功：" ++ toString st.affectedGroups ++ " 个群组，错误：" ++ Join st.errors "; "
    Affected := (st.affectedGroups : Int) }

/-- The common body of `AddMembers` and `RemoveMembers`: the state left behind and the
result. In single-group mode the one group meets `env 0`. -/
def membersOperation (act : MemberAction) (env : Nat → MemberEnv) (fs : FileStorage)
    (req : GroupMemberRequest) : MemberState × Except String GroupMemberResponse :=
  if req.UserIDs.length = 0 then
    (⟨fs, 0, [], []⟩, .ok { Success := false, Message := "用户ID列表不能为空", Affected := 0 })
  else if req.AllGroups then
    match fs.LoadGroups with
    | .error err => (⟨fs, 0, [], []⟩, .error ("加载群组列表失败: " ++ err))
    | .ok groups =>
      (membersLoop act req.UserIDs env 0 groups ⟨fs, 0, [], []⟩,
        .ok (membersResponse act (membersLoop act req.UserIDs env 0 groups ⟨fs, 0, [], []⟩)))
  else if req.GroupID = "" then
    (⟨fs, 0, [], []⟩,
      .ok { Success := false, Message := "指定群组操作时必须提供群组ID", Affected := 0 })
  else
    match fs.GetGroupByID req.GroupID with
    | .error err =>
      (⟨fs, 0, [], []⟩,
        .ok { Success := false, Message := "群组不存在: " ++ err, Affected := 0 })
    | .ok group =>
      match (env 0).remote group.ID req.UserIDs with
      | some err =>
        (⟨fs, 0, [], [(group.ID, req.UserIDs)]⟩,
          .ok { Success := false, Message := act.failText ++ err, Affected := 0 })
      | none =>
        match fs.UpdateGroup (env 0).saveErr (act.applyAll (env 0).now group req.UserIDs) with
        | .error (err, storage) =>
          (⟨storage, 0, [], [(group.ID, req.UserIDs)]⟩,
            .ok { Success := false, Message := "更新群组信息失败: " ++ err, Affected := 0 })
        | .ok storage =>
          (⟨storage, 1, [], [(group.ID, req.UserIDs)]⟩,
            .ok (membersResponse act ⟨storage, 1, [], [(group.ID, req.UserIDs)]⟩))

/-- AddMembers 添加成员到群组. -/
def AddMembers (env : Nat → MemberEnv) (fs : FileStorage) (req : GroupMemberRequest) :
    MemberState × Except String GroupMemberResponse :=
  membersOperation .add env fs req

/-- RemoveMembers 从群组移除成员. -/
def RemoveMembers (env : Nat → MemberEnv) (fs : FileStorage) (req : GroupMemberRequest) :
    MemberState × Except String GroupMemberResponse :=
  membersOperation .remove env fs req

/-- CheckGroupExists 检查群组是否存在. -/
def CheckGroupExists (fs : FileStorage) (name : String) : Bool :=
  fs.GroupExists name

/-! ## Reachable stores and example records -/

/-- Id and name of a record. -/
def Group.key (g : Group) : String × String :=
  (g.ID, g.Name)

/-- The file can be loaded and its records have the ids and names `keys`, in order. -/
def KeysOf (fs : FileStorage) (keys : List (String × String)) : Prop :=
  ∃ groups, fs.LoadGroups = .ok groups ∧ groups.map Group.key = keys

/-- The file can be loaded, no two records share an id and no two share a name. -/
def UniqueKeys (fs : FileStorage) : Prop :=
  ∃ keys, KeysOf fs keys ∧ (keys.map Prod.fst).Nodup ∧ (keys.map Prod.snd).Nodup

/-- The file cannot be loaded. -/
def Unloadable (fs : FileStorage) : Prop :=
  ∃ loadErr, fs = .unreadable loadErr

/-- The stores reached from the empty store (no file, or a file without records) by
successful `AddGroup` and `DeleteGroup` calls. -/
inductive ReachableByAddDelete : FileStorage → Prop where
  | noFile : ReachableByAddDelete .missing
  | noRecords : ReachableByAddDelete (.stored [])
  | addGroup {fs fs' : FileStorage} (saveErr : Option SaveFailure) (group : Group)
      (before : ReachableByAddDelete fs) (call : fs.AddGroup saveErr group = .ok fs') :
      ReachableByAddDelete fs'
  | deleteGroup {fs fs' : FileStorage} (saveErr : Option SaveFailure) (now : Nat)
      (groupID : String) (before : ReachableByAddDelete fs)
      (call : fs.DeleteGroup saveErr now groupID = .ok fs') : ReachableByAddDelete fs'

/-- The stores reached from the empty store by `AddGroup` and `DeleteGroup` calls,
successful or failed (a failed call leaves the file its error carries), and by the
service's `AddMembers` and `RemoveMembers` with any request, remote outcomes, clock and
write outcomes. -/
inductive Reachable : FileStorage → Prop where
  | noFile : Reachable .missing
  | noRecords : Reachable (.stored [])
  | addGroup {fs fs' : FileStorage} (saveErr : Option SaveFailure) (group : Group)
      (before : Reachable fs) (call : fs.AddGroup saveErr group = .ok fs') : Reachable fs'
  | deleteGroup {fs fs' : FileStorage} (saveErr : Option SaveFailure) (now : Nat)
      (groupID : String) (before : Reachable fs)
      (call : fs.DeleteGroup saveErr now groupID = .ok fs') : Reachable fs'
  | addGroupFails {fs fs' : FileStorage} (saveErr : Option SaveFailure) (group : Group)
      (err : String) (before : Reachable fs)
      (call : fs.AddGroup saveErr group = .error (err, fs')) : Reachable fs'
  | deleteGroupFails {fs fs' : FileStorage} (saveErr : Option SaveFailure) (now : Nat)
      (groupID : String) (err : String) (before : Reachable fs)
      (call : fs.DeleteGroup saveErr now groupID = .error (err, fs')) : Reachable fs'
  | addMembers {fs : FileStorage} (env : Nat → MemberEnv) (req : GroupMemberRequest)
      (before : Reachable fs) : Reachable (AddMembers env fs req).1.storage
  | removeMembers {fs : FileStorage} (env : Nat → MemberEnv) (req : GroupMemberRequest)
      (before : Reachable fs) : Reachable (RemoveMembers env fs req).1.storage

/-- A soft-deleted record that holds the name "Team". -/
def deletedTeam : Group :=
  { NewGroup 1 "Team" "" "u1" with ID := "chat1", Status := "deleted" }

/-- A fresh record with another id and the name "Team". -/
def freshTeam : Group :=
  { NewGroup 2 "Team" "" "u2" with ID := "chat2" }

/-- A record that is stored with status deleted from the start. -/
def bornDeleted : Group :=
  { NewGroup 1 "Team" "" "u1" with ID := "chat1", Status := "deleted" }

/-- An active record named "Ops". -/
def opsGroup : Group :=
  { NewGroup 3 "Ops" "" "u3" with ID := "chat9" }

/-- The tokens of a row's member field in the words of the specification: nothing for
the empty field, otherwise the pieces between the commas, each trimmed, empty pieces
kept. -/
def memberTokens (field : String) : List String :=
  if field = "" then [] else (Split field ',').map TrimSpace

/-- A row with a trailing comma in its member field. -/
def teamRow : CSVGroupData :=
  { Name := "Team", Description := "", OwnerID := "u1", MemberIDs := "a, b,", GroupType := "" }

/-- A remote platform that creates every group as "chat1", at time 5, with a write that
succeeds. -/
def acceptingEnv : CreateEnv :=
  { CreateGroup := fun _ => .ok { GroupID := "chat1", Success := true, Message := "群组创建成功" }
    now := 5
    saveErr := none }

/-- The state of the import loop before its first row, on a store without file. -/
def freshState : CreateState :=
  { storage := .missing, successCount := 0, failCount := 0, failedGroups := [], calls := [] }

/-! ## Words of the claims about the import file -/

/-- A data row the import refuses: fewer than 4 fields, or a name or owner id that is
empty after trimming. -/
def rowInvalid (record : List String) : Prop :=
  record.length < 4 ∨ TrimSpace (record.getD 0 "") = "" ∨ TrimSpace (record.getD 2 "") = ""

/-- What the error says about a refused row, after its row number. -/
def rowFault (record : List String) : String :=
  if record.length < 4 then "行数据不完整，需要至少4个字段"
  else if TrimSpace (record.getD 0 "") = "" then "行群名称不能为空"
  else "行群主用户ID不能为空"

/-- An import file with a header, two valid rows and a third row without owner id. -/
def threeRowFile : List (List String) :=
  [["群名称", "群描述", "群主用户ID", "群成员用户ID列表"],
   ["Team", "", "u1", "a,b"],
   ["Ops", "", "u3", ""],
   ["Lab", "", "  ", "c"]]

/-- Lower-casing of the ASCII letters, every other character kept: strings.ToLower on
the ASCII strings of the examples. -/
def asciiLower (s : String) : String :=
  String.mk (s.data.map Char.toLower)

/-! ## internal/storage/storage.go: export -/

/-- The title row of the export. -/
def exportHeader : List String :=
  ["群组ID", "群名称", "群描述", "群主用户ID", "成员数量", "群组类型", "创建时间", "状态"]

/-- 过滤掉已删除的群组: the loop that appends the records whose status is not "deleted"
to `activeGroups`. -/
def activeGroupsLoop : List Group → List Group → List Group
  | activeGroups, [] => activeGroups
  | activeGroups, group :: rest =>
    if group.Status ≠ "deleted" then activeGroupsLoop (activeGroups ++ [group]) rest
    else activeGroupsLoop activeGroups rest

/-- The data row of a record; `formatTime` stands for
`CreatedAt.Format("2006-01-02 15:04:05")`. -/
def exportRecord (formatTime : Nat → String) (group : Group) : List String :=
  [group.ID, group.Name, group.Description, group.OwnerID, toString group.MemberCount,
    if group.IsExternal then "外部群" else "内部群", formatTime group.CreatedAt, group.Status]

/-- 写入数据行: the loop over the active records; `writeErr k` is the error of the call
`writer.Write` number `k` (`none` when it succeeds), `written` the rows written so far. -/
def exportDataLoop (formatTime : Nat → String) (writeErr : Nat → Option String) :
    Nat → List Group → List (List String) → Except String (List (List String))
  | _, [], written => .ok written
  | k, group :: rest, written =>
    match writeErr k with
    | some err => .error ("写入CSV数据失败: " ++ err)
    | none =>
      exportDataLoop formatTime writeErr (k + 1) rest (written ++ [exportRecord formatTime group])

/-- ExportGroupsToCSV 导出群组数据到CSV文件: the rows written to the file, or the error;
`createErr` is the error of creating the file, `writeErr 0` that of writing the title
row. The deferred flush, whose error the code drops, is taken to succeed. -/
def ExportGroupsToCSV (formatTime : Nat → String) (createErr : Option String)
    (writeErr : Nat → Option String) (fs : FileStorage) : Except String (List (List String)) :=
  match fs.LoadGroups with
  | .error err => .error err
  | .ok groups =>
    match createErr with
    | some err => .error ("创建CSV文件失败: " ++ err)
    | none =>
      match writeErr 0 with
      | some err => .error ("写入CSV标题失败: " ++ err)
      | none => exportDataLoop formatTime writeErr 1 (activeGroupsLoop [] groups) [exportHeader]

/-- A row whose label asks for an external group. -/
def externalRow : CSVGroupData :=
  { Name := "Partners", Description := "", OwnerID := "u1", MemberIDs := "", GroupType := "外部群" }

/-! ## Words of the claims about the member operations -/

/-- The records of the all-groups loop that are not deleted, each with what it meets
outside (`env i` for the record of index `i`), in storage order. -/
def activeWithEnv (env : Nat → MemberEnv) : Nat → List Group → List (Group × MemberEnv)
  | _, [] => []
  | i, group :: rest =>
    if group.Status = "deleted" then activeWithEnv env (i + 1) rest
    else (group, env i) :: activeWithEnv env (i + 1) rest

/-- The error of the local update of a group of the all-groups loop whose remote call
succeeded: `broken` is the load error of the file when an earlier write of the loop left
it unloadable, and is then the error of the update; otherwise the update fails with the
error of its own write, if that fails. -/
def updateError (broken : Option String) (saveErr : Option SaveFailure) : Option String :=
  match broken with
  | some loadErr => some loadErr
  | none => saveErr.map SaveFailure.err

/-- The load error of the file after the iteration of a group, `none` while the file
can be loaded: the file becomes unloadable when the remote call succeeds and writing the
update fails after the file was opened, which leaves a truncated file, and stays so. -/
def brokenAfter (userIDs : List String) (broken : Option String) (p : Group × MemberEnv) :
    Option String :=
  match broken with
  | some loadErr => some loadErr
  | none =>
    match p.2.remote p.1.ID userIDs with
    | some _ => none
    | none =>
      match p.2.saveErr with
      | some (.truncated _ loadErr) => some loadErr
      | _ => none

/-- Each group of the loop with the load error of the file before its iteration (`none`
while the file can be loaded). -/
def withBroken (userIDs : List String) :
    Option String → List (Group × MemberEnv) → List ((Group × MemberEnv) × Option String)
  | _, [] => []
  | broken, p :: rest => (p, broken) :: withBroken userIDs (brokenAfter userIDs broken p) rest

/-- The records the all-groups loop works on (those not deleted, in storage order), each
with what it meets outside and with the load error of the file before its iteration; the
file can be loaded before the first. -/
def loopGroups (userIDs : List String) (env : Nat → MemberEnv) (groups : List Group) :
    List ((Group × MemberEnv) × Option String) :=
  withBroken userIDs none (activeWithEnv env 0 groups)

/-- What the all-groups loop finds in the file between two iterations: records with the
ids `ids` while `broken` is `none`, a file on which `LoadGroups` fails with `loadErr` when
`broken` is `some loadErr`. -/
def FileState (fs : FileStorage) (ids : List String) (broken : Option String) : Prop :=
  match broken with
  | none => ∃ cur, fs.LoadGroups = .ok cur ∧ cur.map Group.ID = ids
  | some loadErr => fs.LoadGroups = .error loadErr

/-- The remote call for the group and its local update both succeed. -/
def groupDone (userIDs : List String) (q : (Group × MemberEnv) × Option String) : Bool :=
  decide (q.1.2.remote q.1.1.ID userIDs = none ∧ updateError q.2 q.1.2.saveErr = none)

/-- The error string of a group of the all-groups loop: one naming the group when its
remote call fails, one for a failed update, none when both succeed. -/
def groupError (userIDs : List String) (q : (Group × MemberEnv) × Option String) :
    Option String :=
  match q.1.2.remote q.1.1.ID userIDs with
  | some err => some ("群组 " ++ q.1.1.Name ++ ": " ++ err)
  | none =>
    match updateError q.2 q.1.2.saveErr with
    | some err => some ("群组 " ++ q.1.1.Name ++ " 更新失败: " ++ err)
    | none => none

/-- The records the all-groups loop leaves in a store with pairwise distinct ids when no
write of the loop fails after the file was opened: a record that is not deleted and
whose remote call and write succeed is replaced by its updated version, every other
record stays. -/
def recordsAfter (act : MemberAction) (userIDs : List String) (env : Nat → MemberEnv) :
    Nat → List Group → List Group
  | _, [] => []
  | i, group :: rest =>
    (if group.Status ≠ "deleted" ∧ (env i).remote group.ID userIDs = none ∧
        (env i).saveErr = none then act.applyAll (env i).now group userIDs
      else group) :: recordsAfter act userIDs env (i + 1) rest

/-- A remote platform whose member calls fail for the chat "chat9" and succeed for every
other chat, at time 9, with writes that succeed. -/
def opsFailingEnv : Nat → MemberEnv :=
  fun _ =>
    { remote := fun groupID _ => if groupID = "chat9" then some "boom" else none
      now := 9
      saveErr := none }

/-- An active record named "Lab". -/
def labGroup : Group :=
  { NewGroup 4 "Lab" "" "u4" with ID := "chat4" }

/-- The failure entry of a row with the given outcome (`none` for a created row, the
reason for a failed one). -/
def failureEntry (p : CSVGroupData × Option String) : Option String :=
  p.2.map (fun reason => p.1.Name ++ " (" ++ reason ++ ")")

/-- A remote platform that answers the create call of index 0 with the chat "chat1" and
refuses every later one, at time 5, with writes that succeed. -/
def firstOnlyEnv : Nat → CreateEnv :=
  fun i =>
    { CreateGroup := fun _ =>
        if i = 0 then .ok { GroupID := "chat1", Success := true, Message := "群组创建成功" }
        else .ok { GroupID := "", Success := false, Message := "创建群组失败: quota" }
      now := 5
      saveErr := none }

/-- A remote platform whose member calls succeed while writing the store fails after the
file was opened, which leaves a truncated file. -/
def diskFullEnv : Nat → MemberEnv :=
  fun _ =>
    { remote := fun _ _ => none
      now := 9
      saveErr := some (.truncated "写入群组数据文件失败: disk full"
        "解析群组数据失败: unexpected end of JSON input") }

/-- A remote platform whose member calls succeed while the write of the store is refused
before the file is opened. -/
def readOnlyEnv : Nat → MemberEnv :=
  fun _ =>
    { remote := fun _ _ => none
      now := 9
      saveErr := some (.refused "写入群组数据文件失败: read-only file system") }

/-- A remote platform whose member call fails for the chat "chat9" and succeeds for
every other chat, at time 9, while writing the store fails after the file was opened,
which leaves a truncated file. -/
def opsFailingDiskFullEnv : Nat → MemberEnv :=
  fun _ =>
    { remote := fun groupID _ => if groupID = "chat9" then some "boom" else none
      now := 9
      saveErr := some (.truncated "写入群组数据文件失败: disk full"
        "解析群组数据失败: unexpected end of JSON input") }

/-- A remote platform that creates the group of the row of index 0 as "chat0" and that
of every later row as "chat1", at time 5; the write of the row of index 0 succeeds, every
later write fails after the file was opened and leaves a truncated file. -/
def secondWriteFailsEnv : Nat → CreateEnv :=
  fun i =>
    { CreateGroup := fun _ =>
        .ok { GroupID := if i = 0 then "chat0" else "chat1", Success := true,
              Message := "群组创建成功" }
      now := 5
      saveErr := if i = 0 then none
        else some (.truncated "写入群组数据文件失败: disk full"
          "解析群组数据失败: unexpected end of JSON input") }

/-- A remote platform whose member calls succeed, at time 9, with writes that succeed. -/
def allFineEnv : Nat → MemberEnv :=
  fun _ => { remote := fun _ _ => none, now := 9, saveErr := none }

/-- A row whose member field names the user "a" twice. -/
def dupRow : CSVGroupData :=
  { Name := "Team", Description := "", OwnerID := "u1", MemberIDs := "a,a", GroupType := "" }

/-- A remote platform that creates every group as "chat2", at time 5, with a write that
succeeds. -/
def chat2Env : CreateEnv :=
  { CreateGroup := fun _ => .ok { GroupID := "chat2", Success := true, Message := "群组创建成功" }
    now := 5
    saveErr := none }

/-- The state of the import loop before its first row, on the store that holds only the
soft-deleted record "chat1"/"Team". -/
def deletedTeamState : CreateState :=
  { storage := .stored [deletedTeam], successCount := 0, failCount := 0, failedGroups := [],
    calls := [] }

/-! # Theorems -/

/-! ## Properties of the group model -/

theorem removeMemberLoop_none (ownerID userID : String) (ms : List String)
    (h : userID = ownerID ∨ userID ∉ ms) : removeMemberLoop ownerID userID ms = none := by
  induction ms with
  | nil => rfl
  | cons m rest ih =>
    unfold removeMemberLoop
    by_cases hm : m = userID
    · rcases h with h | h
      · simp [hm, h]
      · exact absurd (by simp [hm]) h
    · have hrest : userID = ownerID ∨ userID ∉ rest := by
        rcases h with h | h
        · exact Or.inl h
        · exact Or.inr (fun hin => h (List.mem_cons_of_mem _ hin))
      simp [hm, ih hrest]

theorem removeMemberLoop_some (ownerID userID : String) (ms : List String)
    (hne : userID ≠ ownerID) (hmem : userID ∈ ms) :
    ∃ pre post, ms = pre ++ userID :: post ∧ userID ∉ pre ∧
      removeMemberLoop ownerID userID ms = some (pre ++ post) := by
  induction ms with
  | nil => cases hmem
  | cons m rest ih =>
    by_cases hm : m = userID
    · refine ⟨[], rest, by simp [hm], by simp, ?_⟩
      unfold removeMemberLoop
      simp [hm, hne]
    · have hin : userID ∈ rest := by
        rcases List.mem_cons.mp hmem with h | h
        · exact absurd h.symm hm
        · exact h
      obtain ⟨pre, post, hsplit, hpre, hloop⟩ := ih hin
      refine ⟨m :: pre, post, by simp [hsplit], ?_, ?_⟩
      · intro hc
        rcases List.mem_cons.mp hc with h | h
        · exact hm h.symm
        · exact hpre h
      · unfold removeMemberLoop
        simp [hm, hloop]

theorem removeMemberLoop_owner_mem (ownerID userID : String) (ms ms' : List String)
    (h : removeMemberLoop ownerID userID ms = some ms') (ho : ownerID ∈ ms) :
    ownerID ∈ ms' := by
  induction ms generalizing ms' with
  | nil => cases ho
  | cons m rest ih =>
    unfold removeMemberLoop at h
    by_cases hm : m = userID
    · by_cases hmo : m = ownerID
      · simp [hm, hmo] at h
        simp [← hm, hmo] at h
      · simp only [hm, if_true] at h
        have hne : ¬ userID = ownerID := fun hc => hmo (hm.trans hc)
        simp only [hne, if_false, Option.some.injEq] at h
        subst h
        rcases List.mem_cons.mp ho with h1 | h1
        · exact absurd h1.symm hmo
        · exact h1
    · simp only [hm, if_false] at h
      cases hloop : removeMemberLoop ownerID userID rest with
      | none => simp [hloop] at h
      | some r =>
        simp only [hloop, Option.some.injEq] at h
        subst h
        rcases List.mem_cons.mp ho with h1 | h1
        · simp [h1]
        · exact List.mem_cons_of_mem _ (ih r hloop h1)

theorem AddMember_MembersOK (g : Group) (now : Nat) (u : String) (h : g.MembersOK) :
    (g.AddMember now u).2.MembersOK := by
  unfold Group.AddMember
  by_cases hu : u ∈ g.Members
  · simpa [hu] using h
  · simp only [hu, if_false]
    exact ⟨rfl, List.mem_append_left _ h.2⟩

theorem RemoveMember_MembersOK (g : Group) (now : Nat) (u : String) (h : g.MembersOK) :
    (g.RemoveMember now u).2.MembersOK := by
  unfold Group.RemoveMember
  cases hloop : removeMemberLoop g.OwnerID u g.Members with
  | none => simpa using h
  | some ms => exact ⟨rfl, removeMemberLoop_owner_mem _ _ _ _ hloop h.2⟩

theorem runMemberOps_MembersOK (ops : List MemberOp) (g : Group) (h : g.MembersOK) :
    (runMemberOps g ops).MembersOK := by
  induction ops generalizing g with
  | nil => exact h
  | cons op rest ih =>
    unfold runMemberOps
    rw [List.foldl_cons]
    apply ih
    cases op with
    | add now u => exact AddMember_MembersOK g now u h
    | remove now u => exact RemoveMember_MembersOK g now u h

/-- C2: `RemoveMember(u)` returns false and leaves the group unchanged when `u` is the
owner or not a member; for a non-owner member it returns true, removes exactly the first
occurrence of `u`, keeps the other members in order, sets `MemberCount` to the new length,
and when the members were pairwise distinct `u` is no longer a member. -/
theorem C2_RemoveMember_contract (g : Group) (now : Nat) (u : String) :
    ((u = g.OwnerID ∨ u ∉ g.Members) → g.RemoveMember now u = (false, g)) ∧
    ((u ≠ g.OwnerID ∧ u ∈ g.Members) →
      ∃ pre post, g.Members = pre ++ u :: post ∧ u ∉ pre ∧
        g.RemoveMember now u =
          (true, { g with
            Members := pre ++ post
            MemberCount := ((pre ++ post).length : Int)
            UpdatedAt := now }) ∧
        (pre ++ post).count u + 1 = g.Members.count u ∧
        (pre ++ post).length + 1 = g.Members.length ∧
        (g.Members.Nodup → u ∉ (g.RemoveMember now u).2.Members)) := by
  constructor
  · intro h
    unfold Group.RemoveMember
    rw [removeMemberLoop_none _ _ _ h]
  · rintro ⟨hne, hmem⟩
    obtain ⟨pre, post, hsplit, hpre, hloop⟩ := removeMemberLoop_some g.OwnerID u g.Members hne hmem
    have hrun : g.RemoveMember now u =
        (true, { g with
          Members := pre ++ post
          MemberCount := ((pre ++ post).length : Int)
          UpdatedAt := now }) := by
      unfold Group.RemoveMember
      rw [hloop]
    refine ⟨pre, post, hsplit, hpre, hrun, ?_, ?_, ?_⟩
    · rw [hsplit]
      simp [List.count_append, List.count_cons]
      omega
    · rw [hsplit]
      simp
      omega
    · intro hnd
      rw [hrun]
      rw [hsplit] at hnd
      have h1 : u ∉ post := by
        have := (List.nodup_append.mp hnd).2.1
        exact (List.nodup_cons.mp this).1
      simp [hpre, h1]

/-- C2, at a concrete group with owner "a" and members a, b: removing the owner is
refused, removing "b" succeeds. -/
theorem C2_RemoveMember_contract_witness :
    (("a" = ((NewGroup 0 "g" "" "a").AddMember 1 "b").2.OwnerID ∨
        "a" ∉ ((NewGroup 0 "g" "" "a").AddMember 1 "b").2.Members) ∧
      ((NewGroup 0 "g" "" "a").AddMember 1 "b").2.RemoveMember 2 "a" =
        (false, ((NewGroup 0 "g" "" "a").AddMember 1 "b").2)) ∧
    (("b" ≠ ((NewGroup 0 "g" "" "a").AddMember 1 "b").2.OwnerID ∧
        "b" ∈ ((NewGroup 0 "g" "" "a").AddMember 1 "b").2.Members) ∧
      ∃ pre post, ((NewGroup 0 "g" "" "a").AddMember 1 "b").2.Members = pre ++ "b" :: post ∧
        "b" ∉ pre ∧
        ((NewGroup 0 "g" "" "a").AddMember 1 "b").2.RemoveMember 2 "b" =
          (true, { ((NewGroup 0 "g" "" "a").AddMember 1 "b").2 with
            Members := pre ++ post
            MemberCount := ((pre ++ post).length : Int)
            UpdatedAt := 2 }) ∧
        (pre ++ post).count "b" + 1 =
          ((NewGroup 0 "g" "" "a").AddMember 1 "b").2.Members.count "b" ∧
        (pre ++ post).length + 1 = ((NewGroup 0 "g" "" "a").AddMember 1 "b").2.Members.length ∧
        (((NewGroup 0 "g" "" "a").AddMember 1 "b").2.Members.Nodup →
          "b" ∉ (((NewGroup 0 "g" "" "a").AddMember 1 "b").2.RemoveMember 2 "b").2.Members)) :=
  ⟨⟨Or.inl (by decide),
      (C2_RemoveMember_contract ((NewGroup 0 "g" "" "a").AddMember 1 "b").2 2 "a").1
        (Or.inl (by decide))⟩,
   ⟨⟨by decide, by decide⟩,
      (C2_RemoveMember_contract ((NewGroup 0 "g" "" "a").AddMember 1 "b").2 2 "b").2
        ⟨by decide, by decide⟩⟩⟩

/-- C3: `AddMember(u)` returns true iff `u` was not a member, and then `u` is appended at
the end; a second `AddMember(u)` returns false and leaves the group as the first call
left it. -/
theorem C3_AddMember_idempotent (g : Group) (now now2 : Nat) (u : String) :
    ((g.AddMember now u).1 = true ↔ u ∉ g.Members) ∧
    (u ∉ g.Members → g.AddMember now u =
      (true, { g with
        Members := g.Members ++ [u]
        MemberCount := (g.Members.length : Int) + 1
        UpdatedAt := now })) ∧
    (u ∈ g.Members → g.AddMember now u = (false, g)) ∧
    (g.AddMember now u).2.AddMember now2 u = (false, (g.AddMember now u).2) := by
  unfold Group.AddMember
  by_cases hu : u ∈ g.Members
  · simp [hu]
  · simp [hu]

/-- C3, at a concrete group with owner "a": "b" is appended, "a" is refused. -/
theorem C3_AddMember_idempotent_witness :
    ("b" ∉ (NewGroup 0 "g" "" "a").Members ∧
      (NewGroup 0 "g" "" "a").AddMember 1 "b" =
        (true, { NewGroup 0 "g" "" "a" with
          Members := (NewGroup 0 "g" "" "a").Members ++ ["b"]
          MemberCount := ((NewGroup 0 "g" "" "a").Members.length : Int) + 1
          UpdatedAt := 1 })) ∧
    ("a" ∈ (NewGroup 0 "g" "" "a").Members ∧
      (NewGroup 0 "g" "" "a").AddMember 1 "a" = (false, NewGroup 0 "g" "" "a")) :=
  ⟨⟨by decide, (C3_AddMember_idempotent (NewGroup 0 "g" "" "a") 1 2 "b").2.1 (by decide)⟩,
   ⟨by decide, (C3_AddMember_idempotent (NewGroup 0 "g" "" "a") 1 2 "a").2.2.1 (by decide)⟩⟩

/-- C4: after `NewGroup` or `NewGroupWithType` and any finite sequence of `AddMember` and
`RemoveMember` calls, `MemberCount` is the length of the member list and the owner is in
the member list. -/
theorem C4_members_invariant (now : Nat) (name description ownerID groupType : String)
    (isExternal : Bool) (ops : List MemberOp) :
    ((runMemberOps (NewGroupWithType now name description ownerID groupType isExternal)
        ops).MemberCount =
      ((runMemberOps (NewGroupWithType now name description ownerID groupType isExternal)
        ops).Members.length : Int) ∧
     (runMemberOps (NewGroupWithType now name description ownerID groupType isExternal)
        ops).OwnerID ∈
      (runMemberOps (NewGroupWithType now name description ownerID groupType isExternal)
        ops).Members) ∧
    ((runMemberOps (NewGroup now name description ownerID) ops).MemberCount =
      ((runMemberOps (NewGroup now name description ownerID) ops).Members.length : Int) ∧
     (runMemberOps (NewGroup now name description ownerID) ops).OwnerID ∈
      (runMemberOps (NewGroup now name description ownerID) ops).Members) := by
  have base : ∀ gt ext, (NewGroupWithType now name description ownerID gt ext).MembersOK := by
    intro gt ext
    exact ⟨rfl, List.mem_singleton.mpr rfl⟩
  exact ⟨runMemberOps_MembersOK ops _ (base _ _), runMemberOps_MembersOK ops _ (base _ _)⟩

/-! ## Properties of the record store -/

theorem AddGroup_ok_iff (fs : FileStorage) (saveErr : Option SaveFailure) (group : Group)
    (fs' : FileStorage) :
    fs.AddGroup saveErr group = .ok fs' ↔
      ∃ groups, fs.LoadGroups = .ok groups ∧ saveErr = none ∧
        (∀ x ∈ groups, x.ID ≠ group.ID ∧ x.Name ≠ group.Name) ∧
        fs' = .stored (groups ++ [group]) := by
  unfold FileStorage.AddGroup
  cases hload : fs.LoadGroups with
  | error err => simp
  | ok groups =>
    by_cases hany : groups.any (fun existingGroup =>
        decide (existingGroup.ID = group.ID ∨ existingGroup.Name = group.Name)) = true
    · simp only [hany, if_true]
      constructor
      · intro h
        cases h
      · rintro ⟨gs, hgs, -, hall, -⟩
        cases hgs
        obtain ⟨x, hx, hdec⟩ := List.any_eq_true.mp hany
        have hx2 := hall x hx
        simp only [decide_eq_true_eq] at hdec
        rcases hdec with h | h
        · exact absurd h hx2.1
        · exact absurd h hx2.2
    · have hall : ∀ x ∈ groups, x.ID ≠ group.ID ∧ x.Name ≠ group.Name := by
        intro x hx
        constructor
        · intro hc
          exact hany (List.any_eq_true.mpr ⟨x, hx, by simp [hc]⟩)
        · intro hc
          exact hany (List.any_eq_true.mpr ⟨x, hx, by simp [hc]⟩)
      simp only [hany]
      unfold FileStorage.SaveGroups
      cases saveErr with
      | some failure =>
        cases failure with
        | refused err => simp
        | truncated err loadErr => simp
        | written err => simp
      | none =>
        constructor
        · intro h
          refine ⟨groups, rfl, rfl, hall, ?_⟩
          simpa using h.symm
        · rintro ⟨gs, hgs, -, -, hfs⟩
          cases hgs
          simp [hfs]

theorem GroupExists_stored_iff (groups : List Group) (name : String) :
    (FileStorage.stored groups).GroupExists name = true ↔
      ∃ g ∈ groups, g.Name = name ∧ g.Status ≠ "deleted" := by
  unfold FileStorage.GroupExists FileStorage.LoadGroups
  simp [List.any_eq_true]

/-- C1: with only the soft-deleted record "chat1"/"Team" stored, no record with status
other than deleted shares id or name with the new record "chat2"/"Team", and the name does
not exist for `GroupExists`; yet `AddGroup` fails with the duplicate error and leaves the
file as it was. -/
theorem C1_AddGroup_blocked_by_deleted :
    (¬ ∃ x ∈ [deletedTeam], x.Status ≠ "deleted" ∧
        (x.ID = freshTeam.ID ∨ x.Name = freshTeam.Name)) ∧
    (FileStorage.stored [deletedTeam]).GroupExists freshTeam.Name = false ∧
    (FileStorage.stored [deletedTeam]).AddGroup none freshTeam =
      .error ("群组已存在: ID=chat2, Name=Team", .stored [deletedTeam]) := by
  refine ⟨by decide, by decide, ?_⟩
  rfl

/-- C7: `GroupExists(name)` is true iff some stored record has that name and a status
other than deleted; with the file missing, unreadable or unparsable it is false (its
result is a boolean, there is no error to report). -/
theorem C7_GroupExists_contract (name : String) :
    (∀ groups : List Group, (FileStorage.stored groups).GroupExists name = true ↔
      ∃ g ∈ groups, g.Name = name ∧ g.Status ≠ "deleted") ∧
    FileStorage.missing.GroupExists name = false ∧
    (∀ err : String, (FileStorage.unreadable err).GroupExists name = false) := by
  refine ⟨fun groups => GroupExists_stored_iff groups name, rfl, fun err => rfl⟩

/-- C8 as stated fails for a record whose own status is deleted: `AddGroup` stores it
and `GroupExists` of its name is false right afterwards. -/
theorem C8_counterexample_deleted_record :
    FileStorage.missing.AddGroup none bornDeleted = .ok (.stored [bornDeleted]) ∧
    (FileStorage.stored [bornDeleted]).GroupExists bornDeleted.Name = false := by
  refine ⟨rfl, by decide⟩

/-- C8 (amended): if `AddGroup(r)` succeeds for a record `r` whose status is not deleted,
then `GroupExists(r.Name)` is true immediately afterwards, and `LoadGroups` returns the
earlier records unchanged followed by `r` as the last record. -/
theorem C8_exists_after_add (fs fs' : FileStorage) (saveErr : Option SaveFailure) (r : Group)
    (hadd : fs.AddGroup saveErr r = .ok fs') (hstatus : r.Status ≠ "deleted") :
    fs'.GroupExists r.Name = true ∧
    ∃ groups, fs.LoadGroups = .ok groups ∧ fs'.LoadGroups = .ok (groups ++ [r]) ∧
      (groups ++ [r]).getLast? = some r ∧ (groups ++ [r]).take groups.length = groups := by
  obtain ⟨groups, hload, -, -, hfs⟩ := (AddGroup_ok_iff fs saveErr r fs').mp hadd
  subst hfs
  refine ⟨?_, groups, hload, rfl, by simp, by simp⟩
  rw [GroupExists_stored_iff]
  exact ⟨r, by simp, rfl, hstatus⟩

/-- C8 (amended), at a concrete store: adding the active record "chat2" after "chat9". -/
theorem C8_exists_after_add_witness :
    ((FileStorage.stored [opsGroup]).AddGroup none freshTeam =
        .ok (.stored [opsGroup, freshTeam]) ∧
      freshTeam.Status ≠ "deleted") ∧
    (FileStorage.stored [opsGroup, freshTeam]).GroupExists
      freshTeam.Name = true :=
  ⟨⟨rfl, by decide⟩,
   (C8_exists_after_add (.stored [opsGroup])
      (.stored [opsGroup, freshTeam]) none freshTeam
      rfl (by decide)).1⟩

/-! ## Ids and names are kept unique -/

theorem deleteGroupLoop_some (now : Nat) (groupID : String) (groups groups' : List Group)
    (h : deleteGroupLoop now groupID groups = some groups') :
    ∃ pre g post, groups = pre ++ g :: post ∧ g.ID = groupID ∧ (∀ x ∈ pre, x.ID ≠ groupID) ∧
      groups' = pre ++ { g with Status := "deleted", UpdatedAt := now } :: post := by
  induction groups generalizing groups' with
  | nil => simp [deleteGroupLoop] at h
  | cons g rest ih =>
    unfold deleteGroupLoop at h
    by_cases hg : g.ID = groupID
    · rw [if_pos hg, Option.some.injEq] at h
      exact ⟨[], g, rest, rfl, hg, by simp, by simp [← h]⟩
    · simp only [hg, if_false] at h
      cases hloop : deleteGroupLoop now groupID rest with
      | none => simp [hloop] at h
      | some r =>
        simp only [hloop, Option.some.injEq] at h
        obtain ⟨pre, x, post, hsplit, hx, hpre, hr⟩ := ih r hloop
        refine ⟨g :: pre, x, post, by simp [hsplit], hx, ?_, by simp [← h, hr]⟩
        intro y hy
        rcases List.mem_cons.mp hy with h1 | h1
        · rw [h1]; exact hg
        · exact hpre y h1

theorem updateGroupLoop_some (group : Group) (groups groups' : List Group)
    (h : updateGroupLoop group groups = some groups') :
    ∃ pre g post, groups = pre ++ g :: post ∧ g.ID = group.ID ∧
      (∀ x ∈ pre, x.ID ≠ group.ID) ∧ groups' = pre ++ group :: post := by
  induction groups generalizing groups' with
  | nil => simp [updateGroupLoop] at h
  | cons g rest ih =>
    unfold updateGroupLoop at h
    by_cases hg : g.ID = group.ID
    · rw [if_pos hg, Option.some.injEq] at h
      exact ⟨[], g, rest, rfl, hg, by simp, by simp [← h]⟩
    · simp only [hg, if_false] at h
      cases hloop : updateGroupLoop group rest with
      | none => simp [hloop] at h
      | some r =>
        simp only [hloop, Option.some.injEq] at h
        obtain ⟨pre, x, post, hsplit, hx, hpre, hr⟩ := ih r hloop
        refine ⟨g :: pre, x, post, by simp [hsplit], hx, ?_, by simp [← h, hr]⟩
        intro y hy
        rcases List.mem_cons.mp hy with h1 | h1
        · rw [h1]; exact hg
        · exact hpre y h1

theorem DeleteGroup_ok (fs fs' : FileStorage) (saveErr : Option SaveFailure) (now : Nat)
    (groupID : String) (h : fs.DeleteGroup saveErr now groupID = .ok fs') :
    ∃ groups groups', fs.LoadGroups = .ok groups ∧
      deleteGroupLoop now groupID groups = some groups' ∧ fs' = .stored groups' := by
  unfold FileStorage.DeleteGroup at h
  cases hload : fs.LoadGroups with
  | error err => simp [hload] at h
  | ok groups =>
    simp only [hload] at h
    cases hloop : deleteGroupLoop now groupID groups with
    | none => simp [hloop] at h
    | some groups' =>
      simp only [hloop] at h
      unfold FileStorage.SaveGroups at h
      cases saveErr with
      | some failure => cases failure <;> simp at h
      | none =>
        refine ⟨groups, groups', rfl, hloop, ?_⟩
        simpa using h.symm

theorem UpdateGroup_ok (fs fs' : FileStorage) (saveErr : Option SaveFailure) (group : Group)
    (h : fs.UpdateGroup saveErr group = .ok fs') :
    ∃ groups groups', fs.LoadGroups = .ok groups ∧
      updateGroupLoop group groups = some groups' ∧ fs' = .stored groups' := by
  unfold FileStorage.UpdateGroup at h
  cases hload : fs.LoadGroups with
  | error err => simp [hload] at h
  | ok groups =>
    simp only [hload] at h
    cases hloop : updateGroupLoop group groups with
    | none => simp [hloop] at h
    | some groups' =>
      simp only [hloop] at h
      unfold FileStorage.SaveGroups at h
      cases saveErr with
      | some failure => cases failure <;> simp at h
      | none =>
        refine ⟨groups, groups', rfl, hloop, ?_⟩
        simpa using h.symm

theorem SaveGroups_error (fs left : FileStorage) (saveErr : Option SaveFailure)
    (groups : List Group) (err : String)
    (h : fs.SaveGroups saveErr groups = .error (err, left)) :
    (saveErr = some (.refused err) ∧ left = fs) ∨
    (∃ loadErr, saveErr = some (.truncated err loadErr) ∧ left = .unreadable loadErr) ∨
    (saveErr = some (.written err) ∧ left = .stored groups) := by
  unfold FileStorage.SaveGroups at h
  cases saveErr with
  | none => simp at h
  | some failure =>
    cases failure with
    | refused e =>
      simp only [Except.error.injEq, Prod.mk.injEq] at h
      exact Or.inl ⟨by rw [h.1], h.2.symm⟩
    | truncated e loadErr =>
      simp only [Except.error.injEq, Prod.mk.injEq] at h
      exact Or.inr (Or.inl ⟨loadErr, by rw [h.1], h.2.symm⟩)
    | written e =>
      simp only [Except.error.injEq, Prod.mk.injEq] at h
      exact Or.inr (Or.inr ⟨by rw [h.1], h.2.symm⟩)

theorem AddGroup_error (fs left : FileStorage) (saveErr : Option SaveFailure)
    (group : Group) (err : String) (h : fs.AddGroup saveErr group = .error (err, left)) :
    left = fs ∨
    (∃ loadErr, saveErr = some (.truncated err loadErr) ∧ left = .unreadable loadErr) ∨
    (saveErr = some (.written err) ∧ fs.AddGroup none group = .ok left) := by
  unfold FileStorage.AddGroup at h ⊢
  cases hload : fs.LoadGroups with
  | error e =>
    simp only [hload, Except.error.injEq, Prod.mk.injEq] at h
    exact Or.inl h.2.symm
  | ok groups =>
    simp only [hload] at h ⊢
    by_cases hany : groups.any (fun existingGroup =>
        decide (existingGroup.ID = group.ID ∨ existingGroup.Name = group.Name)) = true
    · simp only [hany, if_true, Except.error.injEq, Prod.mk.injEq] at h
      exact Or.inl h.2.symm
    · simp only [hany] at h ⊢
      rcases SaveGroups_error fs left saveErr _ err h with ⟨-, hl⟩ | hr | ⟨hs, hl⟩
      · exact Or.inl hl
      · exact Or.inr (Or.inl hr)
      · exact Or.inr (Or.inr ⟨hs, by rw [hl]; rfl⟩)

theorem UpdateGroup_error (fs left : FileStorage) (saveErr : Option SaveFailure)
    (group : Group) (err : String) (h : fs.UpdateGroup saveErr group = .error (err, left)) :
    left = fs ∨
    (∃ loadErr, saveErr = some (.truncated err loadErr) ∧ left = .unreadable loadErr) ∨
    (saveErr = some (.written err) ∧ fs.UpdateGroup none group = .ok left) := by
  unfold FileStorage.UpdateGroup at h ⊢
  cases hload : fs.LoadGroups with
  | error e =>
    simp only [hload, Except.error.injEq, Prod.mk.injEq] at h
    exact Or.inl h.2.symm
  | ok groups =>
    simp only [hload] at h ⊢
    cases hloop : updateGroupLoop group groups with
    | none =>
      simp only [hloop, Except.error.injEq, Prod.mk.injEq] at h
      exact Or.inl h.2.symm
    | some groups' =>
      simp only [hloop] at h ⊢
      rcases SaveGroups_error fs left saveErr _ err h with ⟨-, hl⟩ | hr | ⟨hs, hl⟩
      · exact Or.inl hl
      · exact Or.inr (Or.inl hr)
      · exact Or.inr (Or.inr ⟨hs, by rw [hl]; rfl⟩)

theorem DeleteGroup_error (fs left : FileStorage) (saveErr : Option SaveFailure) (now : Nat)
    (groupID : String) (err : String)
    (h : fs.DeleteGroup saveErr now groupID = .error (err, left)) :
    left = fs ∨
    (∃ loadErr, saveErr = some (.truncated err loadErr) ∧ left = .unreadable loadErr) ∨
    (saveErr = some (.written err) ∧ fs.DeleteGroup none now groupID = .ok left) := by
  unfold FileStorage.DeleteGroup at h ⊢
  cases hload : fs.LoadGroups with
  | error e =>
    simp only [hload, Except.error.injEq, Prod.mk.injEq] at h
    exact Or.inl h.2.symm
  | ok groups =>
    simp only [hload] at h ⊢
    cases hloop : deleteGroupLoop now groupID groups with
    | none =>
      simp only [hloop, Except.error.injEq, Prod.mk.injEq] at h
      exact Or.inl h.2.symm
    | some groups' =>
      simp only [hloop] at h ⊢
      rcases SaveGroups_error fs left saveErr _ err h with ⟨-, hl⟩ | hr | ⟨hs, hl⟩
      · exact Or.inl hl
      · exact Or.inr (Or.inl hr)
      · exact Or.inr (Or.inr ⟨hs, by rw [hl]; rfl⟩)

theorem UpdateGroup_error_keeps (fs left : FileStorage) (saveErr : Option SaveFailure)
    (group : Group) (err : String) (h : fs.UpdateGroup saveErr group = .error (err, left))
    (hkeep : failsAfterOpen saveErr = false) : left = fs := by
  rcases UpdateGroup_error fs left saveErr group err h with hl | ⟨loadErr, hs, -⟩ | ⟨hs, -⟩
  · exact hl
  · rw [hs] at hkeep
    cases hkeep
  · rw [hs] at hkeep
    cases hkeep

theorem AddGroup_error_keeps (fs left : FileStorage) (saveErr : Option SaveFailure)
    (group : Group) (err : String) (h : fs.AddGroup saveErr group = .error (err, left))
    (hkeep : failsAfterOpen saveErr = false) : left = fs := by
  rcases AddGroup_error fs left saveErr group err h with hl | ⟨loadErr, hs, -⟩ | ⟨hs, -⟩
  · exact hl
  · rw [hs] at hkeep
    cases hkeep
  · rw [hs] at hkeep
    cases hkeep

theorem DeleteGroup_error_keeps (fs left : FileStorage) (saveErr : Option SaveFailure)
    (now : Nat) (groupID : String) (err : String)
    (h : fs.DeleteGroup saveErr now groupID = .error (err, left))
    (hkeep : failsAfterOpen saveErr = false) : left = fs := by
  rcases DeleteGroup_error fs left saveErr now groupID err h with
    hl | ⟨loadErr, hs, -⟩ | ⟨hs, -⟩
  · exact hl
  · rw [hs] at hkeep
    cases hkeep
  · rw [hs] at hkeep
    cases hkeep

theorem UpdateGroup_ok_none (fs fs' : FileStorage) (saveErr : Option SaveFailure)
    (group : Group) (h : fs.UpdateGroup saveErr group = .ok fs') :
    fs.UpdateGroup none group = .ok fs' := by
  unfold FileStorage.UpdateGroup at h ⊢
  cases hload : fs.LoadGroups with
  | error e => simp [hload] at h
  | ok groups =>
    simp only [hload] at h ⊢
    cases hloop : updateGroupLoop group groups with
    | none => simp [hloop] at h
    | some groups' =>
      simp only [hloop] at h ⊢
      unfold FileStorage.SaveGroups at h ⊢
      cases saveErr with
      | some failure => cases failure <;> simp at h
      | none => exact h

theorem GetGroupByID_ok (fs : FileStorage) (groupID : String) (g : Group)
    (h : fs.GetGroupByID groupID = .ok g) :
    ∃ groups, fs.LoadGroups = .ok groups ∧ g ∈ groups ∧ g.ID = groupID ∧
      g.Status ≠ "deleted" := by
  unfold FileStorage.GetGroupByID at h
  cases hload : fs.LoadGroups with
  | error err =>
    rw [hload] at h
    cases h
  | ok groups =>
    rw [hload] at h
    dsimp only at h
    cases hfind : groups.find?
        (fun group => decide (group.ID = groupID ∧ group.Status ≠ "deleted")) with
    | none =>
      rw [hfind] at h
      cases h
    | some x =>
      rw [hfind] at h
      cases h
      have hp := List.find?_some hfind
      simp only [decide_eq_true_eq] at hp
      exact ⟨groups, rfl, List.mem_of_find?_eq_some hfind, hp.1, hp.2⟩

theorem AddMember_key (g : Group) (now : Nat) (u : String) :
    (g.AddMember now u).2.key = g.key := by
  unfold Group.AddMember
  by_cases hu : u ∈ g.Members <;> simp [hu, Group.key]

theorem RemoveMember_key (g : Group) (now : Nat) (u : String) :
    (g.RemoveMember now u).2.key = g.key := by
  unfold Group.RemoveMember
  cases removeMemberLoop g.OwnerID u g.Members <;> simp [Group.key]

theorem applyAll_key (act : MemberAction) (now : Nat) (userIDs : List String) (g : Group) :
    (act.applyAll now g userIDs).key = g.key := by
  cases act with
  | add =>
    simp only [MemberAction.applyAll]
    induction userIDs generalizing g with
    | nil => rfl
    | cons u rest ih => rw [List.foldl_cons, ih, AddMember_key]
  | remove =>
    simp only [MemberAction.applyAll]
    induction userIDs generalizing g with
    | nil => rfl
    | cons u rest ih => rw [List.foldl_cons, ih, RemoveMember_key]

theorem UpdateGroup_keys (fs fs' : FileStorage) (saveErr : Option SaveFailure) (group : Group)
    (keys : List (String × String)) (hk : KeysOf fs keys) (hnd : (keys.map Prod.fst).Nodup)
    (hmem : group.key ∈ keys) (h : fs.UpdateGroup saveErr group = .ok fs') :
    KeysOf fs' keys := by
  obtain ⟨groups, groups', hload, hloop, hfs⟩ := UpdateGroup_ok fs fs' saveErr group h
  obtain ⟨gs, hgs, hkeys⟩ := hk
  rw [hload] at hgs
  cases hgs
  obtain ⟨pre, x, post, hsplit, hx, -, hnew⟩ := updateGroupLoop_some group groups groups' hloop
  have hxmem : x.key ∈ keys := by
    rw [← hkeys, hsplit]
    simp
  have hxkey : x.key = group.key :=
    List.inj_on_of_nodup_map hnd hxmem hmem (by simpa [Group.key] using hx)
  refine ⟨groups', by rw [hfs]; rfl, ?_⟩
  rw [← hkeys, hnew, hsplit]
  simp [hxkey]

theorem membersStep_storage (act : MemberAction) (userIDs : List String) (env : MemberEnv)
    (st : MemberState) (group : Group) :
    (membersStep act userIDs env st group).storage = st.storage ∨
    st.storage.UpdateGroup none (act.applyAll env.now group userIDs) =
      .ok (membersStep act userIDs env st group).storage ∨
    (failsAfterOpen env.saveErr = true ∧
      Unloadable (membersStep act userIDs env st group).storage) := by
  unfold membersStep
  by_cases hdel : group.Status = "deleted"
  · left
    simp [hdel]
  · simp only [hdel, if_false]
    cases env.remote group.ID userIDs with
    | some err => exact Or.inl rfl
    | none =>
      cases hupd : st.storage.UpdateGroup env.saveErr (act.applyAll env.now group userIDs) with
      | error e =>
        obtain ⟨err, left⟩ := e
        rcases UpdateGroup_error _ _ _ _ _ hupd with hl | ⟨loadErr, hs, hl⟩ | ⟨-, hl⟩
        · exact Or.inl hl
        · exact Or.inr (Or.inr ⟨by rw [hs]; rfl, loadErr, hl⟩)
        · exact Or.inr (Or.inl hl)
      | ok storage => exact Or.inr (Or.inl (UpdateGroup_ok_none _ _ _ _ hupd))

theorem UpdateGroup_not_ok_of_unloadable (fs fs' : FileStorage) (saveErr : Option SaveFailure)
    (group : Group) (hfs : Unloadable fs) : fs.UpdateGroup saveErr group ≠ .ok fs' := by
  intro h
  obtain ⟨groups, -, hload, -, -⟩ := UpdateGroup_ok fs fs' saveErr group h
  obtain ⟨e, he⟩ := hfs
  rw [he] at hload
  cases hload

theorem membersStep_keys (act : MemberAction) (userIDs : List String) (env : MemberEnv)
    (st : MemberState) (group : Group) (keys : List (String × String))
    (hk : KeysOf st.storage keys ∨ Unloadable st.storage) (hnd : (keys.map Prod.fst).Nodup)
    (hmem : group.key ∈ keys) :
    KeysOf (membersStep act userIDs env st group).storage keys ∨
      Unloadable (membersStep act userIDs env st group).storage := by
  rcases membersStep_storage act userIDs env st group with h | h | ⟨-, h⟩
  · rw [h]
    exact hk
  · rcases hk with hk | hk
    · exact Or.inl (UpdateGroup_keys _ _ none _ keys hk hnd
        (by rw [applyAll_key]; exact hmem) h)
    · exact absurd h (UpdateGroup_not_ok_of_unloadable _ _ _ _ hk)
  · exact Or.inr h

theorem membersLoop_keys (act : MemberAction) (userIDs : List String) (env : Nat → MemberEnv)
    (keys : List (String × String)) (hnd : (keys.map Prod.fst).Nodup)
    (groups : List Group) (i : Nat) (st : MemberState)
    (hk : KeysOf st.storage keys ∨ Unloadable st.storage) (hmem : ∀ g ∈ groups, g.key ∈ keys) :
    KeysOf (membersLoop act userIDs env i groups st).storage keys ∨
      Unloadable (membersLoop act userIDs env i groups st).storage := by
  induction groups generalizing i st with
  | nil => exact hk
  | cons g rest ih =>
    unfold membersLoop
    apply ih
    · exact membersStep_keys act userIDs (env i) st g keys hk hnd (hmem g (by simp))
    · intro x hx
      exact hmem x (List.mem_cons_of_mem _ hx)

theorem membersOperation_keys (act : MemberAction) (env : Nat → MemberEnv) (fs : FileStorage)
    (req : GroupMemberRequest) (keys : List (String × String)) (hk : KeysOf fs keys)
    (hnd : (keys.map Prod.fst).Nodup) :
    KeysOf (membersOperation act env fs req).1.storage keys ∨
      Unloadable (membersOperation act env fs req).1.storage := by
  unfold membersOperation
  by_cases hlen : req.UserIDs.length = 0
  · left
    simpa [hlen] using hk
  · simp only [hlen, if_false]
    by_cases hall : req.AllGroups = true
    · simp only [hall, if_true]
      obtain ⟨groups, hload, hkeys⟩ := hk
      simp only [hload]
      apply membersLoop_keys act req.UserIDs env keys hnd groups 0
      · exact Or.inl ⟨groups, hload, hkeys⟩
      · intro g hg
        rw [← hkeys]
        exact List.mem_map_of_mem _ hg
    · simp only [hall]
      by_cases hid : req.GroupID = ""
      · left
        simpa [hid] using hk
      · simp only [hid, if_false]
        cases hget : fs.GetGroupByID req.GroupID with
        | error err =>
          left
          simpa using hk
        | ok group =>
          simp only
          cases (env 0).remote group.ID req.UserIDs with
          | some err => exact Or.inl hk
          | none =>
            simp only
            cases hupd : fs.UpdateGroup (env 0).saveErr
                (act.applyAll (env 0).now group req.UserIDs) with
            | error e =>
              obtain ⟨err, left⟩ := e
              rcases UpdateGroup_error _ _ _ _ _ hupd with hl | ⟨loadErr, -, hl⟩ | ⟨-, hl⟩
              · left
                show KeysOf left keys
                rw [hl]
                exact hk
              · right
                exact ⟨loadErr, hl⟩
              · have hmem : group.key ∈ keys := by
                  obtain ⟨groups, hload, hkeys⟩ := hk
                  obtain ⟨gs, hgs, hin, -, -⟩ := GetGroupByID_ok fs req.GroupID group hget
                  rw [hload] at hgs
                  cases hgs
                  rw [← hkeys]
                  exact List.mem_map_of_mem _ hin
                exact Or.inl (UpdateGroup_keys fs left none _ keys hk hnd
                  (by rw [applyAll_key]; exact hmem) hl)
            | ok storage =>
              have hmem : group.key ∈ keys := by
                obtain ⟨groups, hload, hkeys⟩ := hk
                obtain ⟨gs, hgs, hin, -, -⟩ := GetGroupByID_ok fs req.GroupID group hget
                rw [hload] at hgs
                cases hgs
                rw [← hkeys]
                exact List.mem_map_of_mem _ hin
              exact Or.inl (UpdateGroup_keys fs storage (env 0).saveErr _ keys hk hnd
                (by rw [applyAll_key]; exact hmem) hupd)

theorem membersOperation_unloadable (act : MemberAction) (env : Nat → MemberEnv)
    (fs : FileStorage) (req : GroupMemberRequest) (hfs : Unloadable fs) :
    (membersOperation act env fs req).1.storage = fs := by
  obtain ⟨e, he⟩ := hfs
  subst he
  unfold membersOperation
  by_cases hlen : req.UserIDs.length = 0
  · simp [hlen]
  · simp only [hlen, if_false]
    by_cases hall : req.AllGroups = true
    · simp only [hall, if_true]
      rfl
    · simp only [hall]
      by_cases hid : req.GroupID = ""
      · simp [hid]
      · simp only [hid, if_false]
        rfl

theorem deleteGroupLoop_keys (now : Nat) (groupID : String) (groups groups' : List Group)
    (h : deleteGroupLoop now groupID groups = some groups') :
    groups'.map Group.key = groups.map Group.key := by
  obtain ⟨pre, g, post, hsplit, -, -, hnew⟩ := deleteGroupLoop_some now groupID groups groups' h
  rw [hnew, hsplit]
  simp [Group.key]

theorem AddGroup_UniqueKeys (fs fs' : FileStorage) (saveErr : Option SaveFailure) (group : Group)
    (hu : UniqueKeys fs) (h : fs.AddGroup saveErr group = .ok fs') : UniqueKeys fs' := by
  obtain ⟨groups, hload, -, hall, hfs⟩ := (AddGroup_ok_iff fs saveErr group fs').mp h
  obtain ⟨keys, ⟨gs, hgs, hkeys⟩, hid, hname⟩ := hu
  rw [hload] at hgs
  cases hgs
  refine ⟨keys ++ [group.key], ⟨groups ++ [group], by rw [hfs]; rfl, by simp [hkeys]⟩, ?_, ?_⟩
  · rw [List.map_append, List.nodup_append]
    refine ⟨hid, by simp, ?_⟩
    intro a ha hb
    simp only [List.map_cons, List.map_nil, List.mem_singleton] at hb
    rw [← hkeys] at ha
    simp only [List.map_map, List.mem_map, Function.comp] at ha
    obtain ⟨x, hx, hxa⟩ := ha
    exact (hall x hx).1 (by have := hxa.trans hb; simpa [Group.key] using this)
  · rw [List.map_append, List.nodup_append]
    refine ⟨hname, by simp, ?_⟩
    intro a ha hb
    simp only [List.map_cons, List.map_nil, List.mem_singleton] at hb
    rw [← hkeys] at ha
    simp only [List.map_map, List.mem_map, Function.comp] at ha
    obtain ⟨x, hx, hxa⟩ := ha
    exact (hall x hx).2 (by have := hxa.trans hb; simpa [Group.key] using this)

theorem DeleteGroup_UniqueKeys (fs fs' : FileStorage) (saveErr : Option SaveFailure) (now : Nat)
    (groupID : String) (hu : UniqueKeys fs)
    (h : fs.DeleteGroup saveErr now groupID = .ok fs') : UniqueKeys fs' := by
  obtain ⟨groups, groups', hload, hloop, hfs⟩ := DeleteGroup_ok fs fs' saveErr now groupID h
  obtain ⟨keys, ⟨gs, hgs, hkeys⟩, hid, hname⟩ := hu
  rw [hload] at hgs
  cases hgs
  refine ⟨keys, ⟨groups', by rw [hfs]; rfl, ?_⟩, hid, hname⟩
  rw [deleteGroupLoop_keys now groupID groups groups' hloop, hkeys]

theorem Reachable_UniqueKeys (fs : FileStorage) (h : Reachable fs) :
    UniqueKeys fs ∨ Unloadable fs := by
  induction h with
  | noFile => exact Or.inl ⟨[], ⟨[], rfl, rfl⟩, by simp, by simp⟩
  | noRecords => exact Or.inl ⟨[], ⟨[], rfl, rfl⟩, by simp, by simp⟩
  | addGroup saveErr group _ call ih =>
    rcases ih with ih | ⟨e, he⟩
    · exact Or.inl (AddGroup_UniqueKeys _ _ saveErr group ih call)
    · obtain ⟨groups, hload, -⟩ := (AddGroup_ok_iff _ saveErr group _).mp call
      rw [he] at hload
      cases hload
  | deleteGroup saveErr now groupID _ call ih =>
    rcases ih with ih | ⟨e, he⟩
    · exact Or.inl (DeleteGroup_UniqueKeys _ _ saveErr now groupID ih call)
    · obtain ⟨groups, -, hload, -⟩ := DeleteGroup_ok _ _ saveErr now groupID call
      rw [he] at hload
      cases hload
  | addGroupFails saveErr group err _ call ih =>
    rcases AddGroup_error _ _ saveErr group err call with hl | ⟨loadErr, -, hl⟩ | ⟨-, hl⟩
    · rw [hl]
      exact ih
    · exact Or.inr ⟨loadErr, hl⟩
    · rcases ih with ih | ⟨e, he⟩
      · exact Or.inl (AddGroup_UniqueKeys _ _ none group ih hl)
      · obtain ⟨groups, hload, -⟩ := (AddGroup_ok_iff _ none group _).mp hl
        rw [he] at hload
        cases hload
  | deleteGroupFails saveErr now groupID err _ call ih =>
    rcases DeleteGroup_error _ _ saveErr now groupID err call with
      hl | ⟨loadErr, -, hl⟩ | ⟨-, hl⟩
    · rw [hl]
      exact ih
    · exact Or.inr ⟨loadErr, hl⟩
    · rcases ih with ih | ⟨e, he⟩
      · exact Or.inl (DeleteGroup_UniqueKeys _ _ none now groupID ih hl)
      · obtain ⟨groups, -, hload, -⟩ := DeleteGroup_ok _ _ none now groupID hl
        rw [he] at hload
        cases hload
  | addMembers env req _ ih =>
    rcases ih with ⟨keys, hk, hid, hname⟩ | ih
    · rcases membersOperation_keys .add env _ req keys hk hid with h | h
      · exact Or.inl ⟨keys, h, hid, hname⟩
      · exact Or.inr h
    · right
      show Unloadable (membersOperation .add env _ req).1.storage
      rw [membersOperation_unloadable .add env _ req ih]
      exact ih
  | removeMembers env req _ ih =>
    rcases ih with ⟨keys, hk, hid, hname⟩ | ih
    · rcases membersOperation_keys .remove env _ req keys hk hid with h | h
      · exact Or.inl ⟨keys, h, hid, hname⟩
      · exact Or.inr h
    · right
      show Unloadable (membersOperation .remove env _ req).1.storage
      rw [membersOperation_unloadable .remove env _ req ih]
      exact ih

theorem ReachableByAddDelete_UniqueKeys (fs : FileStorage) (h : ReachableByAddDelete fs) :
    UniqueKeys fs := by
  induction h with
  | noFile => exact ⟨[], ⟨[], rfl, rfl⟩, by simp, by simp⟩
  | noRecords => exact ⟨[], ⟨[], rfl, rfl⟩, by simp, by simp⟩
  | addGroup saveErr group _ call ih => exact AddGroup_UniqueKeys _ _ saveErr group ih call
  | deleteGroup saveErr now groupID _ call ih =>
    exact DeleteGroup_UniqueKeys _ _ saveErr now groupID ih call

theorem ReachableByAddDelete_Reachable (fs : FileStorage) (h : ReachableByAddDelete fs) :
    Reachable fs := by
  induction h with
  | noFile => exact .noFile
  | noRecords => exact .noRecords
  | addGroup saveErr group _ call ih => exact .addGroup saveErr group ih call
  | deleteGroup saveErr now groupID _ call ih => exact .deleteGroup saveErr now groupID ih call

/-- C6: in a store reached from the empty store by successful `AddGroup` and
`DeleteGroup` calls, after a successful `DeleteGroup(id)` the record with that id stays
at its position with status deleted and every other record is as before (the same number
of records is loaded), `ListGroups` holds no record with that id, and `GroupExists` of the
record's name is false. -/
theorem C6_soft_delete (fs fs' : FileStorage) (saveErr : Option SaveFailure) (now : Nat)
    (groupID : String) (hreach : ReachableByAddDelete fs)
    (hdel : fs.DeleteGroup saveErr now groupID = .ok fs') :
    ∃ pre g post, fs.LoadGroups = .ok (pre ++ g :: post) ∧ g.ID = groupID ∧
      fs'.LoadGroups =
        .ok (pre ++ { g with Status := "deleted", UpdatedAt := now } :: post) ∧
      (pre ++ { g with Status := "deleted", UpdatedAt := now } :: post).length =
        (pre ++ g :: post).length ∧
      (∃ resp, ListGroups fs' = .ok resp ∧ (∀ x ∈ resp.Groups, x.ID ≠ groupID) ∧
        resp.Total = (resp.Groups.length : Int)) ∧
      fs'.GroupExists g.Name = false := by
  obtain ⟨groups, groups', hload, hloop, hfs⟩ := DeleteGroup_ok fs fs' saveErr now groupID hdel
  obtain ⟨pre, g, post, hsplit, hg, -, hnew⟩ := deleteGroupLoop_some now groupID groups groups' hloop
  obtain ⟨keys, ⟨gs, hgs, hkeys⟩, hid, hname⟩ := ReachableByAddDelete_UniqueKeys fs hreach
  rw [hload] at hgs
  cases hgs
  have hid2 : (groups.map Group.ID).Nodup := by
    have : groups.map Group.ID = keys.map Prod.fst := by
      rw [← hkeys, List.map_map]; rfl
    rw [this]; exact hid
  have hname2 : (groups.map Group.Name).Nodup := by
    have : groups.map Group.Name = keys.map Prod.snd := by
      rw [← hkeys, List.map_map]; rfl
    rw [this]; exact hname
  rw [hsplit, List.map_append, List.map_cons, List.nodup_append, List.nodup_cons] at hid2 hname2
  have hpre_id : ∀ x ∈ pre, x.ID ≠ groupID := by
    intro x hx hc
    exact hid2.2.2 (List.mem_map_of_mem Group.ID hx) (by rw [hc, ← hg]; simp)
  have hpost_id : ∀ x ∈ post, x.ID ≠ groupID := by
    intro x hx hc
    exact hid2.2.1.1 (by rw [hg, ← hc]; exact List.mem_map_of_mem Group.ID hx)
  have hpre_name : ∀ x ∈ pre, x.Name ≠ g.Name := by
    intro x hx hc
    exact hname2.2.2 (List.mem_map_of_mem Group.Name hx) (by rw [hc]; simp)
  have hpost_name : ∀ x ∈ post, x.Name ≠ g.Name := by
    intro x hx hc
    exact hname2.2.1.1 (by rw [← hc]; exact List.mem_map_of_mem Group.Name hx)
  subst hfs hnew
  refine ⟨pre, g, post, by rw [hload, hsplit], hg, rfl, by simp, ?_, ?_⟩
  · refine ⟨_, rfl, ?_, rfl⟩
    intro x hx
    simp only [List.mem_filter, List.mem_append, List.mem_cons, decide_eq_true_eq] at hx
    rcases hx with ⟨h1 | h1 | h1, hst⟩
    · exact hpre_id x h1
    · rw [h1] at hst
      exact absurd rfl hst
    · exact hpost_id x h1
  · cases hex : (FileStorage.stored
        (pre ++ { g with Status := "deleted", UpdatedAt := now } :: post)).GroupExists g.Name with
    | false => rfl
    | true =>
      obtain ⟨x, hx, hxn, hxs⟩ := (GroupExists_stored_iff _ _).mp hex
      simp only [List.mem_append, List.mem_cons] at hx
      rcases hx with h1 | h1 | h1
      · exact absurd hxn (hpre_name x h1)
      · rw [h1] at hxs
        exact absurd rfl hxs
      · exact absurd hxn (hpost_name x h1)

/-- C6, at the store holding "chat9"/"Ops" and "chat2"/"Team", deleting "chat9". -/
theorem C6_soft_delete_witness :
    (ReachableByAddDelete (.stored [opsGroup, freshTeam]) ∧
      (FileStorage.stored [opsGroup, freshTeam]).DeleteGroup none 7 "chat9" =
        .ok (.stored [{ opsGroup with Status := "deleted", UpdatedAt := 7 }, freshTeam])) ∧
    ∃ pre g post,
      (FileStorage.stored [opsGroup, freshTeam]).LoadGroups = .ok (pre ++ g :: post) ∧
      g.ID = "chat9" ∧
      (FileStorage.stored
          [{ opsGroup with Status := "deleted", UpdatedAt := 7 }, freshTeam]).LoadGroups =
        .ok (pre ++ { g with Status := "deleted", UpdatedAt := 7 } :: post) ∧
      (pre ++ { g with Status := "deleted", UpdatedAt := 7 } :: post).length =
        (pre ++ g :: post).length ∧
      (∃ resp, ListGroups (.stored
          [{ opsGroup with Status := "deleted", UpdatedAt := 7 }, freshTeam]) = .ok resp ∧
        (∀ x ∈ resp.Groups, x.ID ≠ "chat9") ∧ resp.Total = (resp.Groups.length : Int)) ∧
      (FileStorage.stored
          [{ opsGroup with Status := "deleted", UpdatedAt := 7 }, freshTeam]).GroupExists
        g.Name = false :=
  ⟨⟨.addGroup none freshTeam (.addGroup none opsGroup .noFile rfl) rfl, rfl⟩,
   C6_soft_delete (.stored [opsGroup, freshTeam])
     (.stored [{ opsGroup with Status := "deleted", UpdatedAt := 7 }, freshTeam]) none 7 "chat9"
     (.addGroup none freshTeam (.addGroup none opsGroup .noFile rfl) rfl) rfl⟩

/-- C9: in every store reached from the empty store by `AddGroup`, `DeleteGroup`,
`AddMembers` and `RemoveMembers` (any arguments, any remote and write outcomes, failed
calls included), either the file loads and no two of its records with status other than
deleted share a name, or a write that failed after the file was opened has left a file
that cannot be loaded, which holds no record at all. -/
theorem C9_active_names_unique (fs : FileStorage) (hreach : Reachable fs) :
    (∃ groups, fs.LoadGroups = .ok groups ∧
      groups.Pairwise (fun a b =>
        a.Status ≠ "deleted" → b.Status ≠ "deleted" → a.Name ≠ b.Name) ∧
      ((groups.filter (fun g => decide (g.Status ≠ "deleted"))).map Group.Name).Nodup) ∨
    (∃ loadErr, fs = .unreadable loadErr ∧ ∀ name, fs.GroupExists name = false) := by
  rcases Reachable_UniqueKeys fs hreach with hu | ⟨loadErr, he⟩
  · obtain ⟨keys, ⟨groups, hload, hkeys⟩, -, hname⟩ := hu
    have hname2 : (groups.map Group.Name).Nodup := by
      have : groups.map Group.Name = keys.map Prod.snd := by
        rw [← hkeys, List.map_map]; rfl
      rw [this]; exact hname
    refine Or.inl ⟨groups, hload, ?_, ?_⟩
    · have hp : groups.Pairwise (fun a b => a.Name ≠ b.Name) := by
        simpa [List.Nodup, List.pairwise_map] using hname2
      exact hp.imp (fun h _ _ => h)
    · exact hname2.sublist (List.Sublist.map _ (List.filter_sublist _))
  · refine Or.inr ⟨loadErr, he, fun name => ?_⟩
    rw [he]
    rfl

/-- C9, at the store reached by adding "Ops", adding "Team", deleting "Ops" and adding
the user "u7" to all groups. -/
theorem C9_active_names_unique_witness :
    Reachable (AddMembers (fun _ => ⟨fun _ _ => none, 9, none⟩)
        (.stored [{ opsGroup with Status := "deleted", UpdatedAt := 7 }, freshTeam])
        ⟨"", ["u7"], true⟩).1.storage ∧
    ((∃ groups,
      (AddMembers (fun _ => ⟨fun _ _ => none, 9, none⟩)
        (.stored [{ opsGroup with Status := "deleted", UpdatedAt := 7 }, freshTeam])
        ⟨"", ["u7"], true⟩).1.storage.LoadGroups = .ok groups ∧
      groups.Pairwise (fun a b =>
        a.Status ≠ "deleted" → b.Status ≠ "deleted" → a.Name ≠ b.Name) ∧
      ((groups.filter (fun g => decide (g.Status ≠ "deleted"))).map Group.Name).Nodup) ∨
    (∃ loadErr, (AddMembers (fun _ => ⟨fun _ _ => none, 9, none⟩)
        (.stored [{ opsGroup with Status := "deleted", UpdatedAt := 7 }, freshTeam])
        ⟨"", ["u7"], true⟩).1.storage = .unreadable loadErr ∧
      ∀ name, (AddMembers (fun _ => ⟨fun _ _ => none, 9, none⟩)
        (.stored [{ opsGroup with Status := "deleted", UpdatedAt := 7 }, freshTeam])
        ⟨"", ["u7"], true⟩).1.storage.GroupExists name = false)) :=
  ⟨.addMembers _ _ (.deleteGroup none 7 "chat9"
      (.addGroup none freshTeam (.addGroup none opsGroup .noFile rfl) rfl) rfl),
   C9_active_names_unique _ (.addMembers _ _ (.deleteGroup none 7 "chat9"
      (.addGroup none freshTeam (.addGroup none opsGroup .noFile rfl) rfl) rfl))⟩

/-! ## The member list of an import row -/

theorem get?_append_length (pre : List String) (a : String) (t : List String) :
    (pre ++ a :: t).get? pre.length = some a := by
  induction pre with
  | nil => rfl
  | cons p ps ih => simpa using ih

theorem set_append_length (pre : List String) (a b : String) (t : List String) :
    (pre ++ a :: t).set pre.length b = pre ++ b :: t := by
  induction pre with
  | nil => rfl
  | cons p ps ih => simp [ih]

theorem trimFold_range' (f : String → String) (l pre : List String) :
    (List.range' pre.length l.length).foldl
      (fun ids i =>
        match ids.get? i with
        | some id => ids.set i (f id)
        | none => ids)
      (pre ++ l) = pre ++ l.map f := by
  induction l generalizing pre with
  | nil => simp
  | cons a t ih =>
    rw [List.length_cons, List.range'_succ, List.foldl_cons, get?_append_length]
    simp only
    rw [set_append_length]
    have h := ih (pre ++ [f a])
    simp only [List.length_append, List.length_singleton, List.append_assoc,
      List.singleton_append] at h
    rw [h]
    simp

theorem trimLoop_eq_map (memberIDs : List String) :
    trimLoop memberIDs = memberIDs.map TrimSpace := by
  unfold trimLoop
  rw [List.range_eq_range']
  simpa using trimFold_range' TrimSpace memberIDs []

theorem ownerInMembersLoop_iff (ownerID : String) (memberIDs : List String) :
    ownerInMembersLoop ownerID memberIDs = true ↔ ownerID ∈ memberIDs := by
  induction memberIDs with
  | nil => simp [ownerInMembersLoop]
  | cons m rest ih =>
    unfold ownerInMembersLoop
    by_cases hm : m = ownerID
    · simp [hm]
    · simp only [hm, if_false, ih, List.mem_cons]
      constructor
      · exact Or.inr
      · rintro (h | h)
        · exact absurd h.symm hm
        · exact h

theorem resolveMemberIDs_eq (csvGroup : CSVGroupData) :
    resolveMemberIDs csvGroup =
      memberTokens csvGroup.MemberIDs ++
        (if csvGroup.OwnerID ∈ memberTokens csvGroup.MemberIDs then [] else [csvGroup.OwnerID]) := by
  have htok : (if csvGroup.MemberIDs ≠ "" then trimLoop (Split csvGroup.MemberIDs ',') else []) =
      memberTokens csvGroup.MemberIDs := by
    unfold memberTokens
    by_cases h : csvGroup.MemberIDs = ""
    · simp [h]
    · simp [h, trimLoop_eq_map]
  unfold resolveMemberIDs
  simp only [htok]
  by_cases ho : csvGroup.OwnerID ∈ memberTokens csvGroup.MemberIDs
  · simp [ho, (ownerInMembersLoop_iff _ _).mpr ho]
  · have : ownerInMembersLoop csvGroup.OwnerID (memberTokens csvGroup.MemberIDs) = false := by
      cases hl : ownerInMembersLoop csvGroup.OwnerID (memberTokens csvGroup.MemberIDs) with
      | false => rfl
      | true => exact absurd ((ownerInMembersLoop_iff _ _).mp hl) ho
    simp [ho, this]

theorem splitChars_length (sep : Char) (cs : List Char) :
    (splitChars sep cs).length = cs.count sep + 1 := by
  induction cs with
  | nil => rfl
  | cons c rest ih =>
    unfold splitChars
    by_cases hc : c = sep
    · simp [hc, ih]
    · cases hs : splitChars sep rest with
      | nil => rw [hs] at ih; simp at ih
      | cons p ps =>
        rw [hs] at ih
        simp only [hc, if_false]
        rw [List.count_cons_of_ne (fun h => hc h.symm)]
        simpa using ih

theorem splitChars_join (sep : Char) (cs : List Char) :
    List.intercalate [sep] (splitChars sep cs) = cs := by
  induction cs with
  | nil => rfl
  | cons c rest ih =>
    unfold splitChars
    by_cases hc : c = sep
    · simp only [hc, if_true]
      cases hs : splitChars sep rest with
      | nil => have := splitChars_length sep rest; rw [hs] at this; simp at this
      | cons p ps =>
        rw [hs] at ih
        simp only [List.intercalate, List.intersperse, List.flatten] at ih ⊢
        simpa using ih
    · simp only [hc, if_false]
      cases hs : splitChars sep rest with
      | nil => have := splitChars_length sep rest; rw [hs] at this; simp at this
      | cons p ps =>
        rw [hs] at ih
        cases ps with
        | nil =>
          simp only [List.intercalate, List.intersperse, List.flatten] at ih ⊢
          simpa using ih
        | cons q qs =>
          simp only [List.intercalate, List.intersperse, List.flatten] at ih ⊢
          simpa using ih

theorem splitChars_no_sep (sep : Char) (cs : List Char) :
    ∀ piece ∈ splitChars sep cs, sep ∉ piece := by
  induction cs with
  | nil => simp [splitChars]
  | cons c rest ih =>
    unfold splitChars
    by_cases hc : c = sep
    · simp only [hc, if_true, List.mem_cons]
      rintro piece (h | h)
      · simp [h]
      · exact ih piece h
    · simp only [hc, if_false]
      cases hs : splitChars sep rest with
      | nil => simp [Ne.symm hc]
      | cons p ps =>
        rw [hs] at ih
        simp only [List.mem_cons]
        rintro piece (h | h)
        · rw [h]
          simp only [List.mem_cons, not_or]
          exact ⟨fun h2 => hc h2.symm, ih p (by simp)⟩
        · exact ih piece (by simp [h])

theorem memberTokens_length (field : String) (h : field ≠ "") :
    (memberTokens field).length = field.data.count ',' + 1 := by
  unfold memberTokens Split
  simp [h, splitChars_length]

/-! ## The import loop -/

theorem createRow_cases (ToLower : String → String) (env : CreateEnv) (st : CreateState)
    (row : CSVGroupData) :
    (((createRow ToLower env st row).storage = st.storage ∨
        failsAfterOpen env.saveErr = true) ∧
      (createRow ToLower env st row).successCount = st.successCount) ∨
    (∃ resp storage, st.storage.GroupExists row.Name = false ∧
      env.CreateGroup (createRequest ToLower row) = .ok resp ∧ resp.Success = true ∧
      st.storage.AddGroup env.saveErr (createdGroup env.now row resp.GroupID) = .ok storage ∧
      createRow ToLower env st row =
        { st with
          storage := storage
          calls := st.calls ++ [createRequest ToLower row]
          successCount := st.successCount + 1 }) := by
  unfold createRow
  by_cases hex : st.storage.GroupExists row.Name = true
  · left
    simp [hex]
  · simp only [hex]
    cases hcall : env.CreateGroup (createRequest ToLower row) with
    | error err => left; simp
    | ok resp =>
      by_cases hs : resp.Success = true
      · simp only [hs]
        cases hadd : st.storage.AddGroup env.saveErr (createdGroup env.now row resp.GroupID) with
        | error e =>
          obtain ⟨err, left⟩ := e
          left
          refine ⟨?_, rfl⟩
          rcases AddGroup_error _ _ _ _ _ hadd with hl | ⟨loadErr, hsave, -⟩ | ⟨hsave, -⟩
          · exact Or.inl hl
          · exact Or.inr (by rw [hsave]; rfl)
          · exact Or.inr (by rw [hsave]; rfl)
        | ok storage =>
          right
          exact ⟨resp, storage, by simp [hex], rfl, hs, hadd, by simp⟩
      · left
        simp [hs]

theorem createRow_skip (ToLower : String → String) (env : CreateEnv) (st : CreateState)
    (row : CSVGroupData) (hex : st.storage.GroupExists row.Name = true) :
    createRow ToLower env st row =
      { st with
        failedGroups := st.failedGroups ++ [row.Name ++ " (群名已存在)"]
        failCount := st.failCount + 1 } := by
  unfold createRow
  simp [hex]

theorem createRows_append (ToLower : String → String) (env : Nat → CreateEnv)
    (rows more : List CSVGroupData) (i : Nat) (st : CreateState) :
    createRows ToLower env i (rows ++ more) st =
      createRows ToLower env (i + rows.length) more (createRows ToLower env i rows st) := by
  induction rows generalizing i st with
  | nil => rfl
  | cons r rest ih =>
    have hlen : i + 1 + rest.length = i + (r :: rest).length := by
      rw [List.length_cons]
      omega
    rw [List.cons_append]
    show createRows ToLower env (i + 1) (rest ++ more) (createRow ToLower (env i) st r) =
      createRows ToLower env (i + (r :: rest).length) more
        (createRows ToLower env (i + 1) rest (createRow ToLower (env i) st r))
    rw [ih, hlen]

theorem createRow_keeps (ToLower : String → String) (env : CreateEnv) (st : CreateState)
    (row : CSVGroupData) (groups : List Group) (hload : st.storage.LoadGroups = .ok groups)
    (hkeep : failsAfterOpen env.saveErr = false) :
    ∃ added, (createRow ToLower env st row).storage.LoadGroups = .ok (groups ++ added) := by
  rcases createRow_cases ToLower env st row with
    ⟨hst | htr, -⟩ | ⟨resp, storage, -, -, -, hadd, heq⟩
  · exact ⟨[], by rw [hst, hload]; simp⟩
  · rw [hkeep] at htr
    cases htr
  · obtain ⟨gs, hgs, -, -, hfs⟩ := (AddGroup_ok_iff _ _ _ _).mp hadd
    rw [hload] at hgs
    cases hgs
    exact ⟨[createdGroup env.now row resp.GroupID], by rw [heq, hfs]; rfl⟩

theorem createRows_keeps (ToLower : String → String) (env : Nat → CreateEnv)
    (rows : List CSVGroupData) (i : Nat) (st : CreateState) (groups : List Group)
    (hload : st.storage.LoadGroups = .ok groups)
    (hkeep : ∀ k, i ≤ k → failsAfterOpen (env k).saveErr = false) :
    ∃ added, (createRows ToLower env i rows st).storage.LoadGroups = .ok (groups ++ added) := by
  induction rows generalizing i st groups with
  | nil => exact ⟨[], by simpa [createRows] using hload⟩
  | cons r rest ih =>
    obtain ⟨a1, h1⟩ := createRow_keeps ToLower (env i) st r groups hload (hkeep i (le_refl i))
    obtain ⟨a2, h2⟩ := ih (i + 1) (createRow ToLower (env i) st r) (groups ++ a1) h1
      (fun k hk => hkeep k (by omega))
    exact ⟨a1 ++ a2, by simpa [createRows] using h2⟩

/-- C5: when a row is created successfully (the success count goes up), the store loads
to the earlier records followed by one new record whose member list is the comma-split,
trimmed tokens of the member field in order (none for the empty field, otherwise one more
than there are commas, so empty tokens are kept) with the owner appended iff it is not
among them; the list contains the owner and `MemberCount` is its length. -/
theorem C5_import_member_list (ToLower : String → String) (env : CreateEnv)
    (st : CreateState) (row : CSVGroupData)
    (hok : (createRow ToLower env st row).successCount = st.successCount + 1) :
    ∃ groups g, st.storage.LoadGroups = .ok groups ∧
      (createRow ToLower env st row).storage.LoadGroups = .ok (groups ++ [g]) ∧
      g.Name = row.Name ∧ g.OwnerID = row.OwnerID ∧
      g.Members = memberTokens row.MemberIDs ++
        (if row.OwnerID ∈ memberTokens row.MemberIDs then [] else [row.OwnerID]) ∧
      memberTokens "" = [] ∧
      (row.MemberIDs ≠ "" →
        (memberTokens row.MemberIDs).length = row.MemberIDs.data.count ',' + 1) ∧
      row.OwnerID ∈ g.Members ∧ g.MemberCount = (g.Members.length : Int) := by
  rcases createRow_cases ToLower env st row with ⟨-, hc⟩ | ⟨resp, storage, -, -, -, hadd, heq⟩
  · omega
  · obtain ⟨groups, hload, -, -, hfs⟩ := (AddGroup_ok_iff _ _ _ _).mp hadd
    refine ⟨groups, createdGroup env.now row resp.GroupID, hload, by rw [heq, hfs]; rfl,
      rfl, rfl, resolveMemberIDs_eq row, rfl, memberTokens_length row.MemberIDs, ?_, rfl⟩
    show row.OwnerID ∈ resolveMemberIDs row
    rw [resolveMemberIDs_eq]
    by_cases ho : row.OwnerID ∈ memberTokens row.MemberIDs
    · simp [ho]
    · simp [ho]

/-- C5, at the row "Team" with owner "u1" and member field "a, b,": the stored members
are a, b, the empty token and u1. -/
theorem C5_import_member_list_witness :
    ((createRow id acceptingEnv freshState teamRow).successCount =
        freshState.successCount + 1 ∧
      (createRow id acceptingEnv freshState teamRow).storage.LoadGroups =
        .ok [{ NewGroup 5 "Team" "" "u1" with
          ID := "chat1", Members := ["a", "b", "", "u1"], MemberCount := 4 }]) ∧
    ∃ groups g, freshState.storage.LoadGroups = .ok groups ∧
      (createRow id acceptingEnv freshState teamRow).storage.LoadGroups = .ok (groups ++ [g]) ∧
      g.Name = teamRow.Name ∧ g.OwnerID = teamRow.OwnerID ∧
      g.Members = memberTokens teamRow.MemberIDs ++
        (if teamRow.OwnerID ∈ memberTokens teamRow.MemberIDs then [] else [teamRow.OwnerID]) ∧
      memberTokens "" = [] ∧
      (teamRow.MemberIDs ≠ "" →
        (memberTokens teamRow.MemberIDs).length = teamRow.MemberIDs.data.count ',' + 1) ∧
      teamRow.OwnerID ∈ g.Members ∧ g.MemberCount = (g.Members.length : Int) :=
  ⟨⟨rfl, rfl⟩, C5_import_member_list id acceptingEnv freshState teamRow rfl⟩

/-- C10: when, at the moment a row is processed (after the rows `pre` before it), a
record with the row's name and a status other than deleted is stored, or an earlier row
of the same import with that name was created successfully and no write of the rows
between the two fails after the file was opened (so that its record is still stored),
the row makes no remote create call, leaves the store as it is, and records exactly one
failure entry, "<name> (群名已存在)": the state after the row is the state before it with
that entry appended and the failure count raised by one. -/
theorem C10_existing_name_skipped (ToLower : String → String) (env : Nat → CreateEnv)
    (i : Nat) (st0 : CreateState) (pre : List CSVGroupData) (row : CSVGroupData)
    (hex : (∃ groups, (createRows ToLower env i pre st0).storage.LoadGroups = .ok groups ∧
          ∃ g ∈ groups, g.Name = row.Name ∧ g.Status ≠ "deleted") ∨
        (∃ pre1 r pre2, pre = pre1 ++ r :: pre2 ∧ r.Name = row.Name ∧
          (createRows ToLower env i (pre1 ++ [r]) st0).successCount =
            (createRows ToLower env i pre1 st0).successCount + 1 ∧
          ∀ k, i + pre1.length < k → failsAfterOpen (env k).saveErr = false)) :
    createRows ToLower env i (pre ++ [row]) st0 =
      { createRows ToLower env i pre st0 with
        failedGroups :=
          (createRows ToLower env i pre st0).failedGroups ++ [row.Name ++ " (群名已存在)"]
        failCount := (createRows ToLower env i pre st0).failCount + 1 } ∧
    (createRows ToLower env i (pre ++ [row]) st0).calls =
      (createRows ToLower env i pre st0).calls ∧
    (createRows ToLower env i (pre ++ [row]) st0).storage =
      (createRows ToLower env i pre st0).storage := by
  have hexists : (createRows ToLower env i pre st0).storage.GroupExists row.Name = true := by
    rcases hex with ⟨groups, hgs, g, hg, hname, hstatus⟩ |
      ⟨pre1, r, pre2, hpre, hname, hsucc, hkeep⟩
    · unfold FileStorage.GroupExists
      rw [hgs]
      exact List.any_eq_true.mpr ⟨g, hg, by simp [hname, hstatus]⟩
    · have hstep : createRows ToLower env i (pre1 ++ [r]) st0 =
          createRow ToLower (env (i + pre1.length)) (createRows ToLower env i pre1 st0) r := by
        rw [createRows_append]
        rfl
      rw [hstep] at hsucc
      rcases createRow_cases ToLower (env (i + pre1.length)) (createRows ToLower env i pre1 st0) r
        with ⟨-, hc⟩ | ⟨resp, storage, -, -, -, hadd, heq⟩
      · omega
      · obtain ⟨gs, hgs, -, -, hfs⟩ := (AddGroup_ok_iff _ _ _ _).mp hadd
        have h2 : (createRows ToLower env i (pre1 ++ [r]) st0).storage.LoadGroups =
            .ok (gs ++ [createdGroup (env (i + pre1.length)).now r resp.GroupID]) := by
          rw [hstep, heq, hfs]
          rfl
        obtain ⟨a3, h3⟩ := createRows_keeps ToLower env pre2 (i + (pre1 ++ [r]).length)
          (createRows ToLower env i (pre1 ++ [r]) st0) _ h2
          (fun k hk => hkeep k (by
            simp only [List.length_append, List.length_cons, List.length_nil] at hk
            omega))
        have hsplit : pre = (pre1 ++ [r]) ++ pre2 := by simp [hpre]
        rw [hsplit, createRows_append]
        unfold FileStorage.GroupExists
        rw [h3]
        refine List.any_eq_true.mpr ⟨createdGroup (env (i + pre1.length)).now r resp.GroupID,
          by simp, ?_⟩
        simp only [decide_eq_true_eq]
        refine ⟨hname, ?_⟩
        show ("active" : String) ≠ "deleted"
        decide
  have hrow : createRows ToLower env i (pre ++ [row]) st0 =
      createRow ToLower (env (i + pre.length)) (createRows ToLower env i pre st0) row := by
    rw [createRows_append]
    rfl
  rw [hrow, createRow_skip ToLower _ _ row hexists]
  exact ⟨rfl, rfl, rfl⟩

/-- C10, at an import whose second row repeats the name "Team" of its first row. -/
theorem C10_existing_name_skipped_witness :
    ((∃ pre1 r pre2, [teamRow] = pre1 ++ r :: pre2 ∧ r.Name = teamRow.Name ∧
        (createRows id (fun _ => acceptingEnv) 0 (pre1 ++ [r]) freshState).successCount =
          (createRows id (fun _ => acceptingEnv) 0 pre1 freshState).successCount + 1 ∧
        ∀ k, 0 + pre1.length < k →
          failsAfterOpen ((fun _ => acceptingEnv : Nat → CreateEnv) k).saveErr = false) ∧
      (createRows id (fun _ => acceptingEnv) 0 ([teamRow] ++ [teamRow]) freshState).failedGroups =
        ["Team (群名已存在)"] ∧
      (createRows id (fun _ => acceptingEnv) 0 ([teamRow] ++ [teamRow]) freshState).calls.length =
        1) ∧
    (createRows id (fun _ => acceptingEnv) 0 ([teamRow] ++ [teamRow]) freshState =
      { createRows id (fun _ => acceptingEnv) 0 [teamRow] freshState with
        failedGroups :=
          (createRows id (fun _ => acceptingEnv) 0 [teamRow] freshState).failedGroups ++
            [teamRow.Name ++ " (群名已存在)"]
        failCount := (createRows id (fun _ => acceptingEnv) 0 [teamRow] freshState).failCount + 1 } ∧
    (createRows id (fun _ => acceptingEnv) 0 ([teamRow] ++ [teamRow]) freshState).calls =
      (createRows id (fun _ => acceptingEnv) 0 [teamRow] freshState).calls ∧
    (createRows id (fun _ => acceptingEnv) 0 ([teamRow] ++ [teamRow]) freshState).storage =
      (createRows id (fun _ => acceptingEnv) 0 [teamRow] freshState).storage) :=
  ⟨⟨⟨[], teamRow, [], rfl, rfl, rfl, fun _ _ => rfl⟩, rfl, rfl⟩,
   C10_existing_name_skipped id (fun _ => acceptingEnv) 0 freshState [teamRow] teamRow
     (Or.inr ⟨[], teamRow, [], rfl, rfl, rfl, fun _ _ => rfl⟩)⟩

/-! ## UpdateGroup and the sequence of ids -/

theorem updateGroupLoop_none_iff (group : Group) (groups : List Group) :
    updateGroupLoop group groups = none ↔ ∀ x ∈ groups, x.ID ≠ group.ID := by
  induction groups with
  | nil => simp [updateGroupLoop]
  | cons g rest ih =>
    unfold updateGroupLoop
    by_cases hg : g.ID = group.ID
    · simp [hg]
    · cases hloop : updateGroupLoop group rest with
      | none =>
        have := ih.mp hloop
        simpa [hg] using this
      | some r =>
        have hne : ¬ ∀ x ∈ rest, x.ID ≠ group.ID := fun h => by
          have := ih.mpr h
          rw [hloop] at this
          cases this
        simp only [hg, if_false, List.mem_cons, forall_eq_or_imp]
        constructor
        · intro h; cases h
        · intro h; exact absurd h.2 hne

theorem updateGroupLoop_ids (group : Group) (groups groups' : List Group)
    (h : updateGroupLoop group groups = some groups') :
    groups'.map Group.ID = groups.map Group.ID := by
  obtain ⟨pre, g, post, hsplit, hg, -, hnew⟩ := updateGroupLoop_some group groups groups' h
  rw [hnew, hsplit]
  simp [hg]

theorem deleteGroupLoop_ids (now : Nat) (groupID : String) (groups groups' : List Group)
    (h : deleteGroupLoop now groupID groups = some groups') :
    groups'.map Group.ID = groups.map Group.ID := by
  obtain ⟨pre, g, post, hsplit, -, -, hnew⟩ := deleteGroupLoop_some now groupID groups groups' h
  rw [hnew, hsplit]
  simp

theorem UpdateGroup_stored_none (groups : List Group) (saveErr : Option SaveFailure)
    (r : Group) (h : ∀ x ∈ groups, x.ID ≠ r.ID) :
    (FileStorage.stored groups).UpdateGroup saveErr r =
      .error ("群组不存在: ID=" ++ r.ID, .stored groups) := by
  unfold FileStorage.UpdateGroup FileStorage.LoadGroups
  simp only [(updateGroupLoop_none_iff r groups).mpr h]

theorem UpdateGroup_stored_some (groups : List Group) (saveErr : Option SaveFailure)
    (r : Group) (h : ∃ x ∈ groups, x.ID = r.ID) :
    ∃ pre g post, groups = pre ++ g :: post ∧ g.ID = r.ID ∧ (∀ x ∈ pre, x.ID ≠ r.ID) ∧
      (FileStorage.stored groups).UpdateGroup saveErr r =
        (FileStorage.stored groups).SaveGroups saveErr (pre ++ r :: post) := by
  cases hloop : updateGroupLoop r groups with
  | none =>
    obtain ⟨x, hx, hxid⟩ := h
    exact absurd hxid ((updateGroupLoop_none_iff r groups).mp hloop x hx)
  | some groups' =>
    obtain ⟨pre, g, post, hsplit, hg, hpre, hnew⟩ := updateGroupLoop_some r groups groups' hloop
    refine ⟨pre, g, post, hsplit, hg, hpre, ?_⟩
    unfold FileStorage.UpdateGroup FileStorage.LoadGroups
    simp only [hloop, hnew]

/-- C20 as stated fails when the write fails after the file was opened: in the store
holding "Ops" (reached by one `AddGroup` call) `UpdateGroup` returns the write error
although a stored record has the id of the record given, and the store is not as it was:
the file is left truncated and `LoadGroups` fails on it, so the sequence of ids is
lost. -/
theorem C20_counterexample_write_fails :
    Reachable (.stored [opsGroup]) ∧
    (∃ x ∈ [opsGroup], x.ID = opsGroup.ID) ∧
    (FileStorage.stored [opsGroup]).LoadGroups = .ok [opsGroup] ∧
    (FileStorage.stored [opsGroup]).UpdateGroup
        (some (.truncated "写入群组数据文件失败: disk full"
          "解析群组数据失败: unexpected end of JSON input")) opsGroup =
      .error ("写入群组数据文件失败: disk full",
        .unreadable "解析群组数据失败: unexpected end of JSON input") ∧
    (FileStorage.unreadable "解析群组数据失败: unexpected end of JSON input").LoadGroups =
      .error "解析群组数据失败: unexpected end of JSON input" := by
  refine ⟨.addGroup none opsGroup .noFile rfl, ⟨opsGroup, by simp, rfl⟩, rfl, rfl, rfl⟩

/-- C20 (amended): `UpdateGroup(r)` fails iff no stored record has the id of `r` or the
write fails. When no record has the id, and when the write is refused before the file is
opened, the store is left as it was; when a record has the id and the write fails after
the file was opened, the file is left truncated and cannot be loaded if writing failed,
and holds the records with `r` in place if only closing the file failed. Otherwise
`UpdateGroup` replaces exactly the first record with that id by `r`, all other records
keeping their place. After every successful `UpdateGroup` and `DeleteGroup` the sequence
of ids in storage is the one before the call; a failed `UpdateGroup` or `DeleteGroup`
whose write does not fail after the file was opened leaves the store as it was, and one
that does not leave a truncated file keeps the sequence of ids. -/
theorem C20_update_in_place (groups : List Group) (saveErr : Option SaveFailure) (r : Group) :
    ((∃ e, (FileStorage.stored groups).UpdateGroup saveErr r = .error e) ↔
      ((∀ x ∈ groups, x.ID ≠ r.ID) ∨ saveErr ≠ none)) ∧
    ((∀ x ∈ groups, x.ID ≠ r.ID) →
      (FileStorage.stored groups).UpdateGroup saveErr r =
        .error ("群组不存在: ID=" ++ r.ID, .stored groups)) ∧
    (∀ err, saveErr = some (.refused err) → (∃ x ∈ groups, x.ID = r.ID) →
      (FileStorage.stored groups).UpdateGroup saveErr r = .error (err, .stored groups)) ∧
    (∀ err loadErr, saveErr = some (.truncated err loadErr) → (∃ x ∈ groups, x.ID = r.ID) →
      (FileStorage.stored groups).UpdateGroup saveErr r = .error (err, .unreadable loadErr) ∧
      (FileStorage.unreadable loadErr).LoadGroups = .error loadErr) ∧
    (∀ err, saveErr = some (.written err) → (∃ x ∈ groups, x.ID = r.ID) →
      ∃ pre g post, groups = pre ++ g :: post ∧ g.ID = r.ID ∧ (∀ x ∈ pre, x.ID ≠ r.ID) ∧
        (FileStorage.stored groups).UpdateGroup saveErr r =
          .error (err, .stored (pre ++ r :: post))) ∧
    (saveErr = none → (∃ x ∈ groups, x.ID = r.ID) →
      ∃ pre g post, groups = pre ++ g :: post ∧ g.ID = r.ID ∧ (∀ x ∈ pre, x.ID ≠ r.ID) ∧
        (FileStorage.stored groups).UpdateGroup saveErr r = .ok (.stored (pre ++ r :: post)) ∧
        (pre ++ r :: post).length = groups.length) ∧
    (∀ fs', (FileStorage.stored groups).UpdateGroup saveErr r = .ok fs' →
      ∃ groups', fs'.LoadGroups = .ok groups' ∧ groups'.map Group.ID = groups.map Group.ID) ∧
    (∀ now groupID fs', (FileStorage.stored groups).DeleteGroup saveErr now groupID = .ok fs' →
      ∃ groups', fs'.LoadGroups = .ok groups' ∧ groups'.map Group.ID = groups.map Group.ID) ∧
    (failsAfterOpen saveErr = false →
      (∀ err left, (FileStorage.stored groups).UpdateGroup saveErr r = .error (err, left) →
        left = .stored groups) ∧
      (∀ now groupID err left,
        (FileStorage.stored groups).DeleteGroup saveErr now groupID = .error (err, left) →
        left = .stored groups)) ∧
    ((∀ e loadErr, saveErr ≠ some (.truncated e loadErr)) →
      (∀ err left, (FileStorage.stored groups).UpdateGroup saveErr r = .error (err, left) →
        ∃ groups', left.LoadGroups = .ok groups' ∧
          groups'.map Group.ID = groups.map Group.ID) ∧
      (∀ now groupID err left,
        (FileStorage.stored groups).DeleteGroup saveErr now groupID = .error (err, left) →
        ∃ groups', left.LoadGroups = .ok groups' ∧
          groups'.map Group.ID = groups.map Group.ID)) := by
  refine ⟨?_, ?_, ?_, ?_, ?_, ?_, ?_, ?_, ?_, ?_⟩
  · by_cases hno : ∀ x ∈ groups, x.ID ≠ r.ID
    · rw [UpdateGroup_stored_none groups saveErr r hno]
      exact ⟨fun _ => Or.inl hno, fun _ => ⟨_, rfl⟩⟩
    · have hex : ∃ x ∈ groups, x.ID = r.ID := by
        by_contra hc
        exact hno (fun x hx hxid => hc ⟨x, hx, hxid⟩)
      obtain ⟨pre, g, post, -, -, -, hupd⟩ := UpdateGroup_stored_some groups saveErr r hex
      rw [hupd]
      cases saveErr with
      | none =>
        constructor
        · rintro ⟨e, he⟩
          cases he
        · rintro (h | h)
          · exact absurd h hno
          · exact absurd rfl h
      | some failure =>
        constructor
        · intro _
          exact Or.inr (by simp)
        · intro _
          cases failure with
          | refused err => exact ⟨_, rfl⟩
          | truncated err loadErr => exact ⟨_, rfl⟩
          | written err => exact ⟨_, rfl⟩
  · exact UpdateGroup_stored_none groups saveErr r
  · intro err hsave hex
    obtain ⟨pre, g, post, -, -, -, hupd⟩ := UpdateGroup_stored_some groups saveErr r hex
    rw [hupd, hsave]
    rfl
  · intro err loadErr hsave hex
    obtain ⟨pre, g, post, -, -, -, hupd⟩ := UpdateGroup_stored_some groups saveErr r hex
    rw [hupd, hsave]
    exact ⟨rfl, rfl⟩
  · intro err hsave hex
    obtain ⟨pre, g, post, hsplit, hg, hpre, hupd⟩ := UpdateGroup_stored_some groups saveErr r hex
    refine ⟨pre, g, post, hsplit, hg, hpre, ?_⟩
    rw [hupd, hsave]
    rfl
  · intro hsave hex
    obtain ⟨pre, g, post, hsplit, hg, hpre, hupd⟩ := UpdateGroup_stored_some groups saveErr r hex
    refine ⟨pre, g, post, hsplit, hg, hpre, ?_, by simp [hsplit]⟩
    rw [hupd, hsave]
    rfl
  · intro fs' h
    obtain ⟨gs, gs', hload, hloop, hfs⟩ := UpdateGroup_ok _ _ _ _ h
    cases hload
    exact ⟨gs', by rw [hfs]; rfl, updateGroupLoop_ids r groups gs' hloop⟩
  · intro now groupID fs' h
    obtain ⟨gs, gs', hload, hloop, hfs⟩ := DeleteGroup_ok _ _ _ _ _ h
    cases hload
    exact ⟨gs', by rw [hfs]; rfl, deleteGroupLoop_ids now groupID groups gs' hloop⟩
  · intro hkeep
    constructor
    · intro err left h
      exact UpdateGroup_error_keeps _ _ _ _ _ h hkeep
    · intro now groupID err left h
      exact DeleteGroup_error_keeps _ _ _ _ _ _ h hkeep
  · intro hnot
    constructor
    · intro err left h
      rcases UpdateGroup_error _ _ _ _ _ h with hl | ⟨loadErr, hs, -⟩ | ⟨-, hl⟩
      · exact ⟨groups, by rw [hl]; rfl, rfl⟩
      · exact absurd hs (hnot err loadErr)
      · obtain ⟨gs, gs', hload, hloop, hfs⟩ := UpdateGroup_ok _ _ _ _ hl
        cases hload
        exact ⟨gs', by rw [hfs]; rfl, updateGroupLoop_ids r groups gs' hloop⟩
    · intro now groupID err left h
      rcases DeleteGroup_error _ _ _ _ _ _ h with hl | ⟨loadErr, hs, -⟩ | ⟨-, hl⟩
      · exact ⟨groups, by rw [hl]; rfl, rfl⟩
      · exact absurd hs (hnot err loadErr)
      · obtain ⟨gs, gs', hload, hloop, hfs⟩ := DeleteGroup_ok _ _ _ _ _ hl
        cases hload
        exact ⟨gs', by rw [hfs]; rfl, deleteGroupLoop_ids now groupID groups gs' hloop⟩

/-- C20 (amended), at the store holding "chat9"/"Ops" and "chat2"/"Team": updating
"chat2", deleting "chat9", and an update of "chat2" whose write fails after the file was
opened. -/
theorem C20_update_in_place_witness :
    ((none : Option SaveFailure) = none ∧ (∃ x ∈ [opsGroup, freshTeam], x.ID = freshTeam.ID) ∧
      (FileStorage.stored [opsGroup, freshTeam]).UpdateGroup none
          { freshTeam with Members := ["u2", "u5"], MemberCount := 2 } =
        .ok (.stored [opsGroup, { freshTeam with Members := ["u2", "u5"], MemberCount := 2 }]) ∧
      (FileStorage.stored [opsGroup, freshTeam]).DeleteGroup none 7 "chat9" =
        .ok (.stored [{ opsGroup with Status := "deleted", UpdatedAt := 7 }, freshTeam])) ∧
    (∃ pre g post, [opsGroup, freshTeam] = pre ++ g :: post ∧ g.ID = freshTeam.ID ∧
      (∀ x ∈ pre, x.ID ≠ freshTeam.ID) ∧
      (FileStorage.stored [opsGroup, freshTeam]).UpdateGroup none
          { freshTeam with Members := ["u2", "u5"], MemberCount := 2 } =
        .ok (.stored (pre ++ { freshTeam with Members := ["u2", "u5"], MemberCount := 2 } :: post)) ∧
      (pre ++ { freshTeam with Members := ["u2", "u5"], MemberCount := 2 } :: post).length =
        [opsGroup, freshTeam].length) ∧
    (∃ groups', (FileStorage.stored
          [{ opsGroup with Status := "deleted", UpdatedAt := 7 }, freshTeam]).LoadGroups =
        .ok groups' ∧ groups'.map Group.ID = [opsGroup, freshTeam].map Group.ID) ∧
    ((FileStorage.stored [opsGroup, freshTeam]).UpdateGroup
        (some (.truncated "写入群组数据文件失败: disk full"
          "解析群组数据失败: unexpected end of JSON input")) freshTeam =
      .error ("写入群组数据文件失败: disk full",
        .unreadable "解析群组数据失败: unexpected end of JSON input") ∧
      (FileStorage.unreadable "解析群组数据失败: unexpected end of JSON input").LoadGroups =
        .error "解析群组数据失败: unexpected end of JSON input") :=
  ⟨⟨rfl, ⟨freshTeam, by simp, rfl⟩, rfl, rfl⟩,
   (C20_update_in_place [opsGroup, freshTeam] none
      { freshTeam with Members := ["u2", "u5"], MemberCount := 2 }).2.2.2.2.2.1 rfl
      ⟨freshTeam, by simp, rfl⟩,
   (C20_update_in_place [opsGroup, freshTeam] none freshTeam).2.2.2.2.2.2.2.1 7 "chat9" _ rfl,
   (C20_update_in_place [opsGroup, freshTeam]
      (some (.truncated "写入群组数据文件失败: disk full"
        "解析群组数据失败: unexpected end of JSON input")) freshTeam).2.2.2.1 _ _ rfl
      ⟨freshTeam, by simp, rfl⟩⟩

/-! ## The import file -/

theorem loadRowsLoop_cons_valid (i : Nat) (record : List String) (rest : List (List String))
    (h : ¬ rowInvalid record) :
    loadRowsLoop i (record :: rest) =
      match loadRowsLoop (i + 1) rest with
      | .error err => .error err
      | .ok groups =>
        .ok ({ Name := TrimSpace (record.getD 0 "")
               Description := TrimSpace (record.getD 1 "")
               OwnerID := TrimSpace (record.getD 2 "")
               MemberIDs := TrimSpace (record.getD 3 "")
               GroupType := if record.length > 4 then TrimSpace (record.getD 4 "") else "" } ::
          groups) := by
  unfold rowInvalid at h
  simp only [not_or] at h
  obtain ⟨h1, h2, h3⟩ := h
  rw [loadRowsLoop]
  simp only [h1, h2, h3, if_false]

theorem loadRowsLoop_cons_invalid (i : Nat) (record : List String) (rest : List (List String))
    (h : rowInvalid record) :
    loadRowsLoop i (record :: rest) = .error ("第" ++ toString (i + 2) ++ rowFault record) := by
  rw [loadRowsLoop]
  unfold rowFault
  by_cases h1 : record.length < 4
  · simp only [h1, if_true, String.append_assoc]
  · by_cases h2 : TrimSpace (record.getD 0 "") = ""
    · simp only [h1, h2, if_true, if_false, String.append_assoc]
    · have h3 : TrimSpace (record.getD 2 "") = "" := by
        rcases h with h | h | h
        · exact absurd h h1
        · exact absurd h h2
        · exact h
      simp only [h1, h2, h3, if_true, if_false, String.append_assoc]

theorem loadRowsLoop_first_fault (i : Nat) (good : List (List String)) (bad : List String)
    (rest : List (List String)) (hgood : ∀ r ∈ good, ¬ rowInvalid r) (hbad : rowInvalid bad) :
    loadRowsLoop i (good ++ bad :: rest) =
      .error ("第" ++ toString (i + good.length + 2) ++ rowFault bad) := by
  induction good generalizing i with
  | nil => simpa using loadRowsLoop_cons_invalid i bad rest hbad
  | cons g gs ih =>
    rw [List.cons_append, loadRowsLoop_cons_valid i g _ (hgood g (by simp))]
    rw [ih (i + 1) (fun r hr => hgood r (List.mem_cons_of_mem _ hr))]
    have : i + 1 + gs.length + 2 = i + (g :: gs).length + 2 := by
      rw [List.length_cons]; omega
    rw [this]

theorem loadRowsLoop_ok_of_valid (i : Nat) (rows : List (List String))
    (h : ∀ r ∈ rows, ¬ rowInvalid r) :
    ∃ groups, loadRowsLoop i rows = .ok groups ∧ groups.length = rows.length := by
  induction rows generalizing i with
  | nil => exact ⟨[], rfl, rfl⟩
  | cons r rest ih =>
    obtain ⟨gs, hgs, hlen⟩ := ih (i + 1) (fun x hx => h x (List.mem_cons_of_mem _ hx))
    rw [loadRowsLoop_cons_valid i r rest (h r (by simp)), hgs]
    exact ⟨_, rfl, by simp [hlen]⟩

theorem exists_first_invalid (rows : List (List String)) (h : ∃ r ∈ rows, rowInvalid r) :
    ∃ good bad rest, rows = good ++ bad :: rest ∧ (∀ r ∈ good, ¬ rowInvalid r) ∧
      rowInvalid bad := by
  induction rows with
  | nil => obtain ⟨r, hr, -⟩ := h; cases hr
  | cons x xs ih =>
    by_cases hx : rowInvalid x
    · exact ⟨[], x, xs, rfl, by simp, hx⟩
    · have : ∃ r ∈ xs, rowInvalid r := by
        obtain ⟨r, hr, hbad⟩ := h
        rcases List.mem_cons.mp hr with h1 | h1
        · rw [h1] at hbad; exact absurd hbad hx
        · exact ⟨r, h1, hbad⟩
      obtain ⟨good, bad, rest, hsplit, hgood, hbad⟩ := ih this
      refine ⟨x :: good, bad, rest, by simp [hsplit], ?_, hbad⟩
      intro r hr
      rcases List.mem_cons.mp hr with h1 | h1
      · rw [h1]; exact hx
      · exact hgood r h1

theorem loadRowsLoop_error_iff (i : Nat) (rows : List (List String)) :
    (∃ err, loadRowsLoop i rows = .error err) ↔ ∃ r ∈ rows, rowInvalid r := by
  constructor
  · rintro ⟨err, herr⟩
    by_contra hno
    have hvalid : ∀ r ∈ rows, ¬ rowInvalid r := fun r hr hbad => hno ⟨r, hr, hbad⟩
    obtain ⟨gs, hgs, -⟩ := loadRowsLoop_ok_of_valid i rows hvalid
    rw [hgs] at herr
    cases herr
  · intro h
    obtain ⟨good, bad, rest, hsplit, hgood, hbad⟩ := exists_first_invalid rows h
    exact ⟨_, by rw [hsplit]; exact loadRowsLoop_first_fault i good bad rest hgood hbad⟩

/-- C11: on parsed rows `LoadGroupsFromCSV` fails iff there are fewer than 2 rows or some
data row has fewer than 4 fields or a name or owner id that is empty after trimming; and
when `good` are the valid data rows before the first refused row `bad`, the error names
row `good.length + 2`: the header is row 1 and the k-th data row is row k + 1. -/
theorem C11_import_format (records : List (List String)) :
    ((∃ err, LoadGroupsFromCSV (.ok records) = .error err) ↔
      (records.length < 2 ∨ ∃ r ∈ records.drop 1, rowInvalid r)) ∧
    (∀ header good bad rest, records = header :: (good ++ bad :: rest) →
      (∀ r ∈ good, ¬ rowInvalid r) → rowInvalid bad →
      LoadGroupsFromCSV (.ok records) =
        .error ("第" ++ toString (good.length + 2) ++ rowFault bad)) := by
  constructor
  · unfold LoadGroupsFromCSV
    by_cases hlen : records.length < 2
    · simp [hlen]
    · simp only [hlen, if_false, false_or]
      exact loadRowsLoop_error_iff 0 (records.drop 1)
  · intro header good bad rest hrec hgood hbad
    unfold LoadGroupsFromCSV
    have hlen : ¬ records.length < 2 := by
      rw [hrec]
      simp only [List.length_cons, List.length_append]
      omega
    simp only [hlen, if_false]
    have hdrop : records.drop 1 = good ++ bad :: rest := by rw [hrec]; rfl
    rw [hdrop, loadRowsLoop_first_fault 0 good bad rest hgood hbad]
    simp

/-- C11, at a file whose third data row has a blank owner id: the error names row 4. -/
theorem C11_import_format_witness :
    (threeRowFile = ["群名称", "群描述", "群主用户ID", "群成员用户ID列表"] ::
        ([["Team", "", "u1", "a,b"], ["Ops", "", "u3", ""]] ++ ["Lab", "", "  ", "c"] :: []) ∧
      (∀ r ∈ [["Team", "", "u1", "a,b"], ["Ops", "", "u3", ""]], ¬ rowInvalid r) ∧
      rowInvalid ["Lab", "", "  ", "c"]) ∧
    LoadGroupsFromCSV (.ok threeRowFile) = .error "第4行群主用户ID不能为空" :=
  ⟨⟨rfl, by unfold rowInvalid; decide, Or.inr (Or.inr (by decide))⟩,
   (C11_import_format threeRowFile).2 _ [["Team", "", "u1", "a,b"], ["Ops", "", "u3", ""]]
     ["Lab", "", "  ", "c"] [] rfl (by unfold rowInvalid; decide) (Or.inr (Or.inr (by decide)))⟩

/-- C12: when some data row of the import is refused, `CreateGroupsFromCSV` returns an
error, has made no remote create call and leaves the store as it was; no row is counted
as created, whatever valid rows come before the refused one. -/
theorem C12_invalid_row_aborts (ToLower : String → String) (env : Nat → CreateEnv)
    (fs : FileStorage) (records : List (List String))
    (h : ∃ r ∈ records.drop 1, rowInvalid r) :
    (∃ err, (CreateGroupsFromCSV ToLower env fs (.ok records)).2 = .error err) ∧
    (CreateGroupsFromCSV ToLower env fs (.ok records)).1.calls = [] ∧
    (CreateGroupsFromCSV ToLower env fs (.ok records)).1.storage = fs ∧
    (CreateGroupsFromCSV ToLower env fs (.ok records)).1.successCount = 0 := by
  have hfail : ∃ err, LoadGroupsFromCSV (.ok records) = .error err := by
    unfold LoadGroupsFromCSV
    by_cases hlen : records.length < 2
    · simp [hlen]
    · simp only [hlen, if_false]
      exact (loadRowsLoop_error_iff 0 (records.drop 1)).mpr h
  obtain ⟨err, herr⟩ := hfail
  unfold CreateGroupsFromCSV
  rw [herr]
  exact ⟨⟨_, rfl⟩, rfl, rfl, rfl⟩

/-- C12, at the file with two valid rows before a row without owner id, on the store
holding "chat9"/"Ops". -/
theorem C12_invalid_row_aborts_witness :
    (∃ r ∈ threeRowFile.drop 1, rowInvalid r) ∧
    (∃ err, (CreateGroupsFromCSV asciiLower (fun _ => acceptingEnv) (.stored [opsGroup])
        (.ok threeRowFile)).2 = .error err) ∧
    (CreateGroupsFromCSV asciiLower (fun _ => acceptingEnv) (.stored [opsGroup])
        (.ok threeRowFile)).1.calls = [] ∧
    (CreateGroupsFromCSV asciiLower (fun _ => acceptingEnv) (.stored [opsGroup])
        (.ok threeRowFile)).1.storage = .stored [opsGroup] ∧
    (CreateGroupsFromCSV asciiLower (fun _ => acceptingEnv) (.stored [opsGroup])
        (.ok threeRowFile)).1.successCount = 0 :=
  ⟨⟨["Lab", "", "  ", "c"], by decide, Or.inr (Or.inr (by decide))⟩,
   C12_invalid_row_aborts asciiLower (fun _ => acceptingEnv) (.stored [opsGroup]) threeRowFile
     ⟨["Lab", "", "  ", "c"], by decide, Or.inr (Or.inr (by decide))⟩⟩

/-! ## The group type of a row -/

/-- C13: the group type resolved for a label is external with the external flag set iff
the label, trimmed and lower-cased, is "external", "外部群" or "外部"; for every other
label, the empty one included, it is internal with the flag cleared; so in the create
request of every row the flag is set iff the group type is "external". The lower-casing
function maps the empty string to itself. -/
theorem C13_group_type (ToLower : String → String) (hlower : ToLower "" = "")
    (label : String) :
    (resolveGroupType ToLower label = ("external", true) ↔
      (ToLower (TrimSpace label) = "external" ∨ ToLower (TrimSpace label) = "外部群" ∨
        ToLower (TrimSpace label) = "外部")) ∧
    (¬ (ToLower (TrimSpace label) = "external" ∨ ToLower (TrimSpace label) = "外部群" ∨
        ToLower (TrimSpace label) = "外部") →
      resolveGroupType ToLower label = ("internal", false)) ∧
    resolveGroupType ToLower "" = ("internal", false) ∧
    (∀ row : CSVGroupData,
      (createRequest ToLower row).GroupType = (resolveGroupType ToLower row.GroupType).1 ∧
      (createRequest ToLower row).IsExternal = (resolveGroupType ToLower row.GroupType).2 ∧
      ((createRequest ToLower row).IsExternal = true ↔
        (createRequest ToLower row).GroupType = "external")) := by
  have htrim : TrimSpace "" = "" := by decide
  have hcases : ∀ l : String, resolveGroupType ToLower l = ("external", true) ∨
      resolveGroupType ToLower l = ("internal", false) := by
    intro l
    unfold resolveGroupType
    by_cases h1 : l = ""
    · simp [h1]
    · by_cases h2 : ToLower (TrimSpace l) = "external" ∨ ToLower (TrimSpace l) = "外部群" ∨
          ToLower (TrimSpace l) = "外部"
      · simp [h1, h2]
      · by_cases h3 : ToLower (TrimSpace l) = "internal" ∨ ToLower (TrimSpace l) = "内部群" ∨
            ToLower (TrimSpace l) = "内部"
        · simp only [h1, h2, h3, ne_eq, not_false_eq_true, if_true, if_false]
          exact Or.inr trivial
        · simp only [h1, h2, h3, ne_eq, not_false_eq_true, if_true, if_false]
          exact Or.inr trivial
  have hno : ¬ (ToLower (TrimSpace label) = "external" ∨ ToLower (TrimSpace label) = "外部群" ∨
        ToLower (TrimSpace label) = "外部") →
      resolveGroupType ToLower label = ("internal", false) := by
    intro h2
    unfold resolveGroupType
    by_cases h1 : label = ""
    · simp [h1]
    · by_cases h3 : ToLower (TrimSpace label) = "internal" ∨
          ToLower (TrimSpace label) = "内部群" ∨ ToLower (TrimSpace label) = "内部"
      · simp only [h1, h2, h3, ne_eq, not_false_eq_true, if_true, if_false]
      · simp only [h1, h2, h3, ne_eq, not_false_eq_true, if_true, if_false]
  refine ⟨?_, hno, ?_, ?_⟩
  · constructor
    · intro hext
      by_contra h2
      rw [hno h2] at hext
      revert hext
      decide
    · intro h2
      have h1 : label ≠ "" := by
        intro hc
        rw [hc, htrim, hlower] at h2
        revert h2
        decide
      unfold resolveGroupType
      simp [h1, h2]
  · unfold resolveGroupType
    simp
  · intro row
    refine ⟨rfl, rfl, ?_⟩
    show (resolveGroupType ToLower row.GroupType).2 = true ↔
      (resolveGroupType ToLower row.GroupType).1 = "external"
    rcases hcases row.GroupType with h | h
    · rw [h]; simp
    · rw [h]
      simp only [Bool.false_eq_true, false_iff]
      decide

/-- C13, with ASCII lower-casing: the label " External " resolves to external, the
label "team" to internal. -/
theorem C13_group_type_witness :
    asciiLower "" = "" ∧
    ((asciiLower (TrimSpace " External ") = "external" ∨
        asciiLower (TrimSpace " External ") = "外部群" ∨
        asciiLower (TrimSpace " External ") = "外部") ∧
      resolveGroupType asciiLower " External " = ("external", true)) ∧
    (¬ (asciiLower (TrimSpace "team") = "external" ∨ asciiLower (TrimSpace "team") = "外部群" ∨
        asciiLower (TrimSpace "team") = "外部") ∧
      resolveGroupType asciiLower "team" = ("internal", false)) :=
  ⟨by decide,
   ⟨by decide, (C13_group_type asciiLower (by decide) " External ").1.mpr (by decide)⟩,
   ⟨by decide, (C13_group_type asciiLower (by decide) "team").2.1 (by decide)⟩⟩

/-! ## Listing and export -/

theorem activeGroupsLoop_eq (activeGroups groups : List Group) :
    activeGroupsLoop activeGroups groups =
      activeGroups ++ groups.filter (fun group => decide (group.Status ≠ "deleted")) := by
  induction groups generalizing activeGroups with
  | nil => simp [activeGroupsLoop]
  | cons g rest ih =>
    unfold activeGroupsLoop
    by_cases hg : g.Status = "deleted"
    · simp [hg, ih]
    · simp [hg, ih]

theorem exportDataLoop_ok (formatTime : Nat → String) (writeErr : Nat → Option String)
    (hwrite : ∀ k, writeErr k = none) (k : Nat) (groups : List Group)
    (written : List (List String)) :
    exportDataLoop formatTime writeErr k groups written =
      .ok (written ++ groups.map (exportRecord formatTime)) := by
  induction groups generalizing k written with
  | nil => simp [exportDataLoop]
  | cons g rest ih =>
    unfold exportDataLoop
    rw [hwrite k]
    simp only
    rw [ih]
    simp

theorem createdGroup_type (now : Nat) (csvGroup : CSVGroupData) (groupID : String) :
    (createdGroup now csvGroup groupID).GroupType = "internal" ∧
    (createdGroup now csvGroup groupID).IsExternal = false :=
  ⟨rfl, rfl⟩

/-- C14: the row "Partners" with label "外部群" resolves to external and is sent to the
remote platform as external, its creation succeeds, yet the record stored for it has
group type "internal" with the external flag cleared, its export row carries the label
内部群, and that label is read back as internal. -/
theorem C14_external_row_stored_internal :
    resolveGroupType asciiLower externalRow.GroupType = ("external", true) ∧
    (createRow asciiLower acceptingEnv freshState externalRow).successCount = 1 ∧
    ((createRow asciiLower acceptingEnv freshState externalRow).calls.map
      (fun req => (req.GroupType, req.IsExternal))) = [("external", true)] ∧
    (createRow asciiLower acceptingEnv freshState externalRow).storage =
      .stored [{ NewGroup 5 "Partners" "" "u1" with
        ID := "chat1", GroupType := "internal", IsExternal := false }] ∧
    ExportGroupsToCSV (fun _ => "2026-01-01 00:00:00") none (fun _ => none)
        (createRow asciiLower acceptingEnv freshState externalRow).storage =
      .ok [exportHeader,
        ["chat1", "Partners", "", "u1", "1", "内部群", "2026-01-01 00:00:00", "active"]] ∧
    resolveGroupType asciiLower "内部群" = ("internal", false) := by
  refine ⟨by decide, rfl, rfl, rfl, rfl, by decide⟩

/-- C15: on a stored record sequence `ListGroups` returns exactly the records whose
status is not deleted, in storage order, with `Total` their number; and when the file is
created and written without error `ExportGroupsToCSV` writes the title row of 8 columns
followed by one row of 8 fields for each of the same records, in the same order. -/
theorem C15_list_and_export (groups : List Group) (formatTime : Nat → String)
    (writeErr : Nat → Option String) (hwrite : ∀ k, writeErr k = none) :
    ListGroups (.stored groups) =
      .ok { Groups := groups.filter (fun g => decide (g.Status ≠ "deleted"))
            Total := ((groups.filter (fun g => decide (g.Status ≠ "deleted"))).length : Int) } ∧
    ExportGroupsToCSV formatTime none writeErr (.stored groups) =
      .ok (exportHeader ::
        (groups.filter (fun g => decide (g.Status ≠ "deleted"))).map (exportRecord formatTime)) ∧
    exportHeader.length = 8 ∧
    (∀ g : Group, (exportRecord formatTime g).length = 8 ∧
      (exportRecord formatTime g).take 4 = [g.ID, g.Name, g.Description, g.OwnerID] ∧
      (exportRecord formatTime g).getLast? = some g.Status) := by
  refine ⟨rfl, ?_, rfl, fun g => ⟨rfl, rfl, rfl⟩⟩
  unfold ExportGroupsToCSV FileStorage.LoadGroups
  simp only [hwrite 0]
  rw [exportDataLoop_ok formatTime writeErr hwrite, activeGroupsLoop_eq]
  simp

/-- C15, at the store holding the deleted "chat1"/"Team" and the active "chat9"/"Ops". -/
theorem C15_list_and_export_witness :
    (∀ k : Nat, (fun _ => none : Nat → Option String) k = none) ∧
    ListGroups (.stored [deletedTeam, opsGroup]) = .ok { Groups := [opsGroup], Total := 1 } ∧
    ExportGroupsToCSV (fun _ => "2026-01-01 00:00:00") none (fun _ => none)
        (.stored [deletedTeam, opsGroup]) =
      .ok [exportHeader,
        ["chat9", "Ops", "", "u3", "1", "内部群", "2026-01-01 00:00:00", "active"]] :=
  ⟨fun _ => rfl,
   (C15_list_and_export [deletedTeam, opsGroup] (fun _ => "2026-01-01 00:00:00")
      (fun _ => none) (fun _ => rfl)).1,
   (C15_list_and_export [deletedTeam, opsGroup] (fun _ => "2026-01-01 00:00:00")
      (fun _ => none) (fun _ => rfl)).2.1⟩

/-! ## The all-groups loop -/

theorem activeWithEnv_fst (env : Nat → MemberEnv) (i : Nat) (groups : List Group) :
    (activeWithEnv env i groups).map Prod.fst =
      groups.filter (fun g => decide (g.Status ≠ "deleted")) := by
  induction groups generalizing i with
  | nil => rfl
  | cons g rest ih =>
    unfold activeWithEnv
    by_cases hg : g.Status = "deleted"
    · simp [hg, ih]
    · simp [hg, ih]

theorem UpdateGroup_of_mem (fs : FileStorage) (saveErr : Option SaveFailure) (group : Group)
    (cur : List Group) (hload : fs.LoadGroups = .ok cur)
    (hmem : group.ID ∈ cur.map Group.ID) :
    ∃ cur', updateGroupLoop group cur = some cur' ∧ cur'.map Group.ID = cur.map Group.ID ∧
      fs.UpdateGroup saveErr group = fs.SaveGroups saveErr cur' := by
  cases hloop : updateGroupLoop group cur with
  | none =>
    obtain ⟨x, hx, hxid⟩ := List.mem_map.mp hmem
    exact absurd hxid ((updateGroupLoop_none_iff group cur).mp hloop x hx)
  | some cur' =>
    refine ⟨cur', rfl, updateGroupLoop_ids group cur cur' hloop, ?_⟩
    unfold FileStorage.UpdateGroup
    rw [hload]
    simp only [hloop]

theorem UpdateGroup_load_error (fs : FileStorage) (saveErr : Option SaveFailure)
    (group : Group) (loadErr : String) (hload : fs.LoadGroups = .error loadErr) :
    fs.UpdateGroup saveErr group = .error (loadErr, fs) := by
  unfold FileStorage.UpdateGroup
  rw [hload]

theorem applyAll_ID (act : MemberAction) (now : Nat) (userIDs : List String) (g : Group) :
    (act.applyAll now g userIDs).ID = g.ID :=
  congrArg Prod.fst (applyAll_key act now userIDs g)

theorem applyAll_Name (act : MemberAction) (now : Nat) (userIDs : List String) (g : Group) :
    (act.applyAll now g userIDs).Name = g.Name :=
  congrArg Prod.snd (applyAll_key act now userIDs g)

theorem membersStep_report (act : MemberAction) (userIDs : List String) (env : MemberEnv)
    (st : MemberState) (group : Group) (ids : List String) (broken : Option String)
    (hfile : FileState st.storage ids broken) (hmem : group.ID ∈ ids)
    (hactive : group.Status ≠ "deleted") :
    (membersStep act userIDs env st group).calls = st.calls ++ [(group.ID, userIDs)] ∧
    (membersStep act userIDs env st group).errors =
      st.errors ++ (groupError userIDs ((group, env), broken)).toList ∧
    (membersStep act userIDs env st group).affectedGroups =
      st.affectedGroups + (if groupDone userIDs ((group, env), broken) then 1 else 0) ∧
    FileState (membersStep act userIDs env st group).storage ids
      (brokenAfter userIDs broken (group, env)) := by
  unfold membersStep groupError groupDone brokenAfter updateError
  simp only [hactive, if_false]
  cases hremote : env.remote group.ID userIDs with
  | some err =>
    refine ⟨rfl, by simp, by simp, ?_⟩
    cases broken with
    | none => exact hfile
    | some loadErr => exact hfile
  | none =>
    cases broken with
    | some loadErr =>
      rw [UpdateGroup_load_error st.storage env.saveErr _ loadErr hfile]
      exact ⟨rfl, by simp [applyAll_Name], by simp, hfile⟩
    | none =>
      obtain ⟨cur, hload, hcur⟩ := hfile
      obtain ⟨cur', -, hids, hupd⟩ := UpdateGroup_of_mem st.storage env.saveErr
        (act.applyAll env.now group userIDs) cur hload
        (by rw [applyAll_ID, hcur]; exact hmem)
      rw [hupd]
      unfold FileStorage.SaveGroups
      cases hsave : env.saveErr with
      | none => exact ⟨rfl, by simp, by simp, cur', rfl, hids.trans hcur⟩
      | some failure =>
        cases failure with
        | refused err =>
          exact ⟨rfl, by simp [applyAll_Name, SaveFailure.err], by simp, cur, hload, hcur⟩
        | truncated err loadErr =>
          exact ⟨rfl, by simp [applyAll_Name, SaveFailure.err], by simp, rfl⟩
        | written err =>
          exact ⟨rfl, by simp [applyAll_Name, SaveFailure.err], by simp, cur', rfl,
            hids.trans hcur⟩

theorem membersLoop_report (act : MemberAction) (userIDs : List String)
    (env : Nat → MemberEnv) (groups : List Group) (i : Nat) (st : MemberState)
    (ids : List String) (broken : Option String)
    (hfile : FileState st.storage ids broken) (hmem : ∀ g ∈ groups, g.ID ∈ ids) :
    (membersLoop act userIDs env i groups st).calls =
      st.calls ++ (activeWithEnv env i groups).map (fun p => (p.1.ID, userIDs)) ∧
    (membersLoop act userIDs env i groups st).errors =
      st.errors ++
        (withBroken userIDs broken (activeWithEnv env i groups)).filterMap
          (groupError userIDs) ∧
    (membersLoop act userIDs env i groups st).affectedGroups =
      st.affectedGroups +
        (withBroken userIDs broken (activeWithEnv env i groups)).countP (groupDone userIDs) := by
  induction groups generalizing i st broken with
  | nil => exact ⟨by simp [membersLoop, activeWithEnv], by simp [membersLoop, activeWithEnv, withBroken],
      by simp [membersLoop, activeWithEnv, withBroken]⟩
  | cons g rest ih =>
    have hrest : ∀ x ∈ rest, x.ID ∈ ids := fun x hx => hmem x (List.mem_cons_of_mem _ hx)
    by_cases hg : g.Status = "deleted"
    · have hstep : membersStep act userIDs (env i) st g = st := by
        unfold membersStep
        simp [hg]
      have hact : activeWithEnv env i (g :: rest) = activeWithEnv env (i + 1) rest := by
        rw [activeWithEnv]
        simp [hg]
      rw [membersLoop, hstep, hact]
      exact ih (i + 1) st broken hfile hrest
    · obtain ⟨hc, he, ha, hfile1⟩ :=
        membersStep_report act userIDs (env i) st g ids broken hfile (hmem g (by simp)) hg
      have hact : activeWithEnv env i (g :: rest) =
          (g, env i) :: activeWithEnv env (i + 1) rest := by
        rw [activeWithEnv]
        simp [hg]
      obtain ⟨hc2, he2, ha2⟩ :=
        ih (i + 1) (membersStep act userIDs (env i) st g) _ hfile1 hrest
      rw [membersLoop, hact, withBroken]
      refine ⟨?_, ?_, ?_⟩
      · rw [hc2, hc]
        simp
      · rw [he2, he]
        cases hge : groupError userIDs ((g, env i), broken) <;>
          simp [List.filterMap_cons, hge]
      · rw [ha2, ha]
        cases hgd : groupDone userIDs ((g, env i), broken) with
        | false => simp [List.countP_cons, hgd]
        | true =>
          simp only [List.countP_cons, hgd, if_true]
          omega

theorem withBroken_fst (userIDs : List String) (broken : Option String)
    (l : List (Group × MemberEnv)) : (withBroken userIDs broken l).map Prod.fst = l := by
  induction l generalizing broken with
  | nil => rfl
  | cons p rest ih =>
    rw [withBroken, List.map_cons, ih]

theorem filterMap_countP_length (userIDs : List String)
    (l : List ((Group × MemberEnv) × Option String)) :
    (l.filterMap (groupError userIDs)).length + l.countP (groupDone userIDs) = l.length := by
  induction l with
  | nil => rfl
  | cons p rest ih =>
    have hp : (groupError userIDs p = none ∧ groupDone userIDs p = true) ∨
        (∃ e, groupError userIDs p = some e ∧ groupDone userIDs p = false) := by
      unfold groupError groupDone
      cases p.1.2.remote p.1.1.ID userIDs with
      | some err => right; exact ⟨_, rfl, by simp⟩
      | none =>
        cases hu : updateError p.2 p.1.2.saveErr with
        | some err => right; exact ⟨_, rfl, by simp⟩
        | none => left; exact ⟨rfl, by simp⟩
    rcases hp with ⟨h1, h2⟩ | ⟨e, h1, h2⟩
    · simp only [List.filterMap_cons, h1, List.countP_cons, h2, if_true, List.length_cons]
      omega
    · simp only [List.filterMap_cons, h1, List.countP_cons, h2, List.length_cons]
      simp only [Bool.false_eq_true, if_false]
      omega

theorem membersOperation_all_groups (act : MemberAction) (env : Nat → MemberEnv)
    (fs : FileStorage) (req : GroupMemberRequest) (groups : List Group)
    (hids : req.UserIDs ≠ []) (hall : req.AllGroups = true)
    (hload : fs.LoadGroups = .ok groups) :
    membersOperation act env fs req =
      (membersLoop act req.UserIDs env 0 groups ⟨fs, 0, [], []⟩,
        .ok (membersResponse act (membersLoop act req.UserIDs env 0 groups ⟨fs, 0, [], []⟩))) := by
  unfold membersOperation
  have hlen : ¬ req.UserIDs.length = 0 := by
    intro h
    exact hids (List.length_eq_zero.mp h)
  simp only [hlen, if_false, hall, if_true, hload]

/-- C16: in all-groups mode with a non-empty user id list, `AddMembers` and
`RemoveMembers` make exactly one remote call per record that is not deleted, in storage
order, whatever the outcome of the calls before; `Affected` is the number of those
records whose remote call and local update both succeed (the update of a record fails
when its write fails, and when the write of an earlier record of the loop has left a
truncated file, which cannot be loaded); the error strings are, in
storage order, "群组 <name>: <reason>" for each record whose remote call fails and one
string for each failed update; `Affected` plus the number of error strings is the number
of records that are not deleted; and `Success` is true iff `Affected` is positive. -/
theorem C16_all_groups_report
    (op : (Nat → MemberEnv) → FileStorage → GroupMemberRequest →
      MemberState × Except String GroupMemberResponse)
    (hop : op = AddMembers ∨ op = RemoveMembers)
    (env : Nat → MemberEnv) (fs : FileStorage) (req : GroupMemberRequest)
    (groups : List Group) (hids : req.UserIDs ≠ []) (hall : req.AllGroups = true)
    (hload : fs.LoadGroups = .ok groups) :
    ∃ resp, (op env fs req).2 = .ok resp ∧
      (op env fs req).1.calls =
        (groups.filter (fun g => decide (g.Status ≠ "deleted"))).map
          (fun g => (g.ID, req.UserIDs)) ∧
      (loopGroups req.UserIDs env groups).map (fun q => q.1.1) =
        groups.filter (fun g => decide (g.Status ≠ "deleted")) ∧
      resp.Affected = ((loopGroups req.UserIDs env groups).countP (groupDone req.UserIDs) : Int) ∧
      (op env fs req).1.errors =
        (loopGroups req.UserIDs env groups).filterMap (groupError req.UserIDs) ∧
      (∀ q ∈ loopGroups req.UserIDs env groups, ∀ err,
        q.1.2.remote q.1.1.ID req.UserIDs = some err →
        groupError req.UserIDs q = some ("群组 " ++ q.1.1.Name ++ ": " ++ err)) ∧
      resp.Affected + ((op env fs req).1.errors.length : Int) =
        ((groups.filter (fun g => decide (g.Status ≠ "deleted"))).length : Int) ∧
      (resp.Success = true ↔ resp.Affected > 0) := by
  have key : ∀ act : MemberAction, ∃ resp, (membersOperation act env fs req).2 = .ok resp ∧
      (membersOperation act env fs req).1.calls =
        (groups.filter (fun g => decide (g.Status ≠ "deleted"))).map
          (fun g => (g.ID, req.UserIDs)) ∧
      (loopGroups req.UserIDs env groups).map (fun q => q.1.1) =
        groups.filter (fun g => decide (g.Status ≠ "deleted")) ∧
      resp.Affected = ((loopGroups req.UserIDs env groups).countP (groupDone req.UserIDs) : Int) ∧
      (membersOperation act env fs req).1.errors =
        (loopGroups req.UserIDs env groups).filterMap (groupError req.UserIDs) ∧
      (∀ q ∈ loopGroups req.UserIDs env groups, ∀ err,
        q.1.2.remote q.1.1.ID req.UserIDs = some err →
        groupError req.UserIDs q = some ("群组 " ++ q.1.1.Name ++ ": " ++ err)) ∧
      resp.Affected + ((membersOperation act env fs req).1.errors.length : Int) =
        ((groups.filter (fun g => decide (g.Status ≠ "deleted"))).length : Int) ∧
      (resp.Success = true ↔ resp.Affected > 0) := by
    intro act
    obtain ⟨hc, he, ha⟩ := membersLoop_report act req.UserIDs env groups 0 ⟨fs, 0, [], []⟩
      (groups.map Group.ID) none ⟨groups, hload, rfl⟩ (fun g hg => List.mem_map_of_mem _ hg)
    rw [membersOperation_all_groups act env fs req groups hids hall hload]
    simp only [List.nil_append, Nat.zero_add] at hc he ha
    have hlen := filterMap_countP_length req.UserIDs (loopGroups req.UserIDs env groups)
    have hfst : (loopGroups req.UserIDs env groups).map (fun q => q.1.1) =
        groups.filter (fun g => decide (g.Status ≠ "deleted")) := by
      rw [← activeWithEnv_fst env 0 groups]
      have h2 := congrArg (List.map Prod.fst)
        (withBroken_fst req.UserIDs none (activeWithEnv env 0 groups))
      rw [List.map_map] at h2
      exact h2
    have hlen2 := congrArg List.length hfst
    rw [List.length_map] at hlen2
    refine ⟨_, rfl, ?_, hfst, ?_, he, ?_, ?_, ?_⟩
    · rw [hc, ← activeWithEnv_fst env 0 groups, List.map_map]
      rfl
    · show ((membersLoop act req.UserIDs env 0 groups ⟨fs, 0, [], []⟩).affectedGroups : Int) = _
      rw [ha]
      rfl
    · intro q _ err herr
      unfold groupError
      rw [herr]
    · show ((membersLoop act req.UserIDs env 0 groups ⟨fs, 0, [], []⟩).affectedGroups : Int) +
        ((membersLoop act req.UserIDs env 0 groups ⟨fs, 0, [], []⟩).errors.length : Int) = _
      rw [ha, he]
      have h3 : (withBroken req.UserIDs none (activeWithEnv env 0 groups)) =
          loopGroups req.UserIDs env groups := rfl
      rw [h3]
      omega
    · show decide ((membersLoop act req.UserIDs env 0 groups ⟨fs, 0, [], []⟩).affectedGroups > 0)
          = true ↔
        ((membersLoop act req.UserIDs env 0 groups ⟨fs, 0, [], []⟩).affectedGroups : Int) > 0
      simp
  rcases hop with h | h
  · rw [h]; exact key .add
  · rw [h]; exact key .remove

/-- C16, at the store holding "Ops", "Team" and "Lab" when the remote call fails for
"Ops" only: two groups are affected, the result is a success and its message names
"Ops" with the reason. -/
theorem C16_all_groups_report_witness :
    ((AddMembers = AddMembers ∨ AddMembers = RemoveMembers) ∧
      (⟨"", ["u7"], true⟩ : GroupMemberRequest).UserIDs ≠ [] ∧
      (⟨"", ["u7"], true⟩ : GroupMemberRequest).AllGroups = true ∧
      (FileStorage.stored [opsGroup, freshTeam, labGroup]).LoadGroups =
        .ok [opsGroup, freshTeam, labGroup] ∧
      (AddMembers opsFailingEnv (.stored [opsGroup, freshTeam, labGroup])
          ⟨"", ["u7"], true⟩).2 =
        .ok { Success := true
              Message := "部分成功：2 个群组，错误：群组 Ops: boom"
              Affected := 2 }) ∧
    ∃ resp, (AddMembers opsFailingEnv (.stored [opsGroup, freshTeam, labGroup])
        ⟨"", ["u7"], true⟩).2 = .ok resp ∧
      (AddMembers opsFailingEnv (.stored [opsGroup, freshTeam, labGroup])
          ⟨"", ["u7"], true⟩).1.calls =
        ([opsGroup, freshTeam, labGroup].filter (fun g => decide (g.Status ≠ "deleted"))).map
          (fun g => (g.ID, (⟨"", ["u7"], true⟩ : GroupMemberRequest).UserIDs)) ∧
      (loopGroups (⟨"", ["u7"], true⟩ : GroupMemberRequest).UserIDs opsFailingEnv
          [opsGroup, freshTeam, labGroup]).map (fun q => q.1.1) =
        [opsGroup, freshTeam, labGroup].filter (fun g => decide (g.Status ≠ "deleted")) ∧
      resp.Affected = ((loopGroups (⟨"", ["u7"], true⟩ : GroupMemberRequest).UserIDs
        opsFailingEnv [opsGroup, freshTeam, labGroup]).countP
        (groupDone (⟨"", ["u7"], true⟩ : GroupMemberRequest).UserIDs) : Int) ∧
      (AddMembers opsFailingEnv (.stored [opsGroup, freshTeam, labGroup])
          ⟨"", ["u7"], true⟩).1.errors =
        (loopGroups (⟨"", ["u7"], true⟩ : GroupMemberRequest).UserIDs opsFailingEnv
          [opsGroup, freshTeam, labGroup]).filterMap
          (groupError (⟨"", ["u7"], true⟩ : GroupMemberRequest).UserIDs) ∧
      (∀ q ∈ loopGroups (⟨"", ["u7"], true⟩ : GroupMemberRequest).UserIDs opsFailingEnv
          [opsGroup, freshTeam, labGroup], ∀ err,
        q.1.2.remote q.1.1.ID (⟨"", ["u7"], true⟩ : GroupMemberRequest).UserIDs = some err →
        groupError (⟨"", ["u7"], true⟩ : GroupMemberRequest).UserIDs q =
          some ("群组 " ++ q.1.1.Name ++ ": " ++ err)) ∧
      resp.Affected + ((AddMembers opsFailingEnv (.stored [opsGroup, freshTeam, labGroup])
          ⟨"", ["u7"], true⟩).1.errors.length : Int) =
        (([opsGroup, freshTeam, labGroup].filter
          (fun g => decide (g.Status ≠ "deleted"))).length : Int) ∧
      (resp.Success = true ↔ resp.Affected > 0) :=
  ⟨⟨Or.inl rfl, by decide, rfl, rfl, rfl⟩,
   C16_all_groups_report AddMembers (Or.inl rfl) opsFailingEnv
     (.stored [opsGroup, freshTeam, labGroup]) ⟨"", ["u7"], true⟩
     [opsGroup, freshTeam, labGroup] (by decide) rfl rfl⟩

/-! ## The result of the import loop -/

theorem createRow_outcome (ToLower : String → String) (env : CreateEnv) (st : CreateState)
    (row : CSVGroupData) :
    (∃ g, st.storage.AddGroup env.saveErr g = .ok (createRow ToLower env st row).storage ∧
      (createRow ToLower env st row).successCount = st.successCount + 1 ∧
      (createRow ToLower env st row).failCount = st.failCount ∧
      (createRow ToLower env st row).failedGroups = st.failedGroups) ∨
    (∃ reason, ((createRow ToLower env st row).storage = st.storage ∨
        failsAfterOpen env.saveErr = true) ∧
      (createRow ToLower env st row).successCount = st.successCount ∧
      (createRow ToLower env st row).failCount = st.failCount + 1 ∧
      (createRow ToLower env st row).failedGroups =
        st.failedGroups ++ [row.Name ++ " (" ++ reason ++ ")"]) := by
  unfold createRow
  by_cases hex : st.storage.GroupExists row.Name = true
  · right
    refine ⟨"群名已存在", ?_⟩
    rw [if_pos hex]
    refine ⟨Or.inl rfl, rfl, rfl, ?_⟩
    simp only [String.append_assoc]
    rfl
  · simp only [hex]
    cases hcall : env.CreateGroup (createRequest ToLower row) with
    | error err =>
      right
      refine ⟨"API调用失败: " ++ err, Or.inl rfl, rfl, rfl, ?_⟩
      simp only [String.append_assoc]
      rfl
    | ok resp =>
      by_cases hs : resp.Success = true
      · simp only [hs]
        cases hadd : st.storage.AddGroup env.saveErr (createdGroup env.now row resp.GroupID) with
        | error e =>
          obtain ⟨err, left⟩ := e
          right
          refine ⟨"保存失败: " ++ err, ?_, rfl, rfl, ?_⟩
          · rcases AddGroup_error _ _ _ _ _ hadd with hl | ⟨loadErr, hsave, -⟩ | ⟨hsave, -⟩
            · exact Or.inl hl
            · exact Or.inr (by rw [hsave]; rfl)
            · exact Or.inr (by rw [hsave]; rfl)
          · simp only [String.append_assoc]
            rfl
        | ok storage =>
          left
          exact ⟨createdGroup env.now row resp.GroupID, by simpa using hadd, by simp, by simp,
            by simp⟩
      · right
        refine ⟨resp.Message, ?_⟩
        simp [hs]

theorem AddGroup_load_error (fs : FileStorage) (saveErr : Option SaveFailure)
    (group : Group) (loadErr : String) (hload : fs.LoadGroups = .error loadErr) :
    fs.AddGroup saveErr group = .error (loadErr, fs) := by
  unfold FileStorage.AddGroup
  rw [hload]

theorem createRow_unloadable (ToLower : String → String) (env : CreateEnv) (st : CreateState)
    (row : CSVGroupData) (loadErr : String) (hload : st.storage.LoadGroups = .error loadErr) :
    (createRow ToLower env st row).storage = st.storage ∧
      (createRow ToLower env st row).successCount = st.successCount := by
  have hex : st.storage.GroupExists row.Name = false := by
    unfold FileStorage.GroupExists
    rw [hload]
  unfold createRow
  rw [hex]
  simp only [Bool.false_eq_true, if_false]
  cases hcall : env.CreateGroup (createRequest ToLower row) with
  | error err => exact ⟨rfl, rfl⟩
  | ok resp =>
    by_cases hs : resp.Success = true
    · simp only [hs]
      rw [AddGroup_load_error st.storage env.saveErr _ loadErr hload]
      exact ⟨rfl, rfl⟩
    · simp [hs]

theorem createRows_unloadable (ToLower : String → String) (env : Nat → CreateEnv)
    (rows : List CSVGroupData) (i : Nat) (st : CreateState) (loadErr : String)
    (hload : st.storage.LoadGroups = .error loadErr) :
    (createRows ToLower env i rows st).storage = st.storage ∧
      (createRows ToLower env i rows st).successCount = st.successCount := by
  induction rows generalizing i st with
  | nil => exact ⟨rfl, rfl⟩
  | cons row rest ih =>
    obtain ⟨h1, h2⟩ := createRow_unloadable ToLower (env i) st row loadErr hload
    obtain ⟨h3, h4⟩ := ih (i + 1) (createRow ToLower (env i) st row) (by rw [h1]; exact hload)
    rw [createRows]
    exact ⟨h3.trans h1, h4.trans h2⟩

theorem createRows_report (ToLower : String → String) (env : Nat → CreateEnv)
    (rows : List CSVGroupData) (i : Nat) (st : CreateState) :
    ∃ outcomes : List (Option String), outcomes.length = rows.length ∧
      (createRows ToLower env i rows st).successCount =
        st.successCount + outcomes.count none ∧
      (createRows ToLower env i rows st).failCount =
        st.failCount + outcomes.countP Option.isSome ∧
      (createRows ToLower env i rows st).failedGroups =
        st.failedGroups ++ (rows.zip outcomes).filterMap failureEntry ∧
      ((∀ k, i ≤ k → failsAfterOpen (env k).saveErr = false) →
        ∀ groups0, st.storage.LoadGroups = .ok groups0 →
        ∃ added, (createRows ToLower env i rows st).storage.LoadGroups = .ok (groups0 ++ added) ∧
          added.length = outcomes.count none) := by
  induction rows generalizing i st with
  | nil =>
    exact ⟨[], rfl, by simp [createRows], by simp [createRows], by simp [createRows],
      fun _ groups0 h => ⟨[], by simpa [createRows] using h, rfl⟩⟩
  | cons row rest ih =>
    obtain ⟨outs, hlen, hsucc, hfail, hentries, hstore⟩ :=
      ih (i + 1) (createRow ToLower (env i) st row)
    rcases createRow_outcome ToLower (env i) st row with
      ⟨g, hadd, h1, h2, h3⟩ | ⟨reason, h0, h1, h2, h3⟩
    · obtain ⟨groups, hload, -, -, hfs⟩ := (AddGroup_ok_iff _ _ _ _).mp hadd
      refine ⟨none :: outs, by simp [hlen], ?_, ?_, ?_, ?_⟩
      · rw [createRows, hsucc, h1]
        simp only [List.count_cons_self]
        omega
      · rw [createRows, hfail, h2]
        simp
      · rw [createRows, hentries, h3]
        simp [failureEntry]
      · intro hkeep groups0 h
        rw [hload] at h
        cases h
        obtain ⟨added, ha, hal⟩ := hstore (fun k hk => hkeep k (by omega)) (groups ++ [g])
          (by rw [hfs]; rfl)
        refine ⟨g :: added, ?_, ?_⟩
        · rw [createRows, ha]
          simp
        · simp only [List.length_cons, List.count_cons_self, hal]
    · refine ⟨some reason :: outs, by simp [hlen], ?_, ?_, ?_, ?_⟩
      · rw [createRows, hsucc, h1]
        simp
      · rw [createRows, hfail, h2]
        simp only [List.countP_cons, Option.isSome_some, if_true]
        omega
      · rw [createRows, hentries, h3]
        simp [failureEntry]
      · intro hkeep groups0 h
        have h0' : (createRow ToLower (env i) st row).storage = st.storage := by
          rcases h0 with h0 | h0
          · exact h0
          · rw [hkeep i (le_refl i)] at h0
            cases h0
        obtain ⟨added, ha, hal⟩ := hstore (fun k hk => hkeep k (by omega)) groups0
          (by rw [h0']; exact h)
        refine ⟨added, by rw [createRows]; exact ha, ?_⟩
        simpa using hal

theorem count_none_add_countP (outcomes : List (Option String)) :
    outcomes.count none + outcomes.countP Option.isSome = outcomes.length := by
  induction outcomes with
  | nil => rfl
  | cons o rest ih =>
    cases o with
    | none =>
      simp only [List.count_cons_self, List.countP_cons, Option.isSome_none, List.length_cons]
      simp only [Bool.false_eq_true, if_false]
      omega
    | some r =>
      have : (some r :: rest).count none = rest.count none := by simp
      rw [this]
      simp only [List.countP_cons, Option.isSome_some, if_true, List.length_cons]
      omega

theorem filterMap_failureEntry_length (rows : List CSVGroupData)
    (outcomes : List (Option String)) (h : outcomes.length = rows.length) :
    ((rows.zip outcomes).filterMap failureEntry).length = outcomes.countP Option.isSome := by
  induction rows generalizing outcomes with
  | nil =>
    cases outcomes with
    | nil => rfl
    | cons o os => simp at h
  | cons r rest ih =>
    cases outcomes with
    | nil => simp at h
    | cons o os =>
      have hlen : os.length = rest.length := by simpa using h
      cases o with
      | none => simpa [failureEntry] using ih os hlen
      | some reason => simpa [failureEntry] using ih os hlen

/-- C19 as stated fails when a write fails after the file was opened: of the rows "Team"
and "Ops" the first is created and stored, the write for the second leaves a truncated
file; the import reports one created row, but the store has not gained one record: it
cannot be loaded any more. -/
theorem C19_counterexample_truncated_write :
    LoadGroupsFromCSV (.ok [["群名称", "群描述", "群主用户ID", "群成员用户ID列表"],
        ["Team", "", "u1", "a,b"], ["Ops", "", "u3", ""]]) =
      .ok [{ Name := "Team", Description := "", OwnerID := "u1", MemberIDs := "a,b", GroupType := "" },
        { Name := "Ops", Description := "", OwnerID := "u3", MemberIDs := "", GroupType := "" }] ∧
    FileStorage.missing.LoadGroups = .ok [] ∧
    (CreateGroupsFromCSV asciiLower secondWriteFailsEnv .missing
      (.ok [["群名称", "群描述", "群主用户ID", "群成员用户ID列表"],
        ["Team", "", "u1", "a,b"], ["Ops", "", "u3", ""]])).2 =
      .ok { GroupID := ""
            Success := true
            Message := "成功创建 1 个群组，失败 1 个群组\n失败的群组：Ops (保存失败: 写入群组数据文件失败: disk full)" } ∧
    (CreateGroupsFromCSV asciiLower secondWriteFailsEnv .missing
      (.ok [["群名称", "群描述", "群主用户ID", "群成员用户ID列表"],
        ["Team", "", "u1", "a,b"], ["Ops", "", "u3", ""]])).1.successCount = 1 ∧
    (CreateGroupsFromCSV asciiLower secondWriteFailsEnv .missing
      (.ok [["群名称", "群描述", "群主用户ID", "群成员用户ID列表"],
        ["Team", "", "u1", "a,b"], ["Ops", "", "u3", ""]])).1.storage.LoadGroups =
      .error "解析群组数据失败: unexpected end of JSON input" := by
  refine ⟨rfl, rfl, rfl, rfl, rfl⟩

/-- C19 (amended): for an import whose file is accepted with the rows `rows`, every row
gets an outcome (created, or failed with a reason): created rows plus failed rows are all
the rows; the failure entries are, in row order, "<name> (<reason>)" for exactly the
failed rows; `Success` is true iff at least one row was created; and, provided no write
of the import fails after the file was opened, the store has gained as many records as
rows were created (a store that could not be loaded at the start stays as it is, with no
row created). -/
theorem C19_import_batch (ToLower : String → String) (env : Nat → CreateEnv)
    (fs : FileStorage) (csvFile : Except String (List (List String)))
    (rows : List CSVGroupData) (hacc : LoadGroupsFromCSV csvFile = .ok rows) :
    ∃ resp, ∃ outcomes : List (Option String),
      (CreateGroupsFromCSV ToLower env fs csvFile).2 = .ok resp ∧
      outcomes.length = rows.length ∧
      (CreateGroupsFromCSV ToLower env fs csvFile).1.successCount = outcomes.count none ∧
      (CreateGroupsFromCSV ToLower env fs csvFile).1.failCount =
        outcomes.countP Option.isSome ∧
      (CreateGroupsFromCSV ToLower env fs csvFile).1.successCount +
          (CreateGroupsFromCSV ToLower env fs csvFile).1.failCount = rows.length ∧
      (CreateGroupsFromCSV ToLower env fs csvFile).1.failedGroups =
        (rows.zip outcomes).filterMap failureEntry ∧
      (CreateGroupsFromCSV ToLower env fs csvFile).1.failedGroups.length =
        (CreateGroupsFromCSV ToLower env fs csvFile).1.failCount ∧
      ((∀ k, failsAfterOpen (env k).saveErr = false) →
        ∀ groups0, fs.LoadGroups = .ok groups0 →
        ∃ added, (CreateGroupsFromCSV ToLower env fs csvFile).1.storage.LoadGroups =
            .ok (groups0 ++ added) ∧
          added.length = (CreateGroupsFromCSV ToLower env fs csvFile).1.successCount) ∧
      (∀ err, fs.LoadGroups = .error err →
        (CreateGroupsFromCSV ToLower env fs csvFile).1.storage = fs ∧
        (CreateGroupsFromCSV ToLower env fs csvFile).1.successCount = 0) ∧
      (resp.Success = true ↔
        (CreateGroupsFromCSV ToLower env fs csvFile).1.successCount > 0) := by
  unfold CreateGroupsFromCSV
  rw [hacc]
  by_cases hlen : rows.length = 0
  · have hrows : rows = [] := List.length_eq_zero.mp hlen
    subst hrows
    refine ⟨_, [], rfl, rfl, rfl, rfl, rfl, rfl, rfl, ?_, ?_, ?_⟩
    · intro _ groups0 h
      exact ⟨[], by simpa using h, rfl⟩
    · intro err _
      exact ⟨rfl, rfl⟩
    · simp
  · simp only [hlen, if_false]
    obtain ⟨outs, hl, hsucc, hfail, hentries, hstore⟩ :=
      createRows_report ToLower env rows 0 ⟨fs, 0, 0, [], []⟩
    simp only [Nat.zero_add, List.nil_append] at hsucc hfail hentries
    refine ⟨_, outs, rfl, hl, hsucc, hfail, ?_, hentries, ?_, ?_, ?_, ?_⟩
    · rw [hsucc, hfail, count_none_add_countP, hl]
    · rw [hentries, hfail, filterMap_failureEntry_length rows outs hl]
    · intro hkeep groups0 h
      obtain ⟨added, ha, hal⟩ := hstore (fun k _ => hkeep k) groups0 h
      exact ⟨added, ha, by rw [hal, hsucc]⟩
    · intro err h
      exact createRows_unloadable ToLower env rows 0 ⟨fs, 0, 0, [], []⟩ err h
    · simp

/-- C19 (amended), at the import of the rows "Team" and "Ops" when the remote platform
creates the first and refuses the second, with writes that succeed: the store gains one
record. -/
theorem C19_import_batch_witness :
    (LoadGroupsFromCSV (.ok [["群名称", "群描述", "群主用户ID", "群成员用户ID列表"],
        ["Team", "", "u1", "a,b"], ["Ops", "", "u3", ""]]) =
      .ok [{ Name := "Team", Description := "", OwnerID := "u1", MemberIDs := "a,b", GroupType := "" },
        { Name := "Ops", Description := "", OwnerID := "u3", MemberIDs := "", GroupType := "" }] ∧
      (∀ k, failsAfterOpen (firstOnlyEnv k).saveErr = false) ∧
      FileStorage.missing.LoadGroups = .ok [] ∧
      (CreateGroupsFromCSV asciiLower firstOnlyEnv .missing
        (.ok [["群名称", "群描述", "群主用户ID", "群成员用户ID列表"],
          ["Team", "", "u1", "a,b"], ["Ops", "", "u3", ""]])).2 =
        .ok { GroupID := ""
              Success := true
              Message := "成功创建 1 个群组，失败 1 个群组\n失败的群组：Ops (创建群组失败: quota)" }) ∧
    ∃ resp, ∃ outcomes : List (Option String),
      (CreateGroupsFromCSV asciiLower firstOnlyEnv .missing
        (.ok [["群名称", "群描述", "群主用户ID", "群成员用户ID列表"],
          ["Team", "", "u1", "a,b"], ["Ops", "", "u3", ""]])).2 = .ok resp ∧
      outcomes.length = 2 ∧
      (CreateGroupsFromCSV asciiLower firstOnlyEnv .missing
        (.ok [["群名称", "群描述", "群主用户ID", "群成员用户ID列表"],
          ["Team", "", "u1", "a,b"], ["Ops", "", "u3", ""]])).1.successCount =
        outcomes.count none ∧
      ∃ added, (CreateGroupsFromCSV asciiLower firstOnlyEnv .missing
          (.ok [["群名称", "群描述", "群主用户ID", "群成员用户ID列表"],
            ["Team", "", "u1", "a,b"], ["Ops", "", "u3", ""]])).1.storage.LoadGroups =
          .ok ([] ++ added) ∧
        added.length = (CreateGroupsFromCSV asciiLower firstOnlyEnv .missing
          (.ok [["群名称", "群描述", "群主用户ID", "群成员用户ID列表"],
            ["Team", "", "u1", "a,b"], ["Ops", "", "u3", ""]])).1.successCount :=
  ⟨⟨rfl, fun _ => rfl, rfl, rfl⟩,
   (C19_import_batch asciiLower firstOnlyEnv .missing
      (.ok [["群名称", "群描述", "群主用户ID", "群成员用户ID列表"],
        ["Team", "", "u1", "a,b"], ["Ops", "", "u3", ""]])
      [{ Name := "Team", Description := "", OwnerID := "u1", MemberIDs := "a,b", GroupType := "" },
        { Name := "Ops", Description := "", OwnerID := "u3", MemberIDs := "", GroupType := "" }]
      rfl).imp (fun _ h => h.imp (fun _ h2 =>
        ⟨h2.1, h2.2.1, h2.2.2.1, h2.2.2.2.2.2.2.2.1 (fun _ => rfl) [] rfl⟩))⟩

/-! ## The member operations in a store with pairwise distinct ids -/

theorem updateGroupLoop_at (group g : Group) (pre post : List Group)
    (hpre : ∀ x ∈ pre, x.ID ≠ group.ID) (hg : g.ID = group.ID) :
    updateGroupLoop group (pre ++ g :: post) = some (pre ++ group :: post) := by
  induction pre with
  | nil =>
    simp only [List.nil_append]
    unfold updateGroupLoop
    simp [hg]
  | cons p ps ih =>
    have hp : p.ID ≠ group.ID := hpre p (by simp)
    have := ih (fun x hx => hpre x (List.mem_cons_of_mem _ hx))
    simp only [List.cons_append]
    unfold updateGroupLoop
    simp [hp, this]

theorem nodup_ids_pre (pre : List Group) (g : Group) (post : List Group)
    (hnd : ((pre ++ g :: post).map Group.ID).Nodup) : ∀ x ∈ pre, x.ID ≠ g.ID := by
  intro x hx hc
  rw [List.map_append, List.map_cons, List.nodup_append] at hnd
  exact hnd.2.2 (List.mem_map_of_mem Group.ID hx) (by rw [hc]; simp)

theorem membersStep_records (act : MemberAction) (userIDs : List String) (env : MemberEnv)
    (st : MemberState) (pre : List Group) (g : Group) (rest : List Group)
    (hload : st.storage.LoadGroups = .ok (pre ++ g :: rest))
    (hnd : ((pre ++ g :: rest).map Group.ID).Nodup)
    (hkeep : failsAfterOpen env.saveErr = false) :
    (membersStep act userIDs env st g).storage.LoadGroups =
      .ok (pre ++
        (if g.Status ≠ "deleted" ∧ env.remote g.ID userIDs = none ∧ env.saveErr = none then
            act.applyAll env.now g userIDs
          else g) :: rest) := by
  unfold membersStep
  by_cases hdel : g.Status = "deleted"
  · simp [hdel, hload]
  · simp only [hdel, if_false]
    cases hremote : env.remote g.ID userIDs with
    | some err => simp [hload]
    | none =>
      have hloop := updateGroupLoop_at (act.applyAll env.now g userIDs) g pre rest
        (by rw [applyAll_ID]; exact nodup_ids_pre pre g rest hnd) (by rw [applyAll_ID])
      unfold FileStorage.UpdateGroup FileStorage.SaveGroups
      rw [hload]
      simp only [hloop]
      cases hsave : env.saveErr with
      | some failure =>
        cases failure with
        | refused err => simp [hload]
        | truncated err loadErr =>
          rw [hsave] at hkeep
          cases hkeep
        | written err =>
          rw [hsave] at hkeep
          cases hkeep
      | none => simp [FileStorage.LoadGroups, hdel]

theorem membersLoop_records (act : MemberAction) (userIDs : List String)
    (env : Nat → MemberEnv) (rest : List Group) (pre : List Group) (i : Nat)
    (st : MemberState) (hload : st.storage.LoadGroups = .ok (pre ++ rest))
    (hnd : ((pre ++ rest).map Group.ID).Nodup)
    (hkeep : ∀ k, failsAfterOpen (env k).saveErr = false) :
    (membersLoop act userIDs env i rest st).storage.LoadGroups =
      .ok (pre ++ recordsAfter act userIDs env i rest) := by
  induction rest generalizing pre i st with
  | nil => simpa [membersLoop, recordsAfter] using hload
  | cons g rest ih =>
    have hstep := membersStep_records act userIDs (env i) st pre g rest hload hnd (hkeep i)
    rw [membersLoop, recordsAfter]
    have happ : ∀ x : Group, pre ++ x :: rest = (pre ++ [x]) ++ rest := by
      intro x; simp
    rw [happ] at hstep
    have hids : ((pre ++ [if g.Status ≠ "deleted" ∧ (env i).remote g.ID userIDs = none ∧
          (env i).saveErr = none then act.applyAll (env i).now g userIDs else g]) ++ rest).map
        Group.ID = (pre ++ g :: rest).map Group.ID := by
      by_cases hc : g.Status ≠ "deleted" ∧ (env i).remote g.ID userIDs = none ∧
          (env i).saveErr = none
      · simp [hc, applyAll_ID]
      · simp [hc]
    have := ih _ (i + 1) _ hstep (by rw [hids]; exact hnd)
    rw [this]
    simp

theorem recordsAfter_append (act : MemberAction) (userIDs : List String)
    (env : Nat → MemberEnv) (a b : List Group) (i : Nat) :
    recordsAfter act userIDs env i (a ++ b) =
      recordsAfter act userIDs env i a ++ recordsAfter act userIDs env (i + a.length) b := by
  induction a generalizing i with
  | nil => rfl
  | cons x xs ih =>
    have hlen : i + 1 + xs.length = i + (x :: xs).length := by
      rw [List.length_cons]; omega
    rw [List.cons_append, recordsAfter, recordsAfter, ih, hlen]
    rfl

theorem recordsAfter_length (act : MemberAction) (userIDs : List String)
    (env : Nat → MemberEnv) (groups : List Group) (i : Nat) :
    (recordsAfter act userIDs env i groups).length = groups.length := by
  induction groups generalizing i with
  | nil => rfl
  | cons x xs ih => rw [recordsAfter, List.length_cons, List.length_cons, ih]

theorem GetGroupByID_error (fs : FileStorage) (groupID : String)
    (h : ∀ groups, fs.LoadGroups = .ok groups →
      ∀ g ∈ groups, g.ID = groupID → g.Status = "deleted") :
    ∃ err, fs.GetGroupByID groupID = .error err := by
  cases hget : fs.GetGroupByID groupID with
  | error err => exact ⟨err, rfl⟩
  | ok g =>
    obtain ⟨groups, hload, hin, hid, hst⟩ := GetGroupByID_ok fs groupID g hget
    exact absurd (h groups hload g hin hid) hst

theorem membersOperation_single (act : MemberAction) (env : Nat → MemberEnv)
    (fs : FileStorage) (req : GroupMemberRequest) (hids : req.UserIDs ≠ [])
    (hall : req.AllGroups = false) (hid : req.GroupID ≠ "") :
    membersOperation act env fs req =
      match fs.GetGroupByID req.GroupID with
      | .error err =>
        (⟨fs, 0, [], []⟩,
          .ok { Success := false, Message := "群组不存在: " ++ err, Affected := 0 })
      | .ok group =>
        match (env 0).remote group.ID req.UserIDs with
        | some err =>
          (⟨fs, 0, [], [(group.ID, req.UserIDs)]⟩,
            .ok { Success := false, Message := act.failText ++ err, Affected := 0 })
        | none =>
          match fs.UpdateGroup (env 0).saveErr (act.applyAll (env 0).now group req.UserIDs) with
          | .error (err, storage) =>
            (⟨storage, 0, [], [(group.ID, req.UserIDs)]⟩,
              .ok { Success := false, Message := "更新群组信息失败: " ++ err, Affected := 0 })
          | .ok storage =>
            (⟨storage, 1, [], [(group.ID, req.UserIDs)]⟩,
              .ok (membersResponse act ⟨storage, 1, [], [(group.ID, req.UserIDs)]⟩)) := by
  have hlen : ¬ req.UserIDs.length = 0 := fun h => hids (List.length_eq_zero.mp h)
  unfold membersOperation
  simp only [hlen, if_false, hall, hid, Bool.false_eq_true]

/-- C17 as stated fails in all-groups mode when a write fails after the file was opened:
in the store holding "Ops" and "Team" (reached by two `AddGroup` calls) the remote call
for "Ops" fails and the call for "Team" succeeds; the write of the update of "Team"
leaves a truncated file, so the record of "Ops" is not stored as it was: the file cannot
be loaded. -/
theorem C17_counterexample_truncated_write :
    Reachable (.stored [opsGroup, freshTeam]) ∧
    (opsFailingDiskFullEnv 0).remote opsGroup.ID ["u7"] = some "boom" ∧
    (FileStorage.stored [opsGroup, freshTeam]).LoadGroups = .ok [opsGroup, freshTeam] ∧
    (AddMembers opsFailingDiskFullEnv (.stored [opsGroup, freshTeam])
        ⟨"", ["u7"], true⟩).2 =
      .ok { Success := false
            Message := "部分成功：0 个群组，错误：群组 Ops: boom; 群组 Team 更新失败: 写入群组数据文件失败: disk full"
            Affected := 0 } ∧
    (AddMembers opsFailingDiskFullEnv (.stored [opsGroup, freshTeam])
        ⟨"", ["u7"], true⟩).1.storage.LoadGroups =
      .error "解析群组数据失败: unexpected end of JSON input" := by
  refine ⟨.addGroup none freshTeam (.addGroup none opsGroup .noFile rfl) rfl, rfl, rfl, rfl, rfl⟩

theorem membersOperation_failures (act : MemberAction) (env : Nat → MemberEnv)
    (fs : FileStorage) (req : GroupMemberRequest) :
    (req.UserIDs = [] →
      membersOperation act env fs req =
        (⟨fs, 0, [], []⟩,
          .ok { Success := false, Message := "用户ID列表不能为空", Affected := 0 })) ∧
    (req.UserIDs ≠ [] → req.AllGroups = false → req.GroupID = "" →
      membersOperation act env fs req =
        (⟨fs, 0, [], []⟩,
          .ok { Success := false, Message := "指定群组操作时必须提供群组ID", Affected := 0 })) ∧
    (req.UserIDs ≠ [] → req.AllGroups = false → req.GroupID ≠ "" →
      (∀ groups, fs.LoadGroups = .ok groups →
        ∀ g ∈ groups, g.ID = req.GroupID → g.Status = "deleted") →
      ∃ resp, membersOperation act env fs req = (⟨fs, 0, [], []⟩, .ok resp) ∧
        resp.Success = false ∧ resp.Affected = 0) ∧
    (req.UserIDs ≠ [] → req.AllGroups = false → req.GroupID ≠ "" →
      ∀ g err, fs.GetGroupByID req.GroupID = .ok g →
        (env 0).remote g.ID req.UserIDs = some err →
        ∃ resp, membersOperation act env fs req =
            (⟨fs, 0, [], [(g.ID, req.UserIDs)]⟩, .ok resp) ∧
          resp.Success = false ∧ resp.Affected = 0) ∧
    (req.UserIDs ≠ [] → req.AllGroups = true → (∀ k, failsAfterOpen (env k).saveErr = false) →
      ∀ pre g post err, fs.LoadGroups = .ok (pre ++ g :: post) →
        ((pre ++ g :: post).map Group.ID).Nodup →
        (env pre.length).remote g.ID req.UserIDs = some err →
        ∃ pre' post', (membersOperation act env fs req).1.storage.LoadGroups =
            .ok (pre' ++ g :: post') ∧
          pre'.length = pre.length ∧ post'.length = post.length) := by
  refine ⟨?_, ?_, ?_, ?_, ?_⟩
  · intro h
    unfold membersOperation
    simp [h]
  · intro hids hall hid
    have hlen : ¬ req.UserIDs.length = 0 := fun h => hids (List.length_eq_zero.mp h)
    unfold membersOperation
    simp only [hlen, if_false, hall, hid, Bool.false_eq_true, if_true]
  · intro hids hall hid hnone
    obtain ⟨err, herr⟩ := GetGroupByID_error fs req.GroupID hnone
    rw [membersOperation_single act env fs req hids hall hid, herr]
    exact ⟨_, rfl, rfl, rfl⟩
  · intro hids hall hid g err hget hremote
    rw [membersOperation_single act env fs req hids hall hid, hget]
    simp only [hremote]
    exact ⟨_, rfl, rfl, rfl⟩
  · intro hids hall hwrites pre g post err hload hnd hremote
    rw [membersOperation_all_groups act env fs req (pre ++ g :: post) hids hall hload]
    have hrec := membersLoop_records act req.UserIDs env (pre ++ g :: post) [] 0
      ⟨fs, 0, [], []⟩ (by simpa using hload) (by simpa using hnd) hwrites
    simp only [List.nil_append] at hrec
    rw [recordsAfter_append, recordsAfter] at hrec
    have hkeep : (if g.Status ≠ "deleted" ∧ (env (0 + pre.length)).remote g.ID req.UserIDs = none ∧
        (env (0 + pre.length)).saveErr = none then
          act.applyAll (env (0 + pre.length)).now g req.UserIDs else g) = g := by
      rw [Nat.zero_add, hremote]
      simp
    rw [hkeep] at hrec
    exact ⟨_, _, hrec, recordsAfter_length _ _ _ _ _, recordsAfter_length _ _ _ _ _⟩

/-- C17 (amended): for `AddMembers` and `RemoveMembers`, the iteration of a group whose
remote call fails leaves the whole store as it was, and, provided no write of the
operation fails after the file was opened, in a store whose record ids are pairwise
distinct that group's stored record is the same, at the same position, after the
all-groups operation; in single-group mode a failed remote call gives a result with
`Success` false and `Affected` 0, no error and the store unchanged; and the same kind of
result, with no remote call and the store unchanged, is returned when the user id list is
empty, or the group id is empty, or no record with the group id has a status other than
deleted. -/
theorem C17_failed_calls_change_nothing
    (op : (Nat → MemberEnv) → FileStorage → GroupMemberRequest →
      MemberState × Except String GroupMemberResponse)
    (hop : op = AddMembers ∨ op = RemoveMembers)
    (env : Nat → MemberEnv) (fs : FileStorage) (req : GroupMemberRequest) :
    (∀ act userIDs e st g err, e.remote g.ID userIDs = some err →
      (membersStep act userIDs e st g).storage = st.storage) ∧
    (req.UserIDs ≠ [] → req.AllGroups = true → (∀ k, failsAfterOpen (env k).saveErr = false) →
      ∀ pre g post err, fs.LoadGroups = .ok (pre ++ g :: post) →
        ((pre ++ g :: post).map Group.ID).Nodup →
        (env pre.length).remote g.ID req.UserIDs = some err →
        ∃ pre' post', (op env fs req).1.storage.LoadGroups = .ok (pre' ++ g :: post') ∧
          pre'.length = pre.length ∧ post'.length = post.length) ∧
    (req.UserIDs ≠ [] → req.AllGroups = false → req.GroupID ≠ "" →
      ∀ g err, fs.GetGroupByID req.GroupID = .ok g →
        (env 0).remote g.ID req.UserIDs = some err →
        ∃ resp, op env fs req = (⟨fs, 0, [], [(g.ID, req.UserIDs)]⟩, .ok resp) ∧
          resp.Success = false ∧ resp.Affected = 0) ∧
    (req.UserIDs = [] →
      op env fs req =
        (⟨fs, 0, [], []⟩,
          .ok { Success := false, Message := "用户ID列表不能为空", Affected := 0 })) ∧
    (req.UserIDs ≠ [] → req.AllGroups = false → req.GroupID = "" →
      op env fs req =
        (⟨fs, 0, [], []⟩,
          .ok { Success := false, Message := "指定群组操作时必须提供群组ID", Affected := 0 })) ∧
    (req.UserIDs ≠ [] → req.AllGroups = false → req.GroupID ≠ "" →
      (∀ groups, fs.LoadGroups = .ok groups →
        ∀ g ∈ groups, g.ID = req.GroupID → g.Status = "deleted") →
      ∃ resp, op env fs req = (⟨fs, 0, [], []⟩, .ok resp) ∧
        resp.Success = false ∧ resp.Affected = 0) := by
  have hstep : ∀ act userIDs e st g err, e.remote g.ID userIDs = some err →
      (membersStep act userIDs e st g).storage = st.storage := by
    intro act userIDs e st g err hremote
    unfold membersStep
    by_cases hdel : g.Status = "deleted"
    · simp [hdel]
    · simp [hdel, hremote]
  rcases hop with h | h
  · obtain ⟨h1, h2, h3, h4, h5⟩ := membersOperation_failures .add env fs req
    rw [h]
    exact ⟨hstep, h5, h4, h1, h2, h3⟩
  · obtain ⟨h1, h2, h3, h4, h5⟩ := membersOperation_failures .remove env fs req
    rw [h]
    exact ⟨hstep, h5, h4, h1, h2, h3⟩

/-- C17 (amended), at the store holding "Ops", "Team" and "Lab" when the remote calls
for "Ops" fail: in single-group mode nothing changes, and after the all-groups operation
the record "Ops" is where and what it was. -/
theorem C17_failed_calls_change_nothing_witness :
    (((⟨"chat9", ["u7"], false⟩ : GroupMemberRequest).UserIDs ≠ [] ∧
        (FileStorage.stored [opsGroup, freshTeam, labGroup]).GetGroupByID "chat9" = .ok opsGroup ∧
        (opsFailingEnv 0).remote opsGroup.ID ["u7"] = some "boom") ∧
      ∃ resp, RemoveMembers opsFailingEnv (.stored [opsGroup, freshTeam, labGroup])
          ⟨"chat9", ["u7"], false⟩ =
          (⟨.stored [opsGroup, freshTeam, labGroup], 0, [], [(opsGroup.ID, ["u7"])]⟩, .ok resp) ∧
        resp.Success = false ∧ resp.Affected = 0) ∧
    (((FileStorage.stored [opsGroup, freshTeam, labGroup]).LoadGroups =
          .ok ([] ++ opsGroup :: [freshTeam, labGroup]) ∧
        (([] ++ opsGroup :: [freshTeam, labGroup]).map Group.ID).Nodup ∧
        (∀ k, failsAfterOpen (opsFailingEnv k).saveErr = false)) ∧
      ∃ pre' post', (AddMembers opsFailingEnv (.stored [opsGroup, freshTeam, labGroup])
          ⟨"", ["u7"], true⟩).1.storage.LoadGroups = .ok (pre' ++ opsGroup :: post') ∧
        pre'.length = ([] : List Group).length ∧ post'.length = [freshTeam, labGroup].length) :=
  ⟨⟨⟨by decide, rfl, rfl⟩,
    (C17_failed_calls_change_nothing RemoveMembers (Or.inr rfl) opsFailingEnv
      (.stored [opsGroup, freshTeam, labGroup]) ⟨"chat9", ["u7"], false⟩).2.2.1
      (by decide) rfl (by decide) opsGroup "boom" rfl rfl⟩,
   ⟨⟨rfl, by decide, fun _ => rfl⟩,
    (C17_failed_calls_change_nothing AddMembers (Or.inl rfl) opsFailingEnv
      (.stored [opsGroup, freshTeam, labGroup]) ⟨"", ["u7"], true⟩).2.1
      (by decide) rfl (fun _ => rfl) [] opsGroup [freshTeam, labGroup] "boom" rfl
      (by decide) rfl⟩⟩

/-! ## The member list after a member operation -/

theorem AddMember_Members (g : Group) (now : Nat) (u : String) :
    (g.AddMember now u).2.Members = if u ∈ g.Members then g.Members else g.Members ++ [u] := by
  unfold Group.AddMember
  by_cases hu : u ∈ g.Members <;> simp [hu]

theorem RemoveMember_Members (g : Group) (now : Nat) (u : String) :
    (g.RemoveMember now u).2.Members =
      (if u = g.OwnerID then g.Members else g.Members.erase u) ∧
    (g.RemoveMember now u).2.OwnerID = g.OwnerID := by
  by_cases h : u = g.OwnerID ∨ u ∉ g.Members
  · have hloop := removeMemberLoop_none g.OwnerID u g.Members h
    unfold Group.RemoveMember
    rw [hloop]
    refine ⟨?_, rfl⟩
    by_cases ho : u = g.OwnerID
    · simp [ho]
    · have hnot : u ∉ g.Members := by
        rcases h with h | h
        · exact absurd h ho
        · exact h
      simp [ho, List.erase_of_not_mem hnot]
  · simp only [not_or, not_not] at h
    obtain ⟨pre, post, hsplit, hpre, hloop⟩ := removeMemberLoop_some g.OwnerID u g.Members h.1 h.2
    unfold Group.RemoveMember
    rw [hloop]
    refine ⟨?_, rfl⟩
    simp only [h.1, if_false]
    rw [hsplit, List.erase_append_right _ hpre, List.erase_cons_head]

theorem addAll_members (now : Nat) (userIDs : List String) (g : Group) :
    (∀ u ∈ userIDs, u ∈ (MemberAction.add.applyAll now g userIDs).Members) ∧
    g.Members <+: (MemberAction.add.applyAll now g userIDs).Members ∧
    (∀ u ∈ g.Members,
      (MemberAction.add.applyAll now g userIDs).Members.count u = g.Members.count u) ∧
    (∀ u ∈ (MemberAction.add.applyAll now g userIDs).Members, u ∈ g.Members ∨ u ∈ userIDs) := by
  induction userIDs generalizing g with
  | nil => exact ⟨by simp, List.prefix_refl _, fun _ _ => rfl, fun u hu => Or.inl hu⟩
  | cons v rest ih =>
    obtain ⟨h1, h2, h3, h4⟩ := ih (g.AddMember now v).2
    have hstep : (MemberAction.add.applyAll now g (v :: rest)) =
        MemberAction.add.applyAll now (g.AddMember now v).2 rest := rfl
    have hmem := AddMember_Members g now v
    have hpre : g.Members <+: (g.AddMember now v).2.Members := by
      rw [hmem]
      by_cases hv : v ∈ g.Members
      · simp [hv]
      · simp [hv]
    have hv1 : v ∈ (g.AddMember now v).2.Members := by
      rw [hmem]
      by_cases hv : v ∈ g.Members
      · simp [hv]
      · simp [hv]
    rw [hstep]
    refine ⟨?_, hpre.trans h2, ?_, ?_⟩
    · intro u hu
      rcases List.mem_cons.mp hu with h | h
      · rw [h]
        exact h2.subset hv1
      · exact h1 u h
    · intro u hu
      rw [h3 u (hpre.subset hu), hmem]
      by_cases hv : v ∈ g.Members
      · simp [hv]
      · have hne : u ≠ v := fun hc => hv (hc ▸ hu)
        simp [hv, List.count_append, hne]
    · intro u hu
      rcases h4 u hu with h | h
      · rw [hmem] at h
        by_cases hv : v ∈ g.Members
        · simp only [hv, if_true] at h
          exact Or.inl h
        · simp only [hv, if_false, List.mem_append, List.mem_singleton] at h
          rcases h with h | h
          · exact Or.inl h
          · exact Or.inr (by simp [h])
      · exact Or.inr (List.mem_cons_of_mem _ h)

theorem removeAll_members (now : Nat) (userIDs : List String) (g : Group) :
    (MemberAction.remove.applyAll now g userIDs).OwnerID = g.OwnerID ∧
    (MemberAction.remove.applyAll now g userIDs).Members.Sublist g.Members ∧
    (MemberAction.remove.applyAll now g userIDs).Members.count g.OwnerID =
      g.Members.count g.OwnerID ∧
    (∀ u, u ≠ g.OwnerID →
      (MemberAction.remove.applyAll now g userIDs).Members.count u =
        g.Members.count u - userIDs.count u) := by
  induction userIDs generalizing g with
  | nil => exact ⟨rfl, List.Sublist.refl _, rfl, fun u _ => by simp [MemberAction.applyAll]⟩
  | cons v rest ih =>
    obtain ⟨h1, h2, h3, h4⟩ := ih (g.RemoveMember now v).2
    have hstep : (MemberAction.remove.applyAll now g (v :: rest)) =
        MemberAction.remove.applyAll now (g.RemoveMember now v).2 rest := rfl
    obtain ⟨hmem, hown⟩ := RemoveMember_Members g now v
    rw [hown] at h1 h3 h4
    rw [hstep]
    refine ⟨h1, ?_, ?_, ?_⟩
    · refine h2.trans ?_
      rw [hmem]
      by_cases hv : v = g.OwnerID
      · simp [hv]
      · simp only [hv, if_false]
        exact List.erase_sublist _ _
    · rw [h3, hmem]
      by_cases hv : v = g.OwnerID
      · simp [hv]
      · simp only [hv, if_false]
        exact List.count_erase_of_ne (fun hc => hv hc.symm) _
    · intro u hu
      rw [h4 u hu, hmem]
      by_cases hv : v = g.OwnerID
      · have hne : u ≠ v := fun hc => hu (hc.trans hv)
        simp only [hv, if_true]
        rw [← hv, List.count_cons_of_ne hne]
      · simp only [hv, if_false]
        by_cases huv : u = v
        · rw [huv, List.count_erase_self, List.count_cons_self]
          omega
        · rw [List.count_erase_of_ne huv, List.count_cons_of_ne huv]

theorem find_at (groupID : String) (pre : List Group) (g : Group) (post : List Group)
    (hpre : ∀ x ∈ pre, x.ID ≠ groupID) (hg : g.ID = groupID) (hactive : g.Status ≠ "deleted") :
    (pre ++ g :: post).find? (fun group => decide (group.ID = groupID ∧ group.Status ≠ "deleted")) =
      some g := by
  induction pre with
  | nil => simp [List.find?, hg, hactive]
  | cons p ps ih =>
    have hp : p.ID ≠ groupID := hpre p (by simp)
    rw [List.cons_append, List.find?_cons_of_neg]
    · exact ih (fun x hx => hpre x (List.mem_cons_of_mem _ hx))
    · simp [hp]

theorem GetGroupByID_at (fs : FileStorage) (pre : List Group) (g : Group) (post : List Group)
    (hload : fs.LoadGroups = .ok (pre ++ g :: post))
    (hnd : ((pre ++ g :: post).map Group.ID).Nodup) (hactive : g.Status ≠ "deleted") :
    fs.GetGroupByID g.ID = .ok g := by
  unfold FileStorage.GetGroupByID
  rw [hload]
  simp only
  rw [find_at g.ID pre g post (nodup_ids_pre pre g post hnd) rfl hactive]

theorem membersOperation_single_ok (act : MemberAction) (env : Nat → MemberEnv)
    (fs : FileStorage) (req : GroupMemberRequest) (pre : List Group) (g : Group)
    (post : List Group) (hids : req.UserIDs ≠ []) (hall : req.AllGroups = false)
    (hid : req.GroupID ≠ "") (hload : fs.LoadGroups = .ok (pre ++ g :: post))
    (hg : g.ID = req.GroupID) (hactive : g.Status ≠ "deleted")
    (hnd : ((pre ++ g :: post).map Group.ID).Nodup)
    (hremote : (env 0).remote g.ID req.UserIDs = none) (hsave : (env 0).saveErr = none) :
    ∃ resp, membersOperation act env fs req =
        (⟨.stored (pre ++ act.applyAll (env 0).now g req.UserIDs :: post), 1, [],
          [(g.ID, req.UserIDs)]⟩, .ok resp) ∧
      resp.Success = true ∧ resp.Affected = 1 := by
  have hget := GetGroupByID_at fs pre g post hload hnd hactive
  rw [hg] at hget
  have hloop := updateGroupLoop_at (act.applyAll (env 0).now g req.UserIDs) g pre post
    (by rw [applyAll_ID]; exact nodup_ids_pre pre g post hnd) (by rw [applyAll_ID])
  have hupd : fs.UpdateGroup (env 0).saveErr (act.applyAll (env 0).now g req.UserIDs) =
      .ok (.stored (pre ++ act.applyAll (env 0).now g req.UserIDs :: post)) := by
    unfold FileStorage.UpdateGroup FileStorage.SaveGroups
    rw [hload]
    simp only [hloop, hsave]
  rw [membersOperation_single act env fs req hids hall hid, hget]
  simp only [hremote, hupd]
  exact ⟨_, rfl, rfl, rfl⟩

/-- C18 as stated fails when the write of the updated record fails: a record with the
given id exists and is not deleted, ids are distinct and the remote call succeeds, yet
`AddMembers` returns `Success` false with `Affected` 0; the store is as before when the
write is refused before the file is opened, and cannot be loaded any more when writing
fails after the file was opened. -/
theorem C18_counterexample_write_fails :
    (readOnlyEnv 0).remote opsGroup.ID ["u7"] = none ∧
    (diskFullEnv 0).remote opsGroup.ID ["u7"] = none ∧
    ([opsGroup].map Group.ID).Nodup ∧ opsGroup.Status ≠ "deleted" ∧
    AddMembers readOnlyEnv (.stored [opsGroup]) ⟨"chat9", ["u7"], false⟩ =
      (⟨.stored [opsGroup], 0, [], [("chat9", ["u7"])]⟩,
        .ok { Success := false
              Message := "更新群组信息失败: 写入群组数据文件失败: read-only file system"
              Affected := 0 }) ∧
    AddMembers diskFullEnv (.stored [opsGroup]) ⟨"chat9", ["u7"], false⟩ =
      (⟨.unreadable "解析群组数据失败: unexpected end of JSON input", 0, [],
          [("chat9", ["u7"])]⟩,
        .ok { Success := false
              Message := "更新群组信息失败: 写入群组数据文件失败: disk full"
              Affected := 0 }) := by
  refine ⟨rfl, rfl, by decide, by decide, rfl, rfl⟩

/-- C18 (amended): in single-group mode with a non-empty user id list and a non-empty
group id, when the record `g` with that id is not deleted, record ids are pairwise
distinct, the remote call succeeds and the write of the updated record succeeds,
`AddMembers` returns `Success` true with `Affected` 1 and replaces `g` by a record that
contains every requested id, keeps the earlier members as a prefix, duplicates none of
them and adds no other id; `RemoveMembers` likewise returns `Affected` 1 and replaces `g`
by a record whose members are a subsequence of the earlier ones in which the owner occurs
as often as before and every other id as often as before less the number of times it was
requested, so that with pairwise distinct members no requested non-owner id remains; in
both cases every other stored record is unchanged. -/
theorem C18_single_group_update (env : Nat → MemberEnv) (fs : FileStorage)
    (req : GroupMemberRequest) (pre : List Group) (g : Group) (post : List Group)
    (hids : req.UserIDs ≠ []) (hall : req.AllGroups = false) (hid : req.GroupID ≠ "")
    (hload : fs.LoadGroups = .ok (pre ++ g :: post)) (hg : g.ID = req.GroupID)
    (hactive : g.Status ≠ "deleted") (hnd : ((pre ++ g :: post).map Group.ID).Nodup)
    (hremote : (env 0).remote g.ID req.UserIDs = none) (hsave : (env 0).saveErr = none) :
    (∃ resp g', AddMembers env fs req =
        (⟨.stored (pre ++ g' :: post), 1, [], [(g.ID, req.UserIDs)]⟩, .ok resp) ∧
      resp.Success = true ∧ resp.Affected = 1 ∧ g'.ID = g.ID ∧
      (∀ u ∈ req.UserIDs, u ∈ g'.Members) ∧ g.Members <+: g'.Members ∧
      (∀ u ∈ g.Members, g'.Members.count u = g.Members.count u) ∧
      (∀ u ∈ g'.Members, u ∈ g.Members ∨ u ∈ req.UserIDs)) ∧
    (∃ resp g', RemoveMembers env fs req =
        (⟨.stored (pre ++ g' :: post), 1, [], [(g.ID, req.UserIDs)]⟩, .ok resp) ∧
      resp.Success = true ∧ resp.Affected = 1 ∧ g'.ID = g.ID ∧ g'.OwnerID = g.OwnerID ∧
      g'.Members.Sublist g.Members ∧
      g'.Members.count g.OwnerID = g.Members.count g.OwnerID ∧
      (∀ u, u ≠ g.OwnerID → g'.Members.count u = g.Members.count u - req.UserIDs.count u) ∧
      (g.Members.Nodup → ∀ u ∈ req.UserIDs, u ≠ g.OwnerID → u ∉ g'.Members)) := by
  constructor
  · obtain ⟨resp, hrun, hs, ha⟩ := membersOperation_single_ok .add env fs req pre g post
      hids hall hid hload hg hactive hnd hremote hsave
    obtain ⟨h1, h2, h3, h4⟩ := addAll_members (env 0).now req.UserIDs g
    exact ⟨resp, _, hrun, hs, ha, applyAll_ID _ _ _ _, h1, h2, h3, h4⟩
  · obtain ⟨resp, hrun, hs, ha⟩ := membersOperation_single_ok .remove env fs req pre g post
      hids hall hid hload hg hactive hnd hremote hsave
    obtain ⟨h1, h2, h3, h4⟩ := removeAll_members (env 0).now req.UserIDs g
    refine ⟨resp, _, hrun, hs, ha, applyAll_ID _ _ _ _, h1, h2, h3, h4, ?_⟩
    intro hmnd u hu hne hin
    have hc := h4 u hne
    have hle : g.Members.count u ≤ 1 := List.nodup_iff_count_le_one.mp hmnd u
    have hpos : 0 < req.UserIDs.count u := List.count_pos_iff.mpr hu
    have hpos2 : 0 < (MemberAction.remove.applyAll (env 0).now g req.UserIDs).Members.count u :=
      List.count_pos_iff.mpr hin
    omega

/-- C18 (amended), at the store holding "Ops", "Team" and "Lab": adding "u7" and "u2"
to "Team", whose members are "u2". -/
theorem C18_single_group_update_witness :
    (((⟨"chat2", ["u7", "u2"], false⟩ : GroupMemberRequest).UserIDs ≠ [] ∧
        (⟨"chat2", ["u7", "u2"], false⟩ : GroupMemberRequest).GroupID ≠ "" ∧
        (FileStorage.stored [opsGroup, freshTeam, labGroup]).LoadGroups =
          .ok ([opsGroup] ++ freshTeam :: [labGroup]) ∧
        freshTeam.Status ≠ "deleted" ∧
        (([opsGroup] ++ freshTeam :: [labGroup]).map Group.ID).Nodup ∧
        (allFineEnv 0).remote freshTeam.ID ["u7", "u2"] = none ∧
        (allFineEnv 0).saveErr = none) ∧
      AddMembers allFineEnv (.stored [opsGroup, freshTeam, labGroup])
          ⟨"chat2", ["u7", "u2"], false⟩ =
        (⟨.stored [opsGroup,
            { freshTeam with Members := ["u2", "u7"], MemberCount := 2, UpdatedAt := 9 },
            labGroup], 1, [], [("chat2", ["u7", "u2"])]⟩,
          .ok { Success := true, Message := "成功添加成员到 1 个群组", Affected := 1 })) ∧
    ∃ resp g', AddMembers allFineEnv (.stored [opsGroup, freshTeam, labGroup])
        ⟨"chat2", ["u7", "u2"], false⟩ =
        (⟨.stored ([opsGroup] ++ g' :: [labGroup]), 1, [],
          [(freshTeam.ID, (⟨"chat2", ["u7", "u2"], false⟩ : GroupMemberRequest).UserIDs)]⟩,
          .ok resp) ∧
      resp.Success = true ∧ resp.Affected = 1 ∧ g'.ID = freshTeam.ID ∧
      (∀ u ∈ (⟨"chat2", ["u7", "u2"], false⟩ : GroupMemberRequest).UserIDs, u ∈ g'.Members) ∧
      freshTeam.Members <+: g'.Members ∧
      (∀ u ∈ freshTeam.Members, g'.Members.count u = freshTeam.Members.count u) ∧
      (∀ u ∈ g'.Members, u ∈ freshTeam.Members ∨
        u ∈ (⟨"chat2", ["u7", "u2"], false⟩ : GroupMemberRequest).UserIDs) :=
  ⟨⟨⟨by decide, by decide, rfl, by decide, by decide, rfl, rfl⟩, rfl⟩,
   (C18_single_group_update allFineEnv (.stored [opsGroup, freshTeam, labGroup])
      ⟨"chat2", ["u7", "u2"], false⟩ [opsGroup] freshTeam [labGroup] (by decide) rfl
      (by decide) rfl rfl (by decide) (by decide) rfl rfl).1⟩

/-! ## Duplicates in the member field, and names held by deleted records -/

theorem resolveMemberIDs_nodup_iff (csvGroup : CSVGroupData) :
    (resolveMemberIDs csvGroup).Nodup ↔ (memberTokens csvGroup.MemberIDs).Nodup := by
  rw [resolveMemberIDs_eq]
  by_cases ho : csvGroup.OwnerID ∈ memberTokens csvGroup.MemberIDs
  · simp [ho]
  · simp only [ho, if_false]
    rw [List.nodup_append]
    constructor
    · exact fun h => h.1
    · intro h
      refine ⟨h, by simp, ?_⟩
      intro a ha hb
      rw [List.mem_singleton] at hb
      exact ho (hb ▸ ha)

theorem createRow_persists (ToLower : String → String) (env : CreateEnv) (st : CreateState)
    (row : CSVGroupData) (resp : GroupCreateResponse) (groups : List Group)
    (hcall : env.CreateGroup (createRequest ToLower row) = .ok resp)
    (hsucc : resp.Success = true) (hsave : env.saveErr = none)
    (hload : st.storage.LoadGroups = .ok groups)
    (hfree : ∀ x ∈ groups, x.ID ≠ resp.GroupID ∧ x.Name ≠ row.Name) :
    createRow ToLower env st row =
      { st with
        storage := .stored (groups ++ [createdGroup env.now row resp.GroupID])
        calls := st.calls ++ [createRequest ToLower row]
        successCount := st.successCount + 1 } := by
  have hex : st.storage.GroupExists row.Name = false := by
    unfold FileStorage.GroupExists
    rw [hload]
    cases hany : groups.any (fun group => decide (group.Name = row.Name ∧ group.Status ≠ "deleted"))
      with
    | false => exact hany
    | true =>
      obtain ⟨x, hx, hdec⟩ := List.any_eq_true.mp hany
      simp only [decide_eq_true_eq] at hdec
      exact absurd hdec.1 (hfree x hx).2
  have hadd : st.storage.AddGroup env.saveErr (createdGroup env.now row resp.GroupID) =
      .ok (.stored (groups ++ [createdGroup env.now row resp.GroupID])) :=
    (AddGroup_ok_iff _ _ _ _).mpr ⟨groups, hload, hsave, hfree, rfl⟩
  unfold createRow
  simp only [hex, hcall, hsucc, hadd]
  simp

/-- C21: the accepted row "Team" with owner "u1" and member field "a,a" is created
successfully, and the member list sent to the remote platform and stored locally is
a, a, u1, in which "a" occurs twice; `MemberCount` is 3, and one `RemoveMember("a")`
leaves "a" a member. -/
theorem C21_duplicate_members_kept :
    LoadGroupsFromCSV (.ok [["群名称", "群描述", "群主用户ID", "群成员用户ID列表"],
      ["Team", "", "u1", "a,a"]]) = .ok [dupRow] ∧
    (createRow asciiLower acceptingEnv freshState dupRow).successCount = 1 ∧
    (createRow asciiLower acceptingEnv freshState dupRow).calls.map
      (fun req => req.MemberIDs) = [["a", "a", "u1"]] ∧
    (createRow asciiLower acceptingEnv freshState dupRow).storage =
      .stored [{ NewGroup 5 "Team" "" "u1" with
        ID := "chat1", Members := ["a", "a", "u1"], MemberCount := 3 }] ∧
    ¬ (["a", "a", "u1"] : List String).Nodup ∧
    (({ NewGroup 5 "Team" "" "u1" with
        ID := "chat1", Members := ["a", "a", "u1"], MemberCount := 3 } : Group).RemoveMember
      9 "a").2.Members = ["a", "u1"] := by
  refine ⟨rfl, rfl, rfl, rfl, by decide, rfl⟩

/-- C22: with only the soft-deleted record "chat1"/"Team" stored, the row "Team" passes
the name check, the remote create call is made and reports success with the chat id
"chat2", which no stored record holds, and the write would succeed; yet the row is
counted as a failure with the entry "Team (保存失败: ...)" and the store is left without a
record for "chat2". -/
theorem C22_remote_group_without_record :
    (∀ x ∈ [deletedTeam], x.ID ≠ "chat2") ∧
    deletedTeamState.storage.GroupExists teamRow.Name = false ∧
    chat2Env.CreateGroup (createRequest asciiLower teamRow) =
      .ok { GroupID := "chat2", Success := true, Message := "群组创建成功" } ∧
    chat2Env.saveErr = none ∧
    (createRow asciiLower chat2Env deletedTeamState teamRow).calls =
      [createRequest asciiLower teamRow] ∧
    (createRow asciiLower chat2Env deletedTeamState teamRow).successCount = 0 ∧
    (createRow asciiLower chat2Env deletedTeamState teamRow).failCount = 1 ∧
    (createRow asciiLower chat2Env deletedTeamState teamRow).failedGroups =
      ["Team (保存失败: 群组已存在: ID=chat2, Name=Team)"] ∧
    (createRow asciiLower chat2Env deletedTeamState teamRow).storage = .stored [deletedTeam] := by
  refine ⟨by decide, by decide, rfl, rfl, rfl, rfl, rfl, rfl, rfl⟩

/-! ## Soft-deleted records and the member operations -/

theorem updateGroupLoop_keeps (group d : Group) (pre post cur' : List Group)
    (hd : d.ID ≠ group.ID) (h : updateGroupLoop group (pre ++ d :: post) = some cur') :
    ∃ pre' post', cur' = pre' ++ d :: post' ∧ pre'.length = pre.length ∧
      post'.length = post.length := by
  induction pre generalizing cur' with
  | nil =>
    rw [List.nil_append, updateGroupLoop] at h
    simp only [hd, if_false] at h
    cases hloop : updateGroupLoop group post with
    | none => simp [hloop] at h
    | some r =>
      simp only [hloop, Option.some.injEq] at h
      have hlen : r.length = post.length := by
        have := congrArg List.length (updateGroupLoop_ids group post r hloop)
        simpa using this
      exact ⟨[], r, by simp [← h], rfl, hlen⟩
  | cons p ps ih =>
    rw [List.cons_append, updateGroupLoop] at h
    by_cases hp : p.ID = group.ID
    · rw [if_pos hp, Option.some.injEq] at h
      exact ⟨group :: ps, post, by simp [← h], by simp, rfl⟩
    · rw [if_neg hp] at h
      cases hloop : updateGroupLoop group (ps ++ d :: post) with
      | none => simp [hloop] at h
      | some r =>
        simp only [hloop, Option.some.injEq] at h
        obtain ⟨pre', post', hr, h1, h2⟩ := ih r hloop
        exact ⟨p :: pre', post', by simp [← h, hr], by simp [h1], h2⟩

theorem deleted_id_ne (groups : List Group) (hnd : (groups.map Group.ID).Nodup)
    (d g : Group) (hd : d ∈ groups) (hg : g ∈ groups) (hdel : d.Status = "deleted")
    (hactive : g.Status ≠ "deleted") : g.ID ≠ d.ID := by
  intro hc
  have := List.inj_on_of_nodup_map hnd hg hd hc
  rw [this] at hactive
  exact hactive hdel

theorem membersOperation_deleted_kept (act : MemberAction) (env : Nat → MemberEnv)
    (fs : FileStorage) (req : GroupMemberRequest) (pre : List Group) (d : Group)
    (post : List Group) (hload : fs.LoadGroups = .ok (pre ++ d :: post))
    (hnd : ((pre ++ d :: post).map Group.ID).Nodup) (hdel : d.Status = "deleted") :
    ((∀ k, failsAfterOpen (env k).saveErr = false) →
      ∃ pre' post', (membersOperation act env fs req).1.storage.LoadGroups =
        .ok (pre' ++ d :: post') ∧
      pre'.length = pre.length ∧ post'.length = post.length) ∧
    (∀ call ∈ (membersOperation act env fs req).1.calls, call.1 ≠ d.ID) := by
  have hdin : d ∈ pre ++ d :: post := by simp
  by_cases hids : req.UserIDs = []
  · rw [(membersOperation_failures act env fs req).1 hids]
    exact ⟨fun _ => ⟨pre, post, hload, rfl, rfl⟩, by simp⟩
  · by_cases hall : req.AllGroups = true
    · rw [membersOperation_all_groups act env fs req (pre ++ d :: post) hids hall hload]
      constructor
      · intro hwrites
        have hrec := membersLoop_records act req.UserIDs env (pre ++ d :: post) [] 0
          ⟨fs, 0, [], []⟩ (by simpa using hload) (by simpa using hnd) hwrites
        simp only [List.nil_append] at hrec
        rw [recordsAfter_append, recordsAfter] at hrec
        have hkeep : (if d.Status ≠ "deleted" ∧
            (env (0 + pre.length)).remote d.ID req.UserIDs = none ∧
            (env (0 + pre.length)).saveErr = none then
              act.applyAll (env (0 + pre.length)).now d req.UserIDs else d) = d := by
          simp [hdel]
        rw [hkeep] at hrec
        exact ⟨_, _, hrec, recordsAfter_length _ _ _ _ _, recordsAfter_length _ _ _ _ _⟩
      · obtain ⟨hc, -, -⟩ := membersLoop_report act req.UserIDs env (pre ++ d :: post) 0
          ⟨fs, 0, [], []⟩ ((pre ++ d :: post).map Group.ID) none ⟨_, hload, rfl⟩
          (fun g hg => List.mem_map_of_mem _ hg)
        intro call hcall
        rw [hc] at hcall
        simp only [List.nil_append, List.mem_map] at hcall
        obtain ⟨p, hp, hpc⟩ := hcall
        have hp1 : p.1 ∈ (pre ++ d :: post).filter (fun g => decide (g.Status ≠ "deleted")) := by
          rw [← activeWithEnv_fst env 0 (pre ++ d :: post)]
          exact List.mem_map_of_mem _ hp
        rw [List.mem_filter] at hp1
        rw [← hpc]
        exact deleted_id_ne _ hnd d p.1 hdin hp1.1 hdel (by simpa using hp1.2)
    · have hall' : req.AllGroups = false := by simpa using hall
      by_cases hid : req.GroupID = ""
      · rw [(membersOperation_failures act env fs req).2.1 hids hall' hid]
        exact ⟨fun _ => ⟨pre, post, hload, rfl, rfl⟩, by simp⟩
      · rw [membersOperation_single act env fs req hids hall' hid]
        cases hget : fs.GetGroupByID req.GroupID with
        | error err => exact ⟨fun _ => ⟨pre, post, hload, rfl, rfl⟩, by simp⟩
        | ok g =>
          obtain ⟨groups, hgs, hgin, -, hgactive⟩ := GetGroupByID_ok fs req.GroupID g hget
          rw [hload] at hgs
          cases hgs
          have hne : g.ID ≠ d.ID := deleted_id_ne _ hnd d g hdin hgin hdel hgactive
          have hcalls : ∀ call ∈ [(g.ID, req.UserIDs)], call.1 ≠ d.ID := by
            intro call hcall
            rw [List.mem_singleton] at hcall
            rw [hcall]
            exact hne
          simp only
          cases hremote : (env 0).remote g.ID req.UserIDs with
          | some err => exact ⟨fun _ => ⟨pre, post, hload, rfl, rfl⟩, hcalls⟩
          | none =>
            simp only
            cases hupd : fs.UpdateGroup (env 0).saveErr
                (act.applyAll (env 0).now g req.UserIDs) with
            | error e =>
              obtain ⟨err, left⟩ := e
              refine ⟨fun hwrites => ⟨pre, post, ?_, rfl, rfl⟩, hcalls⟩
              show left.LoadGroups = .ok (pre ++ d :: post)
              rw [UpdateGroup_error_keeps _ _ _ _ _ hupd (hwrites 0)]
              exact hload
            | ok storage =>
              refine ⟨fun _ => ?_, hcalls⟩
              obtain ⟨gs, gs', hgs, hloop, hfs⟩ := UpdateGroup_ok _ _ _ _ hupd
              rw [hload] at hgs
              cases hgs
              obtain ⟨pre', post', hsplit, h1, h2⟩ :=
                updateGroupLoop_keeps (act.applyAll (env 0).now g req.UserIDs) d pre post gs'
                  (by rw [applyAll_ID]; exact fun hc => hne hc.symm) hloop
              exact ⟨pre', post', by rw [hfs, hsplit]; rfl, h1, h2⟩

/-- C23 as stated fails when a write fails after the file was opened: in the store
holding "Ops", the deleted "chat1"/"Team" and "Lab" (reached by three `AddGroup` calls
and a `DeleteGroup`), adding "u7" to all groups makes no remote call for the deleted
record, but the write of the update of "Ops" leaves a truncated file, so the deleted
record is not stored afterwards: the file cannot be loaded. -/
theorem C23_counterexample_truncated_write :
    Reachable (.stored [opsGroup, deletedTeam, labGroup]) ∧
    (FileStorage.stored [opsGroup, deletedTeam, labGroup]).LoadGroups =
      .ok [opsGroup, deletedTeam, labGroup] ∧
    ([opsGroup, deletedTeam, labGroup].map Group.ID).Nodup ∧
    deletedTeam.Status = "deleted" ∧
    (AddMembers diskFullEnv (.stored [opsGroup, deletedTeam, labGroup])
        ⟨"", ["u7"], true⟩).1.calls = [("chat9", ["u7"]), ("chat4", ["u7"])] ∧
    (AddMembers diskFullEnv (.stored [opsGroup, deletedTeam, labGroup])
        ⟨"", ["u7"], true⟩).1.storage.LoadGroups =
      .error "解析群组数据失败: unexpected end of JSON input" := by
  refine ⟨?_, rfl, by decide, rfl, rfl, rfl⟩
  exact .deleteGroup none 1 "chat1"
    (.addGroup none labGroup
      (.addGroup none { NewGroup 1 "Team" "" "u1" with ID := "chat1" }
        (.addGroup none opsGroup .noFile rfl) rfl) rfl) rfl

/-- C23 (amended): in a store whose record ids are pairwise distinct, whatever the
request and the remote and write outcomes, none of the remote calls `AddMembers` and
`RemoveMembers` make carries the id of a record with status deleted; and, provided no
write of the operation fails after the file was opened, they leave every such record as
it was and where it was (with as many records before and after it). -/
theorem C23_deleted_records_untouched
    (op : (Nat → MemberEnv) → FileStorage → GroupMemberRequest →
      MemberState × Except String GroupMemberResponse)
    (hop : op = AddMembers ∨ op = RemoveMembers)
    (env : Nat → MemberEnv) (fs : FileStorage) (req : GroupMemberRequest)
    (pre : List Group) (d : Group) (post : List Group)
    (hload : fs.LoadGroups = .ok (pre ++ d :: post))
    (hnd : ((pre ++ d :: post).map Group.ID).Nodup) (hdel : d.Status = "deleted") :
    ((∀ k, failsAfterOpen (env k).saveErr = false) →
      ∃ pre' post', (op env fs req).1.storage.LoadGroups = .ok (pre' ++ d :: post') ∧
        pre'.length = pre.length ∧ post'.length = post.length) ∧
    (∀ call ∈ (op env fs req).1.calls, call.1 ≠ d.ID) := by
  rcases hop with h | h
  · rw [h]
    exact membersOperation_deleted_kept .add env fs req pre d post hload hnd hdel
  · rw [h]
    exact membersOperation_deleted_kept .remove env fs req pre d post hload hnd hdel

/-- C23 (amended), at the store holding "Ops", the deleted "chat1"/"Team" and "Lab":
adding "u7" to all groups, with writes that succeed, changes "Ops" and "Lab", makes a
call for each of the two, and leaves the deleted record in the middle. -/
theorem C23_deleted_records_untouched_witness :
    ((AddMembers = AddMembers ∨ AddMembers = RemoveMembers) ∧
      (FileStorage.stored [opsGroup, deletedTeam, labGroup]).LoadGroups =
        .ok ([opsGroup] ++ deletedTeam :: [labGroup]) ∧
      (([opsGroup] ++ deletedTeam :: [labGroup]).map Group.ID).Nodup ∧
      deletedTeam.Status = "deleted" ∧
      (∀ k, failsAfterOpen (allFineEnv k).saveErr = false) ∧
      (AddMembers allFineEnv (.stored [opsGroup, deletedTeam, labGroup])
          ⟨"", ["u7"], true⟩).1.storage =
        .stored [{ opsGroup with Members := ["u3", "u7"], MemberCount := 2, UpdatedAt := 9 },
          deletedTeam,
          { labGroup with Members := ["u4", "u7"], MemberCount := 2, UpdatedAt := 9 }] ∧
      (AddMembers allFineEnv (.stored [opsGroup, deletedTeam, labGroup])
          ⟨"", ["u7"], true⟩).1.calls = [("chat9", ["u7"]), ("chat4", ["u7"])]) ∧
    (∃ pre' post', (AddMembers allFineEnv (.stored [opsGroup, deletedTeam, labGroup])
        ⟨"", ["u7"], true⟩).1.storage.LoadGroups = .ok (pre' ++ deletedTeam :: post') ∧
      pre'.length = [opsGroup].length ∧ post'.length = [labGroup].length) ∧
    (∀ call ∈ (AddMembers allFineEnv (.stored [opsGroup, deletedTeam, labGroup])
        ⟨"", ["u7"], true⟩).1.calls, call.1 ≠ deletedTeam.ID) :=
  ⟨⟨Or.inl rfl, rfl, by decide, rfl, fun _ => rfl, rfl, rfl⟩,
   (C23_deleted_records_untouched AddMembers (Or.inl rfl) allFineEnv
     (.stored [opsGroup, deletedTeam, labGroup]) ⟨"", ["u7"], true⟩
     [opsGroup] deletedTeam [labGroup] rfl (by decide) rfl).1 (fun _ => rfl),
   (C23_deleted_records_untouched AddMembers (Or.inl rfl) allFineEnv
     (.stored [opsGroup, deletedTeam, labGroup]) ⟨"", ["u7"], true⟩
     [opsGroup] deletedTeam [labGroup] rfl (by decide) rfl).2⟩

end TiDding
